import Mathlib

/-! # harvid: request parsing (`ics_handler.c`) and the frame decoder (`ffdecoder.c`)

A shallow embedding of the two source files.  C strings are lists of
characters (the content up to, not including, the terminating NUL), C `int`
values are `Int`.  A finite `float` or `double` value is the rational number it
stands for, and every floating-point conversion and operation rounds its exact
result to the format (round to nearest, ties to even), as IEEE 754 arithmetic
does.
-/

namespace Harvid

/-! ## C string helpers used by `ics_handler.c` -/

/-- `strcmp(a, b) == 0` on NUL-terminated strings. -/
def strcmp_eq (a b : List Char) : Bool := a == b

/-- `strncmp(a, b, n) == 0`: the first `n` characters agree (a string that ends
earlier must end in both). -/
def strncmp_eq (a b : List Char) (n : Nat) : Bool := a.take n == b.take n

/-- `strstr(h, n) != NULL`: `n` occurs in `h` at some position. -/
def strstr (h n : List Char) : Bool :=
  match h with
  | [] => n.isPrefixOf []
  | c :: t => n.isPrefixOf (c :: t) || strstr t n

/-- The C string that starts at `&f[off]`.  `pre` are the bytes that lie in
memory right before `f` (nearest byte last); they are only looked at when
`off` is negative, in which case the string runs from there up to the first
NUL byte, through `f` if no NUL comes earlier. -/
def cstr_at (pre f : List Char) (off : Int) : List Char :=
  if 0 ≤ off then f.drop off.toNat
  else
    let p := pre.drop (pre.length - (-off).toNat)
    if p.all (fun c => c != Char.ofNat 0) then p ++ f
    else p.takeWhile (fun c => c != Char.ofNat 0)

/-- `check_path` of `ics_handler.c`, lines 56-66.  The last test compares the
string at `&f[len-3]`; for `len < 3` that address lies before `f`, so the
bytes `pre` in front of the buffer take part. -/
def check_path (pre f : List Char) : Int :=
  let len : Int := f.length
  if f.head? == some '/' || strcmp_eq f ['.', '.'] || strncmp_eq f ['.', '.', '/'] 3
      || strstr f ['/', '.', '.', '/']
      || strcmp_eq (cstr_at pre f (len - 3)) ['/', '.', '.'] then -1
  else 0

/-- The index into `f` at which the last test of `check_path` (line 64,
`&(f[len-3])`) starts to read, when that test is evaluated: the four tests
before it in the `||` chain are then all false. -/
def check_path_suffix_index (f : List Char) : Option Int :=
  if f.head? == some '/' || strcmp_eq f ['.', '.'] || strncmp_eq f ['.', '.', '/'] 3
      || strstr f ['/', '.', '.', '/'] then none
  else some ((f.length : Int) - 3)

/-! ## Query parsing (`ics_handler.c`) -/

/-- The constants of `enums.h` and `ffcompat.h` that `ics_handler.c` uses; the
headers are not part of the sources at hand, so their values are a parameter. -/
structure Consts where
  FMT_JPG : Int
  FMT_PNG : Int
  FMT_PPM : Int
  FMT_RAW : Int
  OUT_HTML : Int
  OUT_JSON : Int
  OUT_CSV : Int
  OUT_PLAIN : Int
  OPT_FLAT : Nat
  OPT_CSV : Nat
  PIX_FMT_RGB24 : Int
  PIX_FMT_RGBA : Int
  deriving DecidableEq, Repr

/-- One assignment of the constants, for evaluating the handler on concrete
requests. -/
def sample_consts : Consts :=
  { FMT_JPG := 1, FMT_PNG := 2, FMT_PPM := 3, FMT_RAW := 0,
    OUT_HTML := 5, OUT_JSON := 6, OUT_CSV := 7, OUT_PLAIN := 4,
    OPT_FLAT := 1, OPT_CSV := 2, PIX_FMT_RGB24 := 2, PIX_FMT_RGBA := 28 }

/-- The request arguments `ics_request_args` (the fields `ics_handler.c`
touches). -/
structure ics_request_args where
  file_name : Option (List Char)
  frame : Int
  out_width : Int
  out_height : Int
  idx_option : Nat
  render_fmt : Int
  decode_fmt : Int
  deriving DecidableEq, Repr

/-- The record `struct queryparserstate`; `a` is held by value. -/
structure queryparserstate where
  a : ics_request_args
  fn : Option (List Char)
  doit : Nat
  deriving DecidableEq, Repr

/-- C `isspace` in the "C" locale. -/
def isspace (c : Char) : Bool :=
  c == ' ' || c == '\t' || c == '\n' || c == '\r' || c == Char.ofNat 11 || c == Char.ofNat 12

/-- The digit loop of `atoi`: accumulate decimal digits, stop at the first
other character. -/
def atoi_digits (acc : Int) : List Char → Int
  | [] => acc
  | c :: t => if c.isDigit then atoi_digits (acc * 10 + ((c.toNat : Int) - 48)) t else acc

/-- C `atoi`: skip white space, take an optional sign, then decimal digits; a
string without digits gives 0.  (Values outside `int` are undefined in C; the
model does not wrap.) -/
def atoi (s : List Char) : Int :=
  match s.dropWhile isspace with
  | '-' :: t => - atoi_digits 0 t
  | '+' :: t => atoi_digits 0 t
  | t => atoi_digits 0 t

/-- The `format` branch of `parse_param`, lines 98-109. -/
def parse_format (K : Consts) (a : ics_request_args) (val : List Char) : ics_request_args :=
  if strcmp_eq val ['j', 'p', 'g'] then { a with render_fmt := K.FMT_JPG }
  else if strcmp_eq val ['j', 'p', 'e', 'g'] then { a with render_fmt := K.FMT_JPG }
  else if strcmp_eq val ['p', 'n', 'g'] then { a with render_fmt := K.FMT_PNG }
  else if strcmp_eq val ['p', 'p', 'm'] then { a with render_fmt := K.FMT_PPM }
  else if strcmp_eq val ['r', 'a', 'w'] then { a with render_fmt := K.FMT_RAW }
  else if strcmp_eq val ['r', 'g', 'b'] then
    { a with render_fmt := K.FMT_RAW, decode_fmt := K.PIX_FMT_RGB24 }
  else if strcmp_eq val ['r', 'g', 'b', 'a'] then
    { a with render_fmt := K.FMT_RAW, decode_fmt := K.PIX_FMT_RGBA }
  else if strcmp_eq val ['h', 't', 'm', 'l'] then { a with render_fmt := K.OUT_HTML }
  else if strcmp_eq val ['x', 'h', 't', 'm', 'l'] then { a with render_fmt := K.OUT_HTML }
  else if strcmp_eq val ['j', 's', 'o', 'n'] then { a with render_fmt := K.OUT_JSON }
  else if strcmp_eq val ['c', 's', 'v'] then
    { a with render_fmt := K.OUT_CSV, idx_option := a.idx_option ||| K.OPT_CSV }
  else if strcmp_eq val ['p', 'l', 'a', 'i', 'n'] then { a with render_fmt := K.OUT_PLAIN }
  else a

/-- `parse_param`, lines 76-111.  `kvp` is cut at its first `=` into key and
value; `url_unescape` (of `httprotocol.c`, not among the sources) is a
parameter and may return NULL (`none`). -/
def parse_param (K : Consts) (url_unescape : List Char → Option (List Char))
    (qps : queryparserstate) (kvp : List Char) : queryparserstate :=
  if !kvp.contains '=' then qps
  else
    let key := kvp.takeWhile (fun c => c != '=')
    let val := (kvp.dropWhile (fun c => c != '=')).drop 1
    if val.length < 1 || key.length < 1 then qps
    else if strcmp_eq key ['f', 'r', 'a', 'm', 'e'] then
      { qps with a := { qps.a with frame := atoi val }, doit := qps.doit ||| 1 }
    else if strcmp_eq key ['w'] then
      { qps with a := { qps.a with out_width := atoi val } }
    else if strcmp_eq key ['h'] then
      { qps with a := { qps.a with out_height := atoi val } }
    else if strcmp_eq key ['f', 'i', 'l', 'e'] then
      { qps with fn := url_unescape val, doit := qps.doit ||| 2 }
    else if strcmp_eq key ['f', 'l', 'a', 't', 'i', 'n', 'd', 'e', 'x'] then
      { qps with a := { qps.a with idx_option := qps.a.idx_option ||| K.OPT_FLAT } }
    else if strcmp_eq key ['f', 'o', 'r', 'm', 'a', 't'] then
      { qps with a := parse_format K qps.a val }
    else qps

/-- `parse_http_query_params`, lines 113-121: the query is cut at every `&`
and `?` (`strpbrk(s, "&?")`) and each piece, the last one included, goes
through `parse_param` in order. -/
def parse_http_query_params (K : Consts) (url_unescape : List Char → Option (List Char))
    (qps : queryparserstate) (query : List Char) : queryparserstate :=
  (query.splitOnP (fun c => c == '&' || c == '?')).foldl (parse_param K url_unescape) qps

/-- What the file system answers for a path: `stat` (`none` for -1, else the
mtime) and `access(.., R_OK) == 0`. -/
structure FileSys where
  stat : List Char → Option Int
  readable : List Char → Bool

/-- The observable actions of a request handler: an `httperror` with its status
code, or the call of `hdl_decode_frame` with the parsed arguments. -/
inductive Action where
  | httperror (status : Nat)
  | hdl_decode_frame (a : ics_request_args)
  deriving DecidableEq, Repr

/-- The defaults `parse_http_query` writes into `a` before parsing, lines
126-129. -/
def query_defaults (K : Consts) (a : ics_request_args) : ics_request_args :=
  { a with decode_fmt := K.PIX_FMT_RGB24, render_fmt := K.FMT_PNG, frame := 0,
           out_width := -1, out_height := -1 }

/-- The arguments after `memset(&a, 0, sizeof(ics_request_args))`. -/
def zero_args : ics_request_args :=
  { file_name := none, frame := 0, out_width := 0, out_height := 0, idx_option := 0,
    render_fmt := 0, decode_fmt := 0 }

/-- `parse_http_query`, lines 123-167 (called with `h == NULL`): the return
value, the arguments as left in `a`, and the replies sent.  `pre` are the bytes
in memory in front of the unescaped file name, see `check_path`. -/
def parse_http_query (K : Consts) (url_unescape : List Char → Option (List Char))
    (fs : FileSys) (docroot pre : List Char) (query : List Char) (a : ics_request_args) :
    Int × ics_request_args × List Action :=
  let qps := parse_http_query_params K url_unescape
    { a := query_defaults K a, fn := none, doit := 0 } query
  match qps.fn with
  | none => (-1, qps.a, [Action.httperror 404])
  | some fn =>
    if check_path pre fn != 0 then (-1, qps.a, [Action.httperror 404])
    else if qps.doit &&& 3 != 0 then
      let a1 : ics_request_args := { qps.a with file_name := some (docroot ++ fn) }
      match fs.stat (docroot ++ fn) with
      | none => (-1, a1, [Action.httperror 404])
      | some _ =>
        if !fs.readable (docroot ++ fn) then (-1, a1, [Action.httperror 403])
        else ((qps.doit : Int), a1, [])
    else ((qps.doit : Int), qps.a, [])

/-- The default route of `ics_http_handler`, lines 327-345 (protocol `HTTP/`,
method `GET`, no earlier route matched): the actions taken, in order. -/
def ics_http_handler_default (K : Consts) (url_unescape : List Char → Option (List Char))
    (fs : FileSys) (docroot pre : List Char) (query : List Char) : List Action :=
  let r := parse_http_query K url_unescape fs docroot pre query zero_args
  if r.1 < 0 then r.2.2
  else if r.1 == 3 then r.2.2 ++ [Action.hdl_decode_frame r.2.1]
  else r.2.2 ++ [Action.httperror 400]

/-- A piece of the query is a usable `key` parameter: it reads `key=value` with
a value of at least one character. -/
def is_param (key piece : List Char) : Bool :=
  (key ++ ['=']).isPrefixOf piece && decide (key.length + 1 < piece.length)

/-- The query carries a usable `key` parameter in one of its `&`/`?`-separated
pieces. -/
def has_param (key query : List Char) : Bool :=
  (query.splitOnP (fun c => c == '&' || c == '?')).any (is_param key)

/-- A file system in which every path exists and is readable. -/
def fs_all_readable : FileSys := { stat := fun _ => some 0, readable := fun _ => true }

/-- The table of `format` values as the specification lists it: value and
render format. -/
def format_table_spec (K : Consts) : List (List Char × Int) :=
  [ (['j', 'p', 'g'], K.FMT_JPG), (['j', 'p', 'e', 'g'], K.FMT_JPG),
    (['p', 'n', 'g'], K.FMT_PNG), (['p', 'p', 'm'], K.FMT_PPM),
    (['r', 'a', 'w'], K.FMT_RAW), (['r', 'g', 'b'], K.FMT_RAW),
    (['r', 'g', 'b', 'a'], K.FMT_RAW), (['h', 't', 'm', 'l'], K.OUT_HTML),
    (['x', 'h', 't', 'm', 'l'], K.OUT_HTML), (['j', 's', 'o', 'n'], K.OUT_JSON),
    (['c', 's', 'v'], K.OUT_CSV), (['p', 'l', 'a', 'i', 'n'], K.OUT_PLAIN) ]

/-- The decoded pixel format as the specification states it: only `rgb` and
`rgba` select one. -/
def decode_table_spec (K : Consts) : List (List Char × Int) :=
  [ (['r', 'g', 'b'], K.PIX_FMT_RGB24), (['r', 'g', 'b', 'a'], K.PIX_FMT_RGBA) ]

/-! ## Binary floating point -/

/-- C `rint` followed by the cast to `int64_t`: the nearest integer, halves to
the even one. -/
def rint (q : ℚ) : Int :=
  if q - (Int.floor q : ℚ) < 1 / 2 then Int.floor q
  else if 1 / 2 < q - (Int.floor q : ℚ) then Int.floor q + 1
  else if Int.floor q % 2 = 0 then Int.floor q
  else Int.floor q + 1

/-- The binary floating-point number with `prec` significant bits and least
normal exponent `emin` that is nearest to `q`, ties going to the even
significand: IEEE 754 round-to-nearest, as C applies it to a conversion and to
the exact result of `+`, `*` or `/` (`FLT_EVAL_METHOD` 0).  A finite
floating-point value is the rational it stands for.  The exponent has no upper
bound here: overflow to an infinity is not modelled. -/
def fround (prec : Nat) (emin : Int) (q : ℚ) : ℚ :=
  if q = 0 then 0
  else
    (rint (q / (2 : ℚ) ^ (max (Int.log 2 |q|) emin - (prec : Int) + 1)) : ℚ)
      * (2 : ℚ) ^ (max (Int.log 2 |q|) emin - (prec : Int) + 1)

/-- Rounding to `float` (binary32). -/
def f32 (q : ℚ) : ℚ := fround 24 (-126) q

/-- Rounding to `double` (binary64). -/
def f64 (q : ℚ) : ℚ := fround 53 (-1022) q

/-- `(int) floorf(x)` for a finite `float` `x`; `none` when the floor lies
outside the range of `int`, where the cast is undefined. -/
def floorf (x : ℚ) : Option Int :=
  if -2147483648 ≤ Int.floor x ∧ Int.floor x ≤ 2147483647 then some (Int.floor x) else none

/-- The conversion of a finite `double` to `long` (64 bits): truncation toward
zero; `none` when the result lies outside the range of `long`. -/
def trunc (x : ℚ) : Option Int :=
  if -9223372036854775808 ≤ (if 0 ≤ x then Int.floor x else Int.ceil x)
      ∧ (if 0 ≤ x then Int.floor x else Int.ceil x) ≤ 9223372036854775807 then
    some (if 0 ≤ x then Int.floor x else Int.ceil x)
  else none

/-! ## The decoder (`ffdecoder.c`): data -/

/-- The rational `AVRational` of libavutil. -/
structure AVRational where
  num : Int
  den : Int
  deriving DecidableEq, Repr

/-- `av_q2d(q)`: `num / (double) den`, for a `den` that is not 0 (with a zero
`den` C gives an infinity or NaN; the callers here test `den` first). -/
def av_q2d (q : AVRational) : ℚ := f64 ((q.num : ℚ) / (q.den : ℚ))

/-- `AV_NOPTS_VALUE`, `INT64_C(0x8000000000000000)`. -/
def AV_NOPTS_VALUE : Int := -9223372036854775808

/-- `AV_TIME_BASE`. -/
def AV_TIME_BASE : Int := 1000000

/-- The seek modes: the anonymous enum of lines 32-36. -/
def SEEK_ANY : Int := 0

/-- Seek to the next keyframe after the given frame. -/
def SEEK_KEY : Int := 1

/-- Seek to the keyframe before the frame and advance to the frame. -/
def SEEK_CONTINUOUS : Int := 2

/-- Decode on in a live stream, with the first keyframe giving the PTS offset. -/
def SEEK_LIVESTREAM : Int := 3

/-- `MAX_CONT_FRAMES`, line 423. -/
def MAX_CONT_FRAMES : Int := 1000

/-- `AVSEEK_FLAG_BACKWARD` of libavformat. -/
def AVSEEK_FLAG_BACKWARD : Nat := 1

/-- `AVSEEK_FLAG_ANY` of libavformat. -/
def AVSEEK_FLAG_ANY : Nat := 4

/-- The fields of `AVCodecContext` the decoder reads. -/
structure AVCodecContext where
  width : Int
  height : Int
  sample_aspect_ratio : AVRational
  deriving DecidableEq, Repr

/-- The fields of `AVStream` the decoder reads; `is_video` stands for
`codec->codec_type == AVMEDIA_TYPE_VIDEO`. -/
structure AVStream where
  is_video : Bool
  r_frame_rate : AVRational
  time_base : AVRational
  nb_frames : Int
  duration : Int
  codec : AVCodecContext
  deriving DecidableEq, Repr

/-- The fields of `AVFormatContext` the decoder reads. -/
structure AVFormatContext where
  streams : List AVStream
  duration : Int
  start_time : Int
  deriving DecidableEq, Repr

/-- A packet as `av_read_frame` delivers it, with what the library then does
with it: `dup_ok` is `av_dup_packet(packet) >= 0`, `decodes` is the value
`avcodec_decode_video2` stores in `frameFinished` for this packet. -/
structure AVPacket where
  stream_index : Int
  pts : Int
  dts : Int
  key : Bool
  has_data : Bool
  dup_ok : Bool
  decodes : Bool
  deriving DecidableEq, Repr

/-- A pointer value: NULL or the address of a block. -/
inductive Ptr where
  | null
  | block (addr : Nat)
  deriving DecidableEq, Repr

/-- The calls into libc, pthread and the codec library that the decoder makes,
in the order made. -/
inductive Call where
  | lock
  | unlock
  | avformat_open_input
  | avformat_find_stream_info
  | avformat_close_input
  | avcodec_find_decoder
  | avcodec_open2
  | avcodec_close
  | avcodec_alloc_frame
  | av_free (p : Ptr)
  | free (p : Ptr)
  | free_current_file
  | calloc (n : Int)
  | strdup
  | avpicture_fill
  | sws_freeContext (p : Ptr)
  | sws_scale
  | av_seek_frame (timestamp : Int) (flags : Nat)
  | avcodec_flush_buffers
  | av_read_frame
  | av_dup_packet
  | avcodec_decode_video2
  | av_free_packet
  | render_empty_frame
  deriving DecidableEq, Repr

/-- The decoder state `ffst`, lines 40-74. -/
structure ffst where
  want_ignstart : Bool
  want_genpts : Bool
  seekflags : Int
  movie_width : Int
  movie_height : Int
  out_width : Int
  out_height : Int
  duration : ℚ
  framerate : ℚ
  file_frame_offset : ℚ
  frames : Int
  current_file : Option (List Char)
  tpf : ℚ
  avprev : Int
  stream_pts_offset : Int
  internal_buffer : Ptr
  buffer : Ptr
  buf_width : Int
  buf_height : Int
  videoStream : Int
  render_fmt : Int
  packet : Option AVPacket
  pFormatCtx : Option AVFormatContext
  pCodecCtx : Option AVCodecContext
  pFrame : Ptr
  pFrameFMT : Ptr
  pSWSCtx : Ptr
  deriving DecidableEq

/-- `TimecodeRate` of `vinfo.h`. -/
structure TimecodeRate where
  num : Int
  den : Int
  drop : Int
  deriving DecidableEq, Repr

/-- `VInfo` of `vinfo.h`: what `ff_get_info` fills in; `movie_aspect` is `none`
when the aspect ratio is not a finite number. -/
structure VInfo where
  movie_width : Int
  movie_height : Int
  movie_aspect : Option ℚ
  out_width : Int
  out_height : Int
  buffersize : Int
  frames : Int
  framerate : TimecodeRate
  deriving DecidableEq, Repr

/-- What the codec library and the allocator answer when a file is opened:
the results of `avformat_open_input`, `avformat_find_stream_info`,
`avcodec_find_decoder`, `avcodec_open2`, the two `avcodec_alloc_frame` calls,
and the demuxed container description. -/
structure Media where
  open_input_ok : Bool
  find_stream_info_ok : Bool
  ctx : AVFormatContext
  decoder_found : Bool
  codec_open_ok : Bool
  alloc_frame : Ptr
  alloc_frame_fmt : Ptr

/-- The environment of the decoder: `avpicture_get_size`, the result of
`calloc` for a size, and the media behind each file name. -/
structure Lib where
  avpicture_get_size : Int → Int → Int → Int
  calloc : Int → Ptr
  media : List Char → Media

/-! ## The decoder: geometry, open and close -/

/-- `ff_getbuffersize`, lines 95-99. -/
def ff_getbuffersize (L : Lib) (ff : ffst) : Int :=
  L.avpicture_get_size ff.render_fmt ff.out_width ff.out_height

/-- `ff_get_aspectratio`, lines 106-117, on the codec context `ff->pCodecCtx`:
the `float` it returns.  The product and the quotient of line 112 are taken in
`double` (the operand `av_q2d(..)` is a `double`) and stored to a `float`; the
quotient of line 115 is taken in `float`.  `none` where a division by zero
makes the source go on with an infinity or a NaN, which is not followed here. -/
def ff_get_aspectratio (c : AVCodecContext) : Option ℚ :=
  let aspect_ratio : Option ℚ :=
    if c.sample_aspect_ratio.num = 0 then some 0
    else if c.sample_aspect_ratio.den = 0 ∨ c.height = 0 then none
    else some (f32 (f64 (f64 (av_q2d c.sample_aspect_ratio * f32 c.width) / f32 c.height)))
  match aspect_ratio with
  | none => none
  | some a =>
    if a ≤ 0 then
      if c.height = 0 then none else some (f32 (f32 c.width / f32 c.height))
    else some a

/-- `(int) floorf((float) n / aspect_ratio)`, lines 124, 132 and 343; `none`
when the aspect ratio is not finite or is 0, or the result is out of range. -/
def floorf_div (n : Int) (aspect_ratio : Option ℚ) : Option Int :=
  match aspect_ratio with
  | none => none
  | some a => if a = 0 then none else floorf (f32 (f32 n / a))

/-- `(int) floorf((float) n * aspect_ratio)`, line 125; `none` when the aspect
ratio is not finite or the result is out of range. -/
def floorf_mul (n : Int) (aspect_ratio : Option ℚ) : Option Int :=
  match aspect_ratio with
  | none => none
  | some a => floorf (f32 (f32 n * a))

/-- The geometry part of `ff_init_moviebuffer`, lines 123-133 (`SCALE_UP` is
not defined): the automatic sizes are resolved.  `none` when a size that has to
be derived is not a number in the range of `int`. -/
def resolve_geometry (c : AVCodecContext) (ff : ffst) : Option ffst :=
  let aspect_ratio := ff_get_aspectratio c
  let s1 : Option ffst :=
    if ff.out_height < 0 ∧ ff.out_width > 0 then
      (floorf_div ff.out_width aspect_ratio).map (fun v => { ff with out_height := v })
    else if ff.out_height > 0 ∧ ff.out_width < 0 then
      (floorf_mul ff.out_height aspect_ratio).map (fun v => { ff with out_width := v })
    else some ff
  match s1 with
  | none => none
  | some ff1 =>
    let ff2 : ffst := if ff1.out_width < 0 then { ff1 with out_width := c.width } else ff1
    if ff2.out_height < 0 then
      (floorf_div c.width aspect_ratio).map (fun v => { ff2 with out_height := v })
    else some ff2

/-- `ff_init_moviebuffer`, lines 119-155.  `none` stands for the cases in
which the function does not return: `exit(1)` on a failed `calloc` or a NULL
`pFrameFMT`, and the dereference of a NULL `pCodecCtx`; and for those in which
`resolve_geometry` gives no size. -/
def ff_init_moviebuffer (L : Lib) (ff : ffst) : Option (ffst × List Call) :=
  match ff.pCodecCtx with
  | none => none
  | some c =>
    match resolve_geometry c ff with
    | none => none
    | some ff3 =>
      if ff3.buf_width = ff3.out_width ∧ ff3.buf_height = ff3.out_height then some (ff3, [])
      else
        let frees : List Call :=
          if ff3.internal_buffer ≠ Ptr.null then [Call.free ff3.internal_buffer] else []
        let numBytes := ff_getbuffersize L ff3
        let p := L.calloc numBytes
        let ff4 : ffst :=
          { ff3 with internal_buffer := p, buffer := p, buf_width := ff3.out_width,
                     buf_height := ff3.out_height }
        if p = Ptr.null then none
        else if ff4.pFrameFMT = Ptr.null then none
        else some (ff4, frees ++ [Call.calloc numBytes, Call.avpicture_fill])

/-- `ff_set_bufferptr`, lines 641-649. -/
def ff_set_bufferptr (ff : ffst) (buf : Ptr) : ffst × List Call :=
  ({ ff with buffer := if buf ≠ Ptr.null then buf else ff.internal_buffer },
   [Call.avpicture_fill])

/-- The stream `pFormatCtx->streams[i]`, when the index is inside the array. -/
def stream_at (ctx : AVFormatContext) (i : Int) : Option AVStream :=
  if i < 0 then none else ctx.streams.get? i.toNat

/-- The stream `ff->pFormatCtx->streams[ff->videoStream]`. -/
def video_stream (ff : ffst) : Option AVStream :=
  match ff.pFormatCtx with
  | none => none
  | some ctx => stream_at ctx ff.videoStream

/-- `ff_get_framerate`, lines 188-211; `none` when the stream index is outside
the array.  The constants `29.97` and `30000.0/1001.0` of line 209 are
`double` values. -/
def ff_get_framerate (ff : ffst) (fr : TimecodeRate) : Option TimecodeRate :=
  if ff.current_file = none ∨ ff.pFormatCtx = none then some fr
  else
    match video_stream ff with
    | none => none
    | some av_stream =>
      let fr1 : TimecodeRate :=
        if av_stream.r_frame_rate.den ≠ 0 ∧ av_stream.r_frame_rate.num ≠ 0 then
          { fr with num := av_stream.r_frame_rate.num, den := av_stream.r_frame_rate.den }
        else
          { fr with num := av_stream.time_base.den, den := av_stream.time_base.num }
      if ff.framerate = f64 (2997 / 100) ∨ ff.framerate = f64 (30000 / 1001) then
        some { fr1 with drop := 1 }
      else some { fr1 with drop := 0 }

/-- `ff_set_framerate`, lines 214-223. -/
def ff_set_framerate (ff : ffst) : Option ffst :=
  match video_stream ff with
  | none => none
  | some av_stream =>
    if av_stream.r_frame_rate.den ≠ 0 ∧ av_stream.r_frame_rate.num ≠ 0 then
      let ff1 : ffst := { ff with framerate := av_q2d av_stream.r_frame_rate }
      if (ff1.framerate < 4 ∨ ff1.framerate > 100)
          ∧ (av_stream.time_base.num ≠ 0 ∧ av_stream.time_base.den ≠ 0) then
        some { ff1 with framerate := f64 (1 / av_q2d av_stream.time_base) }
      else some ff1
    else some ff

/-- `ff_get_info`, lines 608-621, for a non-NULL `i`. -/
def ff_get_info (L : Lib) (ff : ffst) (i : VInfo) : Option VInfo :=
  match ff.pCodecCtx with
  | none => none
  | some c =>
    match ff_get_framerate ff i.framerate with
    | none => none
    | some fr =>
      some { movie_width := ff.movie_width, movie_height := ff.movie_height,
             movie_aspect := ff_get_aspectratio c, out_width := ff.out_width,
             out_height := ff.out_height, buffersize := ff_getbuffersize L ff,
             frames := ff.frames, framerate := fr }

/-- `ff_resize`, lines 656-665; `buf` is `Ptr.null` for the internal buffer. -/
def ff_resize (L : Lib) (ff : ffst) (w h : Int) (buf : Ptr) (i : Option VInfo) :
    Option (ffst × Option VInfo × List Call) :=
  let ff0 : ffst := { ff with out_width := w, out_height := h }
  let r : Option (ffst × List Call) :=
    if buf = Ptr.null then ff_init_moviebuffer L ff0 else some (ff_set_bufferptr ff0 buf)
  match r with
  | none => none
  | some (ff1, calls) =>
    match i with
    | none => some (ff1, none, calls)
    | some vi =>
      match ff_get_info L ff1 vi with
      | none => none
      | some vi1 => some (ff1, some vi1, calls)

/-- `ff_close_movie`, lines 169-186: return value, state, calls made.  The
pointers `internal_buffer` and `pSWSCtx` keep their value after being freed,
as in the source. -/
def ff_close_movie (ff : ffst) : Int × ffst × List Call :=
  let c0 : List Call := if ff.current_file ≠ none then [Call.free_current_file] else []
  let ff0 : ffst := { ff with current_file := none }
  if ff0.pFrameFMT = Ptr.null then (-1, ff0, c0)
  else
    let r1 := ff_set_bufferptr ff0 ff0.internal_buffer
    let ff1 := r1.1
    let c2 : List Call :=
      if ff1.internal_buffer ≠ Ptr.null then [Call.free ff1.internal_buffer] else []
    let c3 : List Call := if ff1.pFrameFMT ≠ Ptr.null then [Call.av_free ff1.pFrameFMT] else []
    let c4 : List Call := if ff1.pFrame ≠ Ptr.null then [Call.av_free ff1.pFrame] else []
    let ff2 : ffst := { ff1 with buffer := Ptr.null, pFrameFMT := Ptr.null, pFrame := Ptr.null }
    let c5 : List Call :=
      [Call.lock, Call.avcodec_close, Call.avformat_close_input, Call.unlock]
    let ff3 : ffst := { ff2 with pFormatCtx := none }
    let c6 : List Call :=
      if ff3.pSWSCtx ≠ Ptr.null then [Call.sws_freeContext ff3.pSWSCtx] else []
    (0, ff3, c0 ++ r1.2 ++ c2 ++ c3 ++ c4 ++ c5 ++ c6)

/-- The loop of lines 282-293: the index of the first video stream, counting
from `i`, or -1. -/
def first_video (streams : List AVStream) (i : Int) : Int :=
  match streams with
  | [] => -1
  | s :: rest => if s.is_video then i else first_video rest (i + 1)

/-- The values `ff_open_movie` initialises, lines 239-251. -/
def open_defaults (ff : ffst) (render_fmt : Int) : ffst :=
  { ff with pFormatCtx := none, pFrameFMT := Ptr.null, movie_width := 320,
            movie_height := 180, buf_width := 0, buf_height := 0, framerate := 1,
            duration := 1, frames := 1, file_frame_offset := 0, videoStream := -1,
            tpf := 1, avprev := 0, stream_pts_offset := AV_NOPTS_VALUE,
            render_fmt := render_fmt }

/-- The stream figures of lines 312-345: frame count, duration, `tpf`, start
offset, codec context and intrinsic geometry, in `double` arithmetic (the
height in `float`).  `long` is taken to have 64 bits.  `none` where the source
divides by zero (a time base with a zero component, an aspect ratio that is 0
or not finite) or converts a number that is out of range. -/
def open_stream_info (ctx : AVFormatContext) (avs : AVStream) (ff : ffst) : Option ffst :=
  let frames : Option Int :=
    if avs.nb_frames ≠ 0 then some avs.nb_frames
    else if avs.duration ≠ avs.duration ∧ avs.duration ≠ 0 then
      trunc (f64 (f64 (f64 avs.duration * av_q2d avs.r_frame_rate) * av_q2d avs.time_base))
    else trunc (f64 (f64 (f64 ctx.duration * ff.framerate) / f64 AV_TIME_BASE))
  if avs.time_base.den = 0 ∨ f64 (av_q2d avs.time_base * ff.framerate) = 0 then none
  else
    match frames, floorf_div avs.codec.width (ff_get_aspectratio avs.codec) with
    | some n, some mh =>
      some { ff with frames := n,
                     duration := f64 (f64 avs.duration * av_q2d avs.time_base),
                     tpf := f64 (1 / f64 (av_q2d avs.time_base * ff.framerate)),
                     file_frame_offset :=
                       f64 (ff.framerate * f64 (f64 ctx.start_time / f64 AV_TIME_BASE)),
                     pCodecCtx := some avs.codec,
                     movie_width := avs.codec.width,
                     movie_height := mh }
    | _, _ => none

/-- The last part of `ff_open_movie`, lines 359-397: find and open the codec,
allocate the two frames, set up the buffer for the intrinsic geometry and
record the file name.  `calls` are the calls made so far. -/
def open_codec (L : Lib) (m : Media) (file_name : List Char) (ff4 : ffst)
    (calls : List Call) : Option (Int × ffst × List Call) :=
  let c4 := calls ++ [Call.avcodec_find_decoder]
  if !m.decoder_found then
    some (-1, { ff4 with pFormatCtx := none }, c4 ++ [Call.avformat_close_input])
  else
    let c5 := c4 ++ [Call.lock, Call.avcodec_open2]
    if !m.codec_open_ok then
      some (-1, { ff4 with pFormatCtx := none },
        c5 ++ [Call.unlock, Call.avformat_close_input])
    else
      let c6 := c5 ++ [Call.unlock, Call.avcodec_alloc_frame]
      let ff5 : ffst := { ff4 with pFrame := m.alloc_frame }
      if ff5.pFrame = Ptr.null then
        some (-1, { ff5 with pFormatCtx := none },
          c6 ++ [Call.avcodec_close, Call.avformat_close_input])
      else
        let c7 := c6 ++ [Call.avcodec_alloc_frame]
        let ff6 : ffst := { ff5 with pFrameFMT := m.alloc_frame_fmt }
        if ff6.pFrameFMT = Ptr.null then
          some (-1, { ff6 with pFormatCtx := none },
            c7 ++ [Call.av_free ff6.pFrame, Call.avcodec_close,
                   Call.avformat_close_input])
        else
          let ff7 : ffst := { ff6 with out_width := -1, out_height := -1 }
          match ff_init_moviebuffer L ff7 with
          | none => none
          | some (ff8, c8) =>
            some (0, { ff8 with current_file := some file_name },
              c7 ++ c8 ++ [Call.strdup])

/-- The middle part of `ff_open_movie`, lines 269-357: stream information
under the lock, the first video stream, frame rate and stream figures; then
`open_codec`.  `calls` are the calls made so far. -/
def open_video (L : Lib) (m : Media) (file_name : List Char) (ff1 : ffst)
    (calls : List Call) : Option (Int × ffst × List Call) :=
  let c2 := calls ++ [Call.lock, Call.avformat_find_stream_info]
  if !m.find_stream_info_ok then
    some (-1, { ff1 with pFormatCtx := none }, c2 ++ [Call.avformat_close_input, Call.unlock])
  else
    let c3 := c2 ++ [Call.unlock]
    let ff2 : ffst := { ff1 with videoStream := first_video m.ctx.streams 0 }
    if ff2.videoStream = -1 then
      some (-1, { ff2 with pFormatCtx := none }, c3 ++ [Call.avformat_close_input])
    else
      match ff_set_framerate ff2, stream_at m.ctx ff2.videoStream with
      | some ff3, some avs =>
        match open_stream_info m.ctx avs ff3 with
        | some ff4 => open_codec L m file_name ff4 c3
        | none => none
      | _, _ => none

/-- `ff_open_movie`, lines 225-397: return value, state, calls made; `none`
when `ff_init_moviebuffer` does not return.  Lines 225-267 are here, the rest
in `open_video` and `open_codec`. -/
def ff_open_movie (L : Lib) (ff : ffst) (file_name : List Char) (render_fmt : Int) :
    Option (Int × ffst × List Call) :=
  if ff.pFrameFMT ≠ Ptr.null ∧ ff.current_file = some file_name then some (0, ff, [])
  else
    let closed : ffst × List Call :=
      if ff.pFrameFMT ≠ Ptr.null then ((ff_close_movie ff).2.1, (ff_close_movie ff).2.2)
      else (ff, [])
    let ff0 := open_defaults closed.1 render_fmt
    let m := L.media file_name
    let c1 := closed.2 ++ [Call.avformat_open_input]
    if !m.open_input_ok then some (-1, ff0, c1)
    else
      let ff1 : ffst :=
        { ff0 with pFormatCtx := some m.ctx,
                   seekflags := if strncmp_eq file_name ['h', 't', 't', 'p', ':', '/', '/'] 7
                                then SEEK_LIVESTREAM else SEEK_CONTINUOUS }
      open_video L m file_name ff1 c1

/-- `ff_create`, lines 623-630: the state after `calloc` and the five
assignments; `render_fmt` is `PIX_FMT_RGB24`. -/
def ff_create (PIX_FMT_RGB24 : Int) : ffst :=
  { want_ignstart := false, want_genpts := false, seekflags := SEEK_CONTINUOUS,
    movie_width := 0, movie_height := 0, out_width := 0, out_height := 0,
    duration := 0, framerate := 0, file_frame_offset := 0, frames := 0,
    current_file := none, tpf := 0, avprev := 0, stream_pts_offset := 0,
    internal_buffer := Ptr.null, buffer := Ptr.null, buf_width := 0, buf_height := 0,
    videoStream := 0, render_fmt := PIX_FMT_RGB24, packet := none,
    pFormatCtx := none, pCodecCtx := none, pFrame := Ptr.null, pFrameFMT := Ptr.null,
    pSWSCtx := Ptr.null }

/-! ## A fixture for evaluating the decoder -/

/-- The video stream of the fixture `fix_30fps_10s.mov`: 300 frames at 30 fps,
640x480, SAR 1:1, time base 1/30000. -/
def fixture_stream : AVStream :=
  { is_video := true, r_frame_rate := { num := 30, den := 1 },
    time_base := { num := 1, den := 30000 }, nb_frames := 300, duration := 300000,
    codec := { width := 640, height := 480, sample_aspect_ratio := { num := 1, den := 1 } } }

/-- The fixture as the library reports it: every call succeeds. -/
def fixture_media : Media :=
  { open_input_ok := true, find_stream_info_ok := true,
    ctx := { streams := [fixture_stream], duration := 10000000, start_time := 0 },
    decoder_found := true, codec_open_ok := true,
    alloc_frame := Ptr.block 1, alloc_frame_fmt := Ptr.block 2 }

/-- An environment in which every file is the fixture, a picture takes three
bytes a pixel and `calloc` succeeds. -/
def fixture_lib : Lib :=
  { avpicture_get_size := fun _ w h => 3 * w * h,
    calloc := fun _ => Ptr.block 3,
    media := fun _ => fixture_media }

/-- The decoder state once the fixture is open: the fields as `ff_open_movie`
leaves them on a fresh decoder. -/
def fixture_open : ffst :=
  { want_ignstart := false, want_genpts := false, seekflags := SEEK_CONTINUOUS,
    movie_width := 640, movie_height := 480, out_width := 640, out_height := 480,
    duration := 10, framerate := 30, file_frame_offset := 0, frames := 300,
    current_file := some ['a'], tpf := 1000, avprev := 0,
    stream_pts_offset := AV_NOPTS_VALUE,
    internal_buffer := Ptr.block 3, buffer := Ptr.block 3, buf_width := 640,
    buf_height := 480, videoStream := 0, render_fmt := 2, packet := none,
    pFormatCtx := some fixture_media.ctx, pCodecCtx := some fixture_stream.codec,
    pFrame := Ptr.block 1, pFrameFMT := Ptr.block 2, pSWSCtx := Ptr.null }

/-- An open decoder on a 1280x720 stream with square pixels (aspect 16:9): the
fixture state with that codec context. -/
def widescreen_open : ffst :=
  { fixture_open with
    pCodecCtx := some { width := 1280, height := 720,
                        sample_aspect_ratio := { num := 1, den := 1 } },
    movie_width := 1280, movie_height := 720, out_width := 1280, out_height := 720,
    buf_width := 1280, buf_height := 720 }

/-! ## The decoder: seeking and rendering -/

/-- `c1_Q`, line 87. -/
def c1_Q : AVRational := { num := 1, den := 1 }

/-- `av_rescale_rnd(a, b, c, AV_ROUND_NEAR_INF)` of libavutil: `a * b / c`
rounded to the nearest integer, halves away from zero, and `INT64_MIN` when
`c <= 0` or `b < 0`.  The wrap-around of 64-bit values is not modelled. -/
def av_rescale_near (a b c : Int) : Int :=
  if c ≤ 0 ∨ b < 0 then AV_NOPTS_VALUE
  else if a < 0 then -((-a * b + c / 2) / c)
  else (a * b + c / 2) / c

/-- `av_rescale_q(a, bq, cq)` of libavutil: `a * bq / cq`, rounded as in
`av_rescale_near`. -/
def av_rescale_q (a : Int) (bq cq : AVRational) : Int :=
  av_rescale_near a (bq.num * cq.den) (cq.num * bq.den)

/-- The demuxer and scaler behind an open file: `seek ts flags` is what
`av_seek_frame` does for a target (`none`: it fails and the position stays;
`some l`: it succeeds and `l` are the packets `av_read_frame` delivers from
there on), `sws_context` what `sws_getCachedContext` returns. -/
structure Demux where
  seek : Int → Nat → Option (List AVPacket)
  sws_context : Ptr

/-- `av_free_packet`: the data pointer of the packet is cleared. -/
def av_free_packet (p : AVPacket) : AVPacket := { p with has_data := false }

/-- One `av_seek_frame` followed by `avcodec_flush_buffers`: return value,
packets to come, calls made. -/
def seek_and_flush (dm : Demux) (pending : List AVPacket) (timestamp : Int) (flags : Nat) :
    Int × List AVPacket × List Call :=
  match dm.seek timestamp flags with
  | none => (-1, pending, [Call.av_seek_frame timestamp flags, Call.avcodec_flush_buffers])
  | some l => (0, l, [Call.av_seek_frame timestamp flags, Call.avcodec_flush_buffers])

/-- The loop of `reset_video_head`, lines 409-418: read packets until a video
packet completes a frame.  The result of `av_read_frame` is not checked there;
at the end of the stream the loop is taken not to return (`none`). -/
def reset_loop (videoStream : Int) :
    List AVPacket → Option (AVPacket × List AVPacket × List Call)
  | [] => none
  | p :: rest =>
    let calls : List Call :=
      [Call.av_read_frame]
        ++ (if p.stream_index = videoStream then [Call.avcodec_decode_video2] else [])
        ++ (if p.has_data then [Call.av_free_packet] else [])
    if p.stream_index = videoStream ∧ p.decodes = true then
      some (av_free_packet p, rest, calls)
    else
      match reset_loop videoStream rest with
      | none => none
      | some (q, rest', calls') => some (q, rest', calls ++ calls')

/-- `reset_video_head`, lines 399-420: rewind to timestamp 0, flush, decode up
to the first finished frame, clear `avprev`. -/
def reset_video_head (dm : Demux) (ff : ffst) (pending : List AVPacket) :
    Option (ffst × List AVPacket × List Call) :=
  let s := seek_and_flush dm pending 0 AVSEEK_FLAG_BACKWARD
  match reset_loop ff.videoStream s.2.1 with
  | none => none
  | some (p, rest, calls) =>
    some ({ ff with packet := some p, avprev := 0 }, rest, s.2.2 ++ calls)

/-- The timestamp of a packet, lines 502-506: PTS, or DTS when PTS is absent. -/
def packet_timestamp (p : AVPacket) : Int :=
  if p.pts = AV_NOPTS_VALUE then p.dts else p.pts

/-- Lines 515-521: in a live stream the first key frame's timestamp becomes
`stream_pts_offset`. -/
def remember_offset (ff : ffst) (p : AVPacket) (mtsb : Int) : ffst :=
  if ff.seekflags = SEEK_LIVESTREAM ∧ mtsb ≠ AV_NOPTS_VALUE
      ∧ ff.stream_pts_offset = AV_NOPTS_VALUE ∧ p.key = true then
    { ff with stream_pts_offset := mtsb }
  else ff

/-- Lines 523-528: in a live stream the offset is taken off the timestamp. -/
def corrected_timestamp (ff : ffst) (mtsb : Int) : Int :=
  if ff.seekflags = SEEK_LIVESTREAM then
    if ff.stream_pts_offset ≠ AV_NOPTS_VALUE then mtsb - ff.stream_pts_offset
    else AV_NOPTS_VALUE
  else mtsb

/-- The calls `calls` were made before the rest of a run `r`. -/
def after_calls {α β γ : Type} (calls : List Call) (r : Option (α × β × γ × List Call)) :
    Option (α × β × γ × List Call) :=
  match r with
  | none => none
  | some x => some (x.1, x.2.1, x.2.2.1, calls ++ x.2.2.2)

/-- The `read_frame` loop of `my_seek_frame`, lines 474-546, entered with the
counter `nolivelock` and the packets `av_read_frame` will deliver: return value,
state, packets left, calls made. -/
def read_frame (dm : Demux) (timestamp : Int) :
    ffst → Int → List AVPacket → Option (Int × ffst × List AVPacket × List Call)
  | ff, _, [] => some (0, ff, [], [Call.av_read_frame])
  | ff, nolivelock, p :: rest =>
    if p.dup_ok = false then
      after_calls [Call.av_read_frame, Call.av_dup_packet]
        (read_frame dm timestamp { ff with packet := some p } (nolivelock + 1) rest)
    else if p.stream_index ≠ ff.videoStream then
      after_calls
        ([Call.av_read_frame, Call.av_dup_packet]
          ++ (if p.has_data then [Call.av_free_packet] else []))
        (read_frame dm timestamp
          { ff with packet := some (if p.has_data then av_free_packet p else p) }
          (nolivelock + 1) rest)
    else if ff.seekflags ≠ SEEK_CONTINUOUS ∧ ff.seekflags ≠ SEEK_LIVESTREAM then
      some (1, { ff with packet := some p }, rest, [Call.av_read_frame, Call.av_dup_packet])
    else if packet_timestamp p = AV_NOPTS_VALUE then
      some (0, { ff with packet := some (av_free_packet p) }, rest,
        [Call.av_read_frame, Call.av_dup_packet, Call.av_free_packet])
    else if corrected_timestamp (remember_offset { ff with packet := some p } p
        (packet_timestamp p)) (packet_timestamp p) ≥ timestamp then
      some (1, remember_offset { ff with packet := some p } p (packet_timestamp p), rest,
        [Call.av_read_frame, Call.av_dup_packet])
    else if p.decodes = false ∨ nolivelock + 1 < MAX_CONT_FRAMES then
      after_calls
        [Call.av_read_frame, Call.av_dup_packet, Call.avcodec_decode_video2,
         Call.av_free_packet]
        (read_frame dm timestamp
          { remember_offset { ff with packet := some p } p (packet_timestamp p) with
            packet := some (av_free_packet p) }
          (nolivelock + 1) rest)
    else
      after_calls
        [Call.av_read_frame, Call.av_dup_packet, Call.avcodec_decode_video2,
         Call.av_free_packet]
        ((reset_video_head dm
          { remember_offset { ff with packet := some p } p (packet_timestamp p) with
            packet := some (av_free_packet p) } rest).map
          (fun r => ((0 : Int), r.1, r.2.1, r.2.2)))

/-- The target of a seek, lines 436-444: the frame number, moved by the start
offset when `want_ignstart` is set (a `double` product, rounded by `rint`),
rescaled by the stream time base and then by `r_frame_rate`. -/
def seek_timestamp (ff : ffst) (ctx : AVFormatContext) (v_stream : AVStream)
    (timestamp : Int) : Int :=
  let t0 : Int :=
    if ff.want_ignstart then
      timestamp + rint (f64 (ff.framerate * f64 (f64 ctx.start_time / f64 AV_TIME_BASE)))
    else timestamp
  av_rescale_q (av_rescale_q t0 c1_Q v_stream.time_base) c1_Q v_stream.r_frame_rate

/-- The seek dispatch of `my_seek_frame`, lines 449-468, for the rescaled
target: return value `rv` (1 when no seek is made), packets to come, calls.
The second comparison of line 459 is made in `double`: `avprev` and the target
are converted, the product and the sum rounded. -/
def seek_dispatch (dm : Demux) (ff : ffst) (pending : List AVPacket) (timestamp : Int) :
    Int × List AVPacket × List Call :=
  if ff.seekflags = SEEK_ANY then
    seek_and_flush dm pending timestamp (AVSEEK_FLAG_ANY ||| AVSEEK_FLAG_BACKWARD)
  else if ff.seekflags = SEEK_KEY then
    seek_and_flush dm pending timestamp AVSEEK_FLAG_BACKWARD
  else if ff.seekflags = SEEK_LIVESTREAM then (1, pending, [])
  else if ff.avprev ≥ timestamp
      ∨ f64 (f64 ff.avprev + f64 (32 * ff.tpf)) < f64 timestamp then
    seek_and_flush dm pending timestamp AVSEEK_FLAG_BACKWARD
  else (1, pending, [])

/-- `my_seek_frame`, lines 425-547, with `packet == &ff->packet`: return
value, state, packets left, calls made; `none` when a NULL format context or a
stream outside the array is dereferenced, or when `reset_video_head` does not
return. -/
def my_seek_frame (dm : Demux) (ff : ffst) (pending : List AVPacket) (timestamp : Int) :
    Option (Int × ffst × List AVPacket × List Call) :=
  if ff.videoStream < 0 then some (0, ff, pending, [])
  else
    match ff.pFormatCtx, video_stream ff with
    | some ctx, some v_stream =>
      let ts := seek_timestamp ff ctx v_stream timestamp
      let sk := seek_dispatch dm ff pending ts
      let ff1 : ffst := { ff with avprev := ts }
      if sk.1 < 0 then some (0, ff1, sk.2.1, sk.2.2)
      else after_calls sk.2.2 (read_frame dm ts ff1 0 sk.2.1)
    | _, _ => none

/-- The decode loop of `ff_render`, lines 571-600, entered with the packet
`p` in `ff->packet`: whether a frame was finished, state, packets left, calls. -/
def render_loop (dm : Demux) :
    ffst → AVPacket → List AVPacket → Option (Bool × ffst × List AVPacket × List Call)
  | ff, p, pending =>
    if p.stream_index = ff.videoStream ∧ p.decodes = true then
      some (true, { ff with pSWSCtx := dm.sws_context, packet := some (av_free_packet p) },
        pending, [Call.avcodec_decode_video2, Call.sws_scale, Call.av_free_packet])
    else
      match pending with
      | [] =>
        after_calls
          ((if p.stream_index = ff.videoStream then [Call.avcodec_decode_video2] else [])
            ++ (if p.has_data then [Call.av_free_packet] else []) ++ [Call.av_read_frame])
          ((reset_video_head dm
              { ff with packet := some (if p.has_data then av_free_packet p else p) } []).map
            (fun r => (false, r.1, r.2.1, r.2.2 ++ [Call.render_empty_frame])))
      | q :: rest =>
        if q.dup_ok = false then
          some (false, { ff with packet := some q }, rest,
            (if p.stream_index = ff.videoStream then [Call.avcodec_decode_video2] else [])
              ++ (if p.has_data then [Call.av_free_packet] else [])
              ++ [Call.av_read_frame, Call.av_dup_packet])
        else
          after_calls
            ((if p.stream_index = ff.videoStream then [Call.avcodec_decode_video2] else [])
              ++ (if p.has_data then [Call.av_free_packet] else [])
              ++ [Call.av_read_frame, Call.av_dup_packet])
            (render_loop dm { ff with packet := some q } q rest)

/-- `ff_render`, lines 561-606, for frame number `frame`: return value (0 when
a frame was rendered, else -1), state, packets left, calls made. -/
def ff_render (dm : Demux) (ff : ffst) (pending : List AVPacket) (frame : Nat) :
    Option (Int × ffst × List AVPacket × List Call) :=
  if ff.pFrameFMT ≠ Ptr.null ∧ ff.pFormatCtx ≠ none then
    match my_seek_frame dm ff pending (frame : Int) with
    | none => none
    | some (rv, ff1, pend1, calls1) =>
      if rv ≠ 0 then
        match ff1.packet with
        | none => none
        | some p =>
          (after_calls calls1 (render_loop dm ff1 p pend1)).map
            (fun r => ((if r.1 then 0 else -1 : Int), r.2.1, r.2.2.1, r.2.2.2))
      else some (-1, ff1, pend1, calls1 ++ [Call.render_empty_frame])
  else some (-1, ff, pending, [Call.render_empty_frame])

/-- The fields that seeking and rendering write: the current packet, `avprev`,
`stream_pts_offset` and the scaler context.  `touched ff ..` is `ff` with these
four replaced. -/
def touched (ff : ffst) (pk : Option AVPacket) (av off : Int) (sws : Ptr) : ffst :=
  { ff with packet := pk, avprev := av, stream_pts_offset := off, pSWSCtx := sws }

/-- A packet of another stream (stream 1): good data, nothing for the video
decoder. -/
def audio_packet : AVPacket :=
  { stream_index := 1, pts := 0, dts := 0, key := true, has_data := true, dup_ok := true,
    decodes := false }

/-- A video key packet (stream 0) with the given timestamp, which completes a
frame when decoded. -/
def video_packet (pts : Int) : AVPacket :=
  { stream_index := 0, pts := pts, dts := pts, key := true, has_data := true, dup_ok := true,
    decodes := true }

/-- A demuxer for the fixture with a key frame at every frame: a seek to `ts`
succeeds and the stream continues with the frame at `ts` and the one after. -/
def fixture_demux : Demux :=
  { seek := fun ts _ => some [video_packet ts, video_packet (ts + 1000)],
    sws_context := Ptr.block 4 }

/-- The video stream of interlaced 25 fps material: `r_frame_rate` is the field
rate 50/1 while the time base is 1/25. -/
def interlaced_stream : AVStream :=
  { fixture_stream with
    r_frame_rate := { num := 50, den := 1 }, time_base := { num := 1, den := 25 },
    nb_frames := 250, duration := 250 }

/-- Interlaced 25 fps material as the library reports it. -/
def interlaced_media : Media :=
  { fixture_media with
    ctx := { streams := [interlaced_stream], duration := 10000000, start_time := 0 } }

/-- The fixture environment with every file being the interlaced stream. -/
def interlaced_lib : Lib := { fixture_lib with media := fun _ => interlaced_media }

/-- The decoder state once the interlaced stream is open. -/
def interlaced_open : ffst :=
  { fixture_open with
    pFormatCtx := some interlaced_media.ctx, framerate := 50, tpf := 1 / 2, frames := 250 }

/-- The video stream of a 120 fps file, time base 1/90000. -/
def highspeed_stream : AVStream :=
  { fixture_stream with
    r_frame_rate := { num := 120, den := 1 }, time_base := { num := 1, den := 90000 },
    nb_frames := 1200, duration := 900000 }

/-- A 120 fps file as the library reports it. -/
def highspeed_media : Media :=
  { fixture_media with
    ctx := { streams := [highspeed_stream], duration := 10000000, start_time := 0 } }

/-- The fixture environment with every file being the 120 fps stream. -/
def highspeed_lib : Lib := { fixture_lib with media := fun _ => highspeed_media }

/-- The decoder state once the 120 fps stream is open: the declared rate is
above 100, so `framerate` is the inverse time base and `tpf` is 1. -/
def highspeed_open : ffst :=
  { fixture_open with
    pFormatCtx := some highspeed_media.ctx, framerate := 90000, tpf := 1, frames := 1200 }

/-! ## The live-stream offset -/

/-- A demuxer on which every `av_seek_frame` fails. -/
def failing_demux : Demux := { seek := fun _ _ => none, sws_context := Ptr.block 4 }

/-- A video stream that declares no real frame rate (`r_frame_rate` 0/0), with
time base 1/25. -/
def norate_stream : AVStream :=
  { fixture_stream with
    r_frame_rate := { num := 0, den := 0 }, time_base := { num := 1, den := 25 },
    nb_frames := 250, duration := 250 }

/-- A file with that stream as the library reports it. -/
def norate_media : Media :=
  { fixture_media with
    ctx := { streams := [norate_stream], duration := 10000000, start_time := 0 } }

/-- The fixture environment with every file being the stream without a declared
rate. -/
def norate_lib : Lib := { fixture_lib with media := fun _ => norate_media }

/-- The decoder state once that file is open: `framerate` is the default 1. -/
def norate_open : ffst :=
  { fixture_open with
    pFormatCtx := some norate_media.ctx, framerate := 1, tpf := 25, frames := 250 }

/-- Spec side of C16: whether a sequence of calls keeps the lock discipline,
starting with the lock held or not: `avformat_find_stream_info`,
`avcodec_open2`, `avcodec_close` and `avformat_close_input` are made only while
the lock is held, and the lock is not held at the end. -/
def lock_discipline : Bool → List Call → Bool
  | held, [] => !held
  | _, Call.lock :: rest => lock_discipline true rest
  | _, Call.unlock :: rest => lock_discipline false rest
  | held, Call.avformat_find_stream_info :: rest => held && lock_discipline held rest
  | held, Call.avcodec_open2 :: rest => held && lock_discipline held rest
  | held, Call.avcodec_close :: rest => held && lock_discipline held rest
  | held, Call.avformat_close_input :: rest => held && lock_discipline held rest
  | held, _ :: rest => lock_discipline held rest

/-- A file whose only stream is not a video stream. -/
def novideo_media : Media :=
  { fixture_media with
    ctx := { streams := [{ fixture_stream with is_video := false }],
             duration := 10000000, start_time := 0 } }

/-- The fixture environment with every file being the file without video. -/
def novideo_lib : Lib := { fixture_lib with media := fun _ => novideo_media }

/-- The fixture environment with `avcodec_open2` failing. -/
def nocodec_lib : Lib :=
  { fixture_lib with media := fun _ => { fixture_media with codec_open_ok := false } }

/-! ## Theorems -/

theorem strstr_iff (h n : List Char) : strstr h n = true ↔ n <:+: h := by
  induction h with
  | nil =>
    cases n <;> simp [strstr, List.isPrefixOf]
  | cons c t ih =>
    rw [strstr, Bool.or_eq_true, ih, List.infix_cons_iff, List.isPrefixOf_iff_prefix]

theorem splitOn_slash_cons (c : Char) (xs : List Char) :
    (c :: xs).splitOn '/' =
      if c = '/' then [] :: xs.splitOn '/'
      else (xs.splitOn '/').modifyHead (List.cons c) := by
  simp [List.splitOn, List.splitOnP_cons]

theorem splitOn_slash_head (xs : List Char) :
    (xs.splitOn '/').head? = some (xs.takeWhile (fun c => c != '/')) := by
  induction xs with
  | nil => simp [List.splitOn, List.splitOnP_nil]
  | cons c t ih =>
    rw [splitOn_slash_cons]
    by_cases hc : c = '/'
    · simp [hc]
    · rcases hsp : t.splitOn '/' with _ | ⟨h, r⟩
      · exact absurd hsp (List.splitOnP_ne_nil _ _)
      · rw [hsp] at ih
        simp only [List.head?_cons, Option.some.injEq] at ih
        simp [hc, List.modifyHead, List.takeWhile_cons, ih]

theorem takeWhile_dotdot (xs : List Char) :
    xs.takeWhile (fun c => c != '/') = ['.', '.'] ↔
      (xs = ['.', '.'] ∨ ['.', '.', '/'] <+: xs) := by
  rcases xs with _ | ⟨a, _ | ⟨b, _ | ⟨c, r⟩⟩⟩
  · simp
  · by_cases ha : a = '/' <;> simp [List.takeWhile_cons, ha, List.cons_prefix_cons]
  · by_cases ha : a = '/' <;> by_cases hb : b = '/' <;>
      simp [List.takeWhile_cons, ha, hb, List.cons_prefix_cons]
  · by_cases ha : a = '/'
    · subst ha
      simp [List.takeWhile_cons, List.cons_prefix_cons]
    · by_cases hb : b = '/'
      · subst hb
        simp [List.takeWhile_cons, ha, List.cons_prefix_cons]
      · by_cases hc : c = '/'
        · subst hc
          simp [List.takeWhile_cons, ha, hb, List.cons_prefix_cons]
          exact ⟨fun h => ⟨h.1.symm, h.2.symm⟩, fun h => ⟨h.1.symm, h.2.symm⟩⟩
        · have hc2 : ¬ '/' = c := fun h => hc h.symm
          simp [List.takeWhile_cons, ha, hb, hc, hc2, List.cons_prefix_cons]

theorem splitOn_slash_tail (xs : List Char) :
    ['.', '.'] ∈ (xs.splitOn '/').tail ↔
      (['/', '.', '.', '/'] <:+: xs ∨ ['/', '.', '.'] <:+ xs) := by
  induction xs with
  | nil => simp [List.splitOn, List.splitOnP_nil]
  | cons c t ih =>
    rw [splitOn_slash_cons, List.infix_cons_iff, List.suffix_cons_iff]
    have hh := splitOn_slash_head t
    rcases hsp : t.splitOn '/' with _ | ⟨h, r⟩
    · exact absurd hsp (List.splitOnP_ne_nil _ _)
    · rw [hsp] at ih hh
      simp only [List.head?_cons, Option.some.injEq] at hh
      simp only [List.tail_cons] at ih
      by_cases hc : c = '/'
      · subst hc
        have ht := takeWhile_dotdot t
        rw [← hh] at ht
        simp only [if_true, List.tail_cons, List.mem_cons, ih, List.cons_prefix_cons,
          true_and, List.cons.injEq]
        constructor
        · rintro (h1 | h2 | h3)
          · rcases ht.mp h1.symm with h4 | h4
            · exact Or.inr (Or.inl h4.symm)
            · exact Or.inl (Or.inl h4)
          · exact Or.inl (Or.inr h2)
          · exact Or.inr (Or.inr h3)
        · rintro ((h1 | h1) | (h1 | h1))
          · exact Or.inl (ht.mpr (Or.inr h1)).symm
          · exact Or.inr (Or.inl h1)
          · exact Or.inl (ht.mpr (Or.inl h1.symm)).symm
          · exact Or.inr (Or.inr h1)
      · have hc2 : ¬ '/' = c := fun h => hc h.symm
        simp [hc, hc2, List.modifyHead, ih, List.cons_prefix_cons]

theorem splitOn_slash_mem_dotdot (xs : List Char) :
    ['.', '.'] ∈ xs.splitOn '/' ↔
      (xs = ['.', '.'] ∨ ['.', '.', '/'] <+: xs ∨ ['/', '.', '.', '/'] <:+: xs
        ∨ ['/', '.', '.'] <:+ xs) := by
  have hh := splitOn_slash_head xs
  have ht := splitOn_slash_tail xs
  have hd := takeWhile_dotdot xs
  rcases hsp : xs.splitOn '/' with _ | ⟨h, r⟩
  · exact absurd hsp (List.splitOnP_ne_nil _ _)
  · rw [hsp] at hh ht
    simp only [List.head?_cons, Option.some.injEq] at hh
    simp only [List.tail_cons] at ht
    rw [← hh] at hd
    rw [List.mem_cons, ht]
    constructor
    · rintro (h1 | h1)
      · rcases hd.mp h1.symm with h2 | h2
        · exact Or.inl h2
        · exact Or.inr (Or.inl h2)
      · exact Or.inr (Or.inr h1)
    · rintro (h1 | h1 | h1)
      · exact Or.inl (hd.mpr (Or.inl h1)).symm
      · exact Or.inl (hd.mpr (Or.inr h1)).symm
      · exact Or.inr h1

theorem strncmp_dotdotslash (f : List Char) :
    strncmp_eq f ['.', '.', '/'] 3 = true ↔ ['.', '.', '/'] <+: f := by
  rw [List.prefix_iff_eq_take]
  unfold strncmp_eq
  rw [beq_iff_eq]
  exact eq_comm

theorem check_path_cond (pre f : List Char)
    (hread : cstr_at pre f ((f.length : Int) - 3) = ['/', '.', '.'] ↔ ['/', '.', '.'] <:+ f) :
    check_path pre f = -1 ↔ (f.head? = some '/' ∨ ['.', '.'] ∈ f.splitOn '/') := by
  rw [splitOn_slash_mem_dotdot, ← hread, ← strstr_iff, ← strncmp_dotdotslash]
  unfold check_path
  simp only [strcmp_eq, beq_iff_eq, Bool.or_eq_true]
  constructor
  · intro h
    split at h
    · rename_i hc
      rcases hc with (((h1 | h1) | h1) | h1) | h1
      · exact Or.inl h1
      · exact Or.inr (Or.inl h1)
      · exact Or.inr (Or.inr (Or.inl h1))
      · exact Or.inr (Or.inr (Or.inr (Or.inl h1)))
      · exact Or.inr (Or.inr (Or.inr (Or.inr h1)))
    · exact absurd h (by decide)
  · intro h
    rw [if_pos]
    rcases h with h1 | h1 | h1 | h1 | h1
    · exact Or.inl (Or.inl (Or.inl (Or.inl h1)))
    · exact Or.inl (Or.inl (Or.inl (Or.inr h1)))
    · exact Or.inl (Or.inl (Or.inr h1))
    · exact Or.inl (Or.inr h1)
    · exact Or.inr h1

theorem check_path_values (pre f : List Char) :
    check_path pre f = -1 ∨ check_path pre f = 0 := by
  unfold check_path
  simp only []
  split
  · exact Or.inl rfl
  · exact Or.inr rfl

/-- Whenever `f` has at least three characters the last test of `check_path`
stays inside `f` and is the test "`f` ends with `/..`". -/
theorem cstr_at_suffix (pre f : List Char) (hlen : 3 ≤ f.length) :
    cstr_at pre f ((f.length : Int) - 3) = ['/', '.', '.'] ↔ ['/', '.', '.'] <:+ f := by
  have h0 : (0 : Int) ≤ (f.length : Int) - 3 := by omega
  have h1 : ((f.length : Int) - 3).toNat = f.length - 3 := by omega
  rw [List.suffix_iff_eq_drop]
  simp only [cstr_at, h0, if_true, h1, List.length_cons, List.length_nil]
  exact eq_comm

/-- C1: reading the last test as "`f` ends with `/..`", `check_path f` returns
-1 exactly when `f` begins with `/` or one of its `/`-separated components is
`..`, and returns 0 in every other case. -/
theorem check_path_spec (pre f : List Char)
    (hread : cstr_at pre f ((f.length : Int) - 3) = ['/', '.', '.'] ↔ ['/', '.', '.'] <:+ f) :
    (check_path pre f = -1 ↔ (f.head? = some '/' ∨ ['.', '.'] ∈ f.splitOn '/')) ∧
    (¬ (f.head? = some '/' ∨ ['.', '.'] ∈ f.splitOn '/') → check_path pre f = 0) := by
  refine ⟨check_path_cond pre f hread, fun hn => ?_⟩
  rcases check_path_values pre f with h | h
  · exact absurd ((check_path_cond pre f hread).mp h) hn
  · exact h

theorem check_path_spec_witness :
    (check_path [] ['a', '/', '.', '.'] = -1 ↔
      ((['a', '/', '.', '.'] : List Char).head? = some '/' ∨
        ['.', '.'] ∈ (['a', '/', '.', '.'] : List Char).splitOn '/')) ∧
    (¬ ((['a', '/', '.', '.'] : List Char).head? = some '/' ∨
        ['.', '.'] ∈ (['a', '/', '.', '.'] : List Char).splitOn '/') →
      check_path [] ['a', '/', '.', '.'] = 0) :=
  check_path_spec [] ['a', '/', '.', '.'] (cstr_at_suffix [] _ (by decide))

/-- C2 (as stated) fails: a request without a `file` parameter is answered with
404, not 400, and a request whose `frame` value is `abc` or `-5` reaches
`hdl_decode_frame` (with frame 0 and -5). -/
theorem default_route_counterexample :
    ics_http_handler_default sample_consts some fs_all_readable ['/', 's', '/'] []
        ['f', 'r', 'a', 'm', 'e', '=', '5'] = [Action.httperror 404] ∧
    ics_http_handler_default sample_consts some fs_all_readable ['/', 's', '/'] []
        ['f', 'i', 'l', 'e', '=', 'a', '&', 'f', 'r', 'a', 'm', 'e', '=', 'a', 'b', 'c'] =
      [Action.hdl_decode_frame
        { file_name := some ['/', 's', '/', 'a'], frame := 0, out_width := -1,
          out_height := -1, idx_option := 0, render_fmt := 2, decode_fmt := 2 }] ∧
    ics_http_handler_default sample_consts some fs_all_readable ['/', 's', '/'] []
        ['f', 'i', 'l', 'e', '=', 'a', '&', 'f', 'r', 'a', 'm', 'e', '=', '-', '5'] =
      [Action.hdl_decode_frame
        { file_name := some ['/', 's', '/', 'a'], frame := -5, out_width := -1,
          out_height := -1, idx_option := 0, render_fmt := 2, decode_fmt := 2 }] := by
  refine ⟨?_, ?_, ?_⟩ <;> decide

theorem takeWhile_eq_key (key rest : List Char) (hk : '=' ∉ key) :
    (key ++ '=' :: rest).takeWhile (fun c => c != '=') = key := by
  induction key with
  | nil => simp
  | cons c t ih =>
    have hc : c ≠ '=' := fun h => hk (by simp [h])
    have ht : '=' ∉ t := fun h => hk (List.mem_cons_of_mem _ h)
    simp [List.takeWhile_cons, hc, ih ht]

theorem dropWhile_eq_key (key rest : List Char) (hk : '=' ∉ key) :
    (key ++ '=' :: rest).dropWhile (fun c => c != '=') = '=' :: rest := by
  induction key with
  | nil => simp
  | cons c t ih =>
    have hc : c ≠ '=' := fun h => hk (by simp [h])
    have ht : '=' ∉ t := fun h => hk (List.mem_cons_of_mem _ h)
    simp [List.dropWhile_cons, hc, ih ht]

theorem contains_eq_split (kvp : List Char) (h : kvp.contains '=' = true) :
    ∃ rest, kvp = kvp.takeWhile (fun c => c != '=') ++ '=' :: rest ∧
      kvp.dropWhile (fun c => c != '=') = '=' :: rest := by
  induction kvp with
  | nil => simp at h
  | cons c t ih =>
    by_cases hc : c = '='
    · subst hc
      exact ⟨t, by simp [List.takeWhile_cons], by simp [List.dropWhile_cons]⟩
    · have hc2 : ¬ '=' = c := fun h => hc h.symm
      have ht : t.contains '=' = true := by
        simpa [hc2] using h
      obtain ⟨rest, h1, h2⟩ := ih ht
      refine ⟨rest, ?_, ?_⟩
      · simp only [List.takeWhile_cons, bne_iff_ne, ne_eq, hc, not_false_eq_true,
          decide_True, if_true, List.cons_append]
        rw [← h1]
      · simp [List.dropWhile_cons, hc, h2]

/-- The key/value cut of `parse_param` recognises exactly the usable
parameters of `is_param`. -/
theorem is_param_iff (key kvp : List Char) (hk : '=' ∉ key) :
    is_param key kvp = true ↔
      (kvp.contains '=' = true ∧ kvp.takeWhile (fun c => c != '=') = key ∧
        ¬ ((kvp.dropWhile (fun c => c != '=')).drop 1).length < 1) := by
  unfold is_param
  rw [Bool.and_eq_true, List.isPrefixOf_iff_prefix, decide_eq_true_iff]
  constructor
  · rintro ⟨⟨r, hr⟩, hl⟩
    have hkvp : kvp = key ++ '=' :: r := by rw [← hr]; simp
    subst hkvp
    refine ⟨by simp, takeWhile_eq_key key r hk, ?_⟩
    rw [dropWhile_eq_key key r hk]
    simp only [List.length_append, List.length_cons] at hl
    simp only [List.drop_succ_cons, List.drop_zero]
    omega
  · rintro ⟨hc, htw, hl⟩
    obtain ⟨rest, h1, h2⟩ := contains_eq_split kvp hc
    rw [htw] at h1
    rw [h2] at hl
    simp only [List.drop_succ_cons, List.drop_zero] at hl
    refine ⟨⟨rest, by rw [h1]; simp⟩, ?_⟩
    rw [h1]
    simp only [List.length_append, List.length_cons]
    omega

theorem parse_param_frame (K : Consts) (ue : List Char → Option (List Char))
    (qps : queryparserstate) (kvp : List Char)
    (h : is_param ['f', 'r', 'a', 'm', 'e'] kvp = true) :
    (parse_param K ue qps kvp).doit = qps.doit ||| 1 ∧
      (parse_param K ue qps kvp).fn = qps.fn := by
  obtain ⟨h1, h2, h3⟩ := (is_param_iff _ kvp (by decide)).mp h
  unfold parse_param
  simp only [h1, h2, strcmp_eq, Bool.not_true, Bool.false_eq_true, if_false]
  have h4 : (decide (((kvp.dropWhile (fun c => c != '=')).drop 1).length < 1) ||
      decide ((['f', 'r', 'a', 'm', 'e'] : List Char).length < 1)) = false := by
    simp only [Bool.or_eq_false_iff, decide_eq_false_iff_not]
    exact ⟨h3, by decide⟩
  rw [if_neg (by rw [h4]; simp)]
  simp

theorem parse_param_file (K : Consts) (ue : List Char → Option (List Char))
    (qps : queryparserstate) (kvp : List Char)
    (h : is_param ['f', 'i', 'l', 'e'] kvp = true) :
    (parse_param K ue qps kvp).doit = qps.doit ||| 2 := by
  obtain ⟨h1, h2, h3⟩ := (is_param_iff _ kvp (by decide)).mp h
  unfold parse_param
  simp only [h1, h2, strcmp_eq, Bool.not_true, Bool.false_eq_true, if_false]
  have h4 : (decide (((kvp.dropWhile (fun c => c != '=')).drop 1).length < 1) ||
      decide ((['f', 'i', 'l', 'e'] : List Char).length < 1)) = false := by
    simp only [Bool.or_eq_false_iff, decide_eq_false_iff_not]
    exact ⟨h3, by decide⟩
  rw [if_neg (by rw [h4]; simp)]
  simp

theorem parse_param_other (K : Consts) (ue : List Char → Option (List Char))
    (qps : queryparserstate) (kvp : List Char)
    (hf : is_param ['f', 'r', 'a', 'm', 'e'] kvp = false)
    (hg : is_param ['f', 'i', 'l', 'e'] kvp = false) :
    (parse_param K ue qps kvp).doit = qps.doit ∧
      (parse_param K ue qps kvp).fn = qps.fn := by
  unfold parse_param
  simp only [strcmp_eq]
  split_ifs with c1 c2 c3 c4 c5 c6 c7 c8
  · exact ⟨rfl, rfl⟩
  · exact ⟨rfl, rfl⟩
  · exfalso
    have : is_param ['f', 'r', 'a', 'm', 'e'] kvp = true := by
      rw [is_param_iff _ kvp (by decide)]
      simp only [Bool.or_eq_true, decide_eq_true_iff, not_or] at c2
      exact ⟨by simpa using c1, by simpa using c3, c2.1⟩
    rw [hf] at this
    exact absurd this (by decide)
  · exact ⟨rfl, rfl⟩
  · exact ⟨rfl, rfl⟩
  · exfalso
    have : is_param ['f', 'i', 'l', 'e'] kvp = true := by
      rw [is_param_iff _ kvp (by decide)]
      simp only [Bool.or_eq_true, decide_eq_true_iff, not_or] at c2
      exact ⟨by simpa using c1, by simpa using c6, c2.1⟩
    rw [hg] at this
    exact absurd this (by decide)
  · exact ⟨rfl, rfl⟩
  · exact ⟨rfl, rfl⟩
  · exact ⟨rfl, rfl⟩

theorem is_param_frame_not_file (kvp : List Char)
    (h : is_param ['f', 'r', 'a', 'm', 'e'] kvp = true) :
    is_param ['f', 'i', 'l', 'e'] kvp = false := by
  obtain ⟨_, h2, _⟩ := (is_param_iff _ kvp (by decide)).mp h
  cases hq : is_param ['f', 'i', 'l', 'e'] kvp
  · rfl
  · obtain ⟨_, h3, _⟩ := (is_param_iff _ kvp (by decide)).mp hq
    rw [h2] at h3
    exact absurd h3 (by decide)

/-- After the parameter loop, bit 0 of `doit` records a usable `frame`
parameter, bit 1 a usable `file` parameter, and `fn` is only set by the
latter. -/
theorem params_fold (K : Consts) (ue : List Char → Option (List Char)) :
    ∀ (pieces : List (List Char)) (qps : queryparserstate) (P Q : Bool),
      qps.doit = P.toNat + 2 * Q.toNat → (qps.fn ≠ none → Q = true) →
      (pieces.foldl (parse_param K ue) qps).doit =
          (P || pieces.any (is_param ['f', 'r', 'a', 'm', 'e'])).toNat +
            2 * (Q || pieces.any (is_param ['f', 'i', 'l', 'e'])).toNat ∧
        ((pieces.foldl (parse_param K ue) qps).fn ≠ none →
          (Q || pieces.any (is_param ['f', 'i', 'l', 'e'])) = true) := by
  intro pieces
  induction pieces with
  | nil =>
    intro qps P Q hd hfn
    simpa using ⟨hd, hfn⟩
  | cons x rest ih =>
    intro qps P Q hd hfn
    rw [List.foldl_cons, List.any_cons, List.any_cons, ← Bool.or_assoc, ← Bool.or_assoc]
    cases hf : is_param ['f', 'r', 'a', 'm', 'e'] x
    · cases hg : is_param ['f', 'i', 'l', 'e'] x
      · obtain ⟨h1, h2⟩ := parse_param_other K ue qps x hf hg
        refine ih _ (P || false) (Q || false) ?_ ?_
        · rw [h1, hd]; simp
        · rw [h2]; simpa using hfn
      · have h1 := parse_param_file K ue qps x hg
        refine ih _ (P || false) (Q || true) ?_ ?_
        · rw [h1, hd]
          cases P <;> cases Q <;> decide
        · intro _; simp
    · have hg := is_param_frame_not_file x hf
      obtain ⟨h1, h2⟩ := parse_param_frame K ue qps x hf
      rw [hg]
      refine ih _ (P || true) (Q || false) ?_ ?_
      · rw [h1, hd]
        cases P <;> cases Q <;> decide
      · rw [h2]; simpa using hfn

theorem query_state (K : Consts) (ue : List Char → Option (List Char))
    (a : ics_request_args) (query : List Char) :
    (parse_http_query_params K ue { a := a, fn := none, doit := 0 } query).doit =
        (has_param ['f', 'r', 'a', 'm', 'e'] query).toNat +
          2 * (has_param ['f', 'i', 'l', 'e'] query).toNat ∧
      ((parse_http_query_params K ue { a := a, fn := none, doit := 0 } query).fn ≠ none →
        has_param ['f', 'i', 'l', 'e'] query = true) := by
  have h := params_fold K ue (query.splitOnP (fun c => c == '&' || c == '?'))
    { a := a, fn := none, doit := 0 } false false (by simp) (by simp)
  simpa [parse_http_query_params, has_param] using h

/-- The default route in terms of the parsed state: which reply follows from
`fn`, `doit` and the file checks. -/
theorem default_route_by_state (K : Consts) (ue : List Char → Option (List Char))
    (fs : FileSys) (docroot pre query : List Char) :
    ((parse_http_query_params K ue
        { a := query_defaults K zero_args, fn := none, doit := 0 } query).fn = none →
      ics_http_handler_default K ue fs docroot pre query = [Action.httperror 404]) ∧
    (∀ p d, (parse_http_query_params K ue
        { a := query_defaults K zero_args, fn := none, doit := 0 } query).fn = some p →
      (parse_http_query_params K ue
        { a := query_defaults K zero_args, fn := none, doit := 0 } query).doit = d →
      (d = 2 ∨ d = 3) →
      (check_path pre p ≠ 0 ∨ fs.stat (docroot ++ p) = none →
        ics_http_handler_default K ue fs docroot pre query = [Action.httperror 404]) ∧
      (check_path pre p = 0 → fs.stat (docroot ++ p) ≠ none →
        fs.readable (docroot ++ p) = false →
        ics_http_handler_default K ue fs docroot pre query = [Action.httperror 403]) ∧
      (check_path pre p = 0 → fs.stat (docroot ++ p) ≠ none →
        fs.readable (docroot ++ p) = true → d = 2 →
        ics_http_handler_default K ue fs docroot pre query = [Action.httperror 400]) ∧
      (check_path pre p = 0 → fs.stat (docroot ++ p) ≠ none →
        fs.readable (docroot ++ p) = true → d = 3 →
        ics_http_handler_default K ue fs docroot pre query =
          [Action.hdl_decode_frame
            { (parse_http_query_params K ue
                { a := query_defaults K zero_args, fn := none, doit := 0 } query).a with
              file_name := some (docroot ++ p) }])) := by
  refine ⟨fun h => ?_, fun p d h hd hd23 => ?_⟩
  · simp [ics_http_handler_default, parse_http_query, h]
  · have h3 : (d &&& 3 != 0) = true := by
      rcases hd23 with rfl | rfl <;> decide
    refine ⟨?_, ?_, ?_, ?_⟩
    · rintro (h1 | h1)
      · simp [ics_http_handler_default, parse_http_query, h, h1]
      · by_cases hc : check_path pre p = 0
        · simp only [ics_http_handler_default, parse_http_query, h, hd, h1, hc, h3]
          simp
        · simp [ics_http_handler_default, parse_http_query, h, hc]
    · intro hc hs hr
      obtain ⟨m, hm⟩ := Option.ne_none_iff_exists'.mp hs
      simp only [ics_http_handler_default, parse_http_query, h, hd, hc, h3, hm, hr]
      simp
    · intro hc hs hr h2
      obtain ⟨m, hm⟩ := Option.ne_none_iff_exists'.mp hs
      subst h2
      simp only [ics_http_handler_default, parse_http_query, h, hd, hc, h3, hm, hr]
      simp
    · intro hc hs hr h2
      obtain ⟨m, hm⟩ := Option.ne_none_iff_exists'.mp hs
      subst h2
      simp only [ics_http_handler_default, parse_http_query, h, hd, hc, h3, hm, hr]
      simp

/-- C2 (amended): on the default route a query without a usable `file`
parameter is answered with 404; with a usable `file` but no usable `frame`
parameter the answer is 400, 404 or 403 and `hdl_decode_frame` is not called,
the answer being 400 once the path check, `stat` and `access` pass;
`hdl_decode_frame` is reached only when both a usable `file` and a usable
`frame` parameter are present, and is reached then whenever the file checks
pass, whatever the characters of the `frame` value. -/
theorem default_route_outcomes (K : Consts) (ue : List Char → Option (List Char))
    (fs : FileSys) (docroot pre query : List Char) :
    (has_param ['f', 'i', 'l', 'e'] query = false →
      ics_http_handler_default K ue fs docroot pre query = [Action.httperror 404]) ∧
    (has_param ['f', 'r', 'a', 'm', 'e'] query = false →
      (ics_http_handler_default K ue fs docroot pre query = [Action.httperror 400] ∨
       ics_http_handler_default K ue fs docroot pre query = [Action.httperror 404] ∨
       ics_http_handler_default K ue fs docroot pre query = [Action.httperror 403])) ∧
    (∀ a, Action.hdl_decode_frame a ∈ ics_http_handler_default K ue fs docroot pre query →
      has_param ['f', 'i', 'l', 'e'] query = true ∧
        has_param ['f', 'r', 'a', 'm', 'e'] query = true) ∧
    (∀ p, (parse_http_query_params K ue
        { a := query_defaults K zero_args, fn := none, doit := 0 } query).fn = some p →
      check_path pre p = 0 → fs.stat (docroot ++ p) ≠ none →
      fs.readable (docroot ++ p) = true →
      (has_param ['f', 'r', 'a', 'm', 'e'] query = false →
        ics_http_handler_default K ue fs docroot pre query = [Action.httperror 400]) ∧
      (has_param ['f', 'r', 'a', 'm', 'e'] query = true →
        ics_http_handler_default K ue fs docroot pre query =
          [Action.hdl_decode_frame
            { (parse_http_query_params K ue
                { a := query_defaults K zero_args, fn := none, doit := 0 } query).a with
              file_name := some (docroot ++ p) }])) := by
  obtain ⟨hd, hfn⟩ := query_state K ue (query_defaults K zero_args) query
  obtain ⟨hnone, hsome⟩ := default_route_by_state K ue fs docroot pre query
  -- the possible replies, with what each says about the parameters
  have shape :
      ics_http_handler_default K ue fs docroot pre query = [Action.httperror 404] ∨
      ics_http_handler_default K ue fs docroot pre query = [Action.httperror 403] ∨
      (ics_http_handler_default K ue fs docroot pre query = [Action.httperror 400] ∧
        has_param ['f', 'r', 'a', 'm', 'e'] query = false) ∨
      ((∃ a, ics_http_handler_default K ue fs docroot pre query =
          [Action.hdl_decode_frame a]) ∧
        has_param ['f', 'i', 'l', 'e'] query = true ∧
        has_param ['f', 'r', 'a', 'm', 'e'] query = true) := by
    cases hq : (parse_http_query_params K ue
        { a := query_defaults K zero_args, fn := none, doit := 0 } query).fn with
    | none => exact Or.inl (hnone hq)
    | some p =>
      have hF : has_param ['f', 'i', 'l', 'e'] query = true := hfn (by rw [hq]; simp)
      rw [hF] at hd
      by_cases hc : check_path pre p = 0
      · by_cases hs : fs.stat (docroot ++ p) = none
        · cases hG : has_param ['f', 'r', 'a', 'm', 'e'] query
          · rw [hG] at hd
            exact Or.inl ((hsome p 2 hq hd (Or.inl rfl)).1 (Or.inr hs))
          · rw [hG] at hd
            exact Or.inl ((hsome p 3 hq hd (Or.inr rfl)).1 (Or.inr hs))
        · cases hr : fs.readable (docroot ++ p)
          · cases hG : has_param ['f', 'r', 'a', 'm', 'e'] query
            · rw [hG] at hd
              exact Or.inr (Or.inl ((hsome p 2 hq hd (Or.inl rfl)).2.1 hc hs hr))
            · rw [hG] at hd
              exact Or.inr (Or.inl ((hsome p 3 hq hd (Or.inr rfl)).2.1 hc hs hr))
          · cases hG : has_param ['f', 'r', 'a', 'm', 'e'] query
            · rw [hG] at hd
              exact Or.inr (Or.inr (Or.inl
                ⟨(hsome p 2 hq hd (Or.inl rfl)).2.2.1 hc hs hr rfl, rfl⟩))
            · rw [hG] at hd
              exact Or.inr (Or.inr (Or.inr
                ⟨⟨_, (hsome p 3 hq hd (Or.inr rfl)).2.2.2 hc hs hr rfl⟩, hF, rfl⟩))
      · cases hG : has_param ['f', 'r', 'a', 'm', 'e'] query
        · rw [hG] at hd
          exact Or.inl ((hsome p 2 hq hd (Or.inl rfl)).1 (Or.inl hc))
        · rw [hG] at hd
          exact Or.inl ((hsome p 3 hq hd (Or.inr rfl)).1 (Or.inl hc))
  refine ⟨fun hF => ?_, fun hG => ?_, fun a ha => ?_, fun p hq hc hs hr => ⟨fun hG => ?_, fun hG => ?_⟩⟩
  · cases hq : (parse_http_query_params K ue
        { a := query_defaults K zero_args, fn := none, doit := 0 } query).fn with
    | none => exact hnone hq
    | some p =>
      have := hfn (by rw [hq]; simp)
      rw [hF] at this
      exact absurd this (by decide)
  · rcases shape with h | h | ⟨h, _⟩ | ⟨_, _, h⟩
    · exact Or.inr (Or.inl h)
    · exact Or.inr (Or.inr h)
    · exact Or.inl h
    · rw [hG] at h
      exact absurd h (by decide)
  · rcases shape with h | h | ⟨h, _⟩ | ⟨_, h1, h2⟩
    · rw [h] at ha; simp at ha
    · rw [h] at ha; simp at ha
    · rw [h] at ha; simp at ha
    · exact ⟨h1, h2⟩
  · have hF : has_param ['f', 'i', 'l', 'e'] query = true := hfn (by rw [hq]; simp)
    rw [hF, hG] at hd
    exact (hsome p 2 hq hd (Or.inl rfl)).2.2.1 hc hs hr rfl
  · have hF : has_param ['f', 'i', 'l', 'e'] query = true := hfn (by rw [hq]; simp)
    rw [hF, hG] at hd
    exact (hsome p 3 hq hd (Or.inr rfl)).2.2.2 hc hs hr rfl

theorem parse_format_table (K : Consts) (a : ics_request_args) (v : List Char) :
    (parse_format K a v).render_fmt = ((format_table_spec K).lookup v).getD a.render_fmt ∧
    (parse_format K a v).decode_fmt = ((decode_table_spec K).lookup v).getD a.decode_fmt := by
  by_cases h0 : v = ['j', 'p', 'g']
  · subst h0; exact ⟨rfl, rfl⟩
  have e0 : (v == ['j', 'p', 'g']) = false := beq_eq_false_iff_ne.mpr h0
  by_cases h1 : v = ['j', 'p', 'e', 'g']
  · subst h1; exact ⟨rfl, rfl⟩
  have e1 : (v == ['j', 'p', 'e', 'g']) = false := beq_eq_false_iff_ne.mpr h1
  by_cases h2 : v = ['p', 'n', 'g']
  · subst h2; exact ⟨rfl, rfl⟩
  have e2 : (v == ['p', 'n', 'g']) = false := beq_eq_false_iff_ne.mpr h2
  by_cases h3 : v = ['p', 'p', 'm']
  · subst h3; exact ⟨rfl, rfl⟩
  have e3 : (v == ['p', 'p', 'm']) = false := beq_eq_false_iff_ne.mpr h3
  by_cases h4 : v = ['r', 'a', 'w']
  · subst h4; exact ⟨rfl, rfl⟩
  have e4 : (v == ['r', 'a', 'w']) = false := beq_eq_false_iff_ne.mpr h4
  by_cases h5 : v = ['r', 'g', 'b']
  · subst h5; exact ⟨rfl, rfl⟩
  have e5 : (v == ['r', 'g', 'b']) = false := beq_eq_false_iff_ne.mpr h5
  by_cases h6 : v = ['r', 'g', 'b', 'a']
  · subst h6; exact ⟨rfl, rfl⟩
  have e6 : (v == ['r', 'g', 'b', 'a']) = false := beq_eq_false_iff_ne.mpr h6
  by_cases h7 : v = ['h', 't', 'm', 'l']
  · subst h7; exact ⟨rfl, rfl⟩
  have e7 : (v == ['h', 't', 'm', 'l']) = false := beq_eq_false_iff_ne.mpr h7
  by_cases h8 : v = ['x', 'h', 't', 'm', 'l']
  · subst h8; exact ⟨rfl, rfl⟩
  have e8 : (v == ['x', 'h', 't', 'm', 'l']) = false := beq_eq_false_iff_ne.mpr h8
  by_cases h9 : v = ['j', 's', 'o', 'n']
  · subst h9; exact ⟨rfl, rfl⟩
  have e9 : (v == ['j', 's', 'o', 'n']) = false := beq_eq_false_iff_ne.mpr h9
  by_cases h10 : v = ['c', 's', 'v']
  · subst h10; exact ⟨rfl, rfl⟩
  have e10 : (v == ['c', 's', 'v']) = false := beq_eq_false_iff_ne.mpr h10
  by_cases h11 : v = ['p', 'l', 'a', 'i', 'n']
  · subst h11; exact ⟨rfl, rfl⟩
  have e11 : (v == ['p', 'l', 'a', 'i', 'n']) = false := beq_eq_false_iff_ne.mpr h11
  have hp : parse_format K a v = a := by
    simp [parse_format, strcmp_eq, h0, h1, h2, h3, h4, h5, h6, h7, h8, h9, h10, h11]
  have hl : (format_table_spec K).lookup v = none := by
    simp only [format_table_spec, List.lookup, e0, e1, e2, e3, e4, e5, e6, e7, e8, e9, e10, e11]
  have hd : (decode_table_spec K).lookup v = none := by
    simp only [decode_table_spec, List.lookup, e5, e6]
  rw [hp, hl, hd]
  exact ⟨rfl, rfl⟩

theorem parse_param_format (K : Consts) (ue : List Char → Option (List Char))
    (qps : queryparserstate) (v : List Char) :
    (parse_param K ue qps (['f', 'o', 'r', 'm', 'a', 't'] ++ '=' :: v)).a =
      parse_format K qps.a v := by
  have htw := takeWhile_eq_key ['f', 'o', 'r', 'm', 'a', 't'] v (by decide)
  have hdw := dropWhile_eq_key ['f', 'o', 'r', 'm', 'a', 't'] v (by decide)
  have hc : (['f', 'o', 'r', 'm', 'a', 't'] ++ '=' :: v).contains '=' = true := by simp
  unfold parse_param
  rw [htw, hdw]
  simp only [hc, Bool.not_true, Bool.false_eq_true, if_false, List.drop_succ_cons,
    List.drop_zero]
  cases v with
  | nil => rfl
  | cons c t =>
    have hl : (decide ((c :: t).length < 1) ||
        decide ((['f', 'o', 'r', 'm', 'a', 't'] : List Char).length < 1)) = false := by
      simp
    rw [if_neg (by rw [hl]; simp)]
    rfl

/-- C3: for every value `v` of the `format` parameter `parse_param` sets
`render_fmt` by the fixed table (an unlisted value leaves it as it was), and
`decode_fmt` changes for `rgb` and `rgba` only; in particular the defaults
PNG / RGB24 of `parse_http_query` survive an unrecognised value. -/
theorem format_param_table (K : Consts) (ue : List Char → Option (List Char))
    (qps : queryparserstate) (v : List Char) :
    (parse_param K ue qps (['f', 'o', 'r', 'm', 'a', 't'] ++ '=' :: v)).a.render_fmt =
      ((format_table_spec K).lookup v).getD qps.a.render_fmt ∧
    (parse_param K ue qps (['f', 'o', 'r', 'm', 'a', 't'] ++ '=' :: v)).a.decode_fmt =
      ((decode_table_spec K).lookup v).getD qps.a.decode_fmt ∧
    (parse_param K ue { qps with a := query_defaults K qps.a }
        (['f', 'o', 'r', 'm', 'a', 't'] ++ '=' :: v)).a.render_fmt =
      ((format_table_spec K).lookup v).getD K.FMT_PNG ∧
    (parse_param K ue { qps with a := query_defaults K qps.a }
        (['f', 'o', 'r', 'm', 'a', 't'] ++ '=' :: v)).a.decode_fmt =
      ((decode_table_spec K).lookup v).getD K.PIX_FMT_RGB24 := by
  rw [parse_param_format, parse_param_format]
  exact ⟨(parse_format_table K _ v).1, (parse_format_table K _ v).2,
    (parse_format_table K _ v).1, (parse_format_table K _ v).2⟩

/-! ### Binary floating point -/

theorem rint_cases (q : ℚ) : rint q = Int.floor q ∨ rint q = Int.floor q + 1 := by
  unfold rint
  split_ifs <;> simp

theorem rint_intCast (n : Int) : rint (n : ℚ) = n := by
  unfold rint
  rw [Int.floor_intCast]
  simp

/-- `rint q` is an integer nearest to `q`. -/
theorem rint_near (q : ℚ) (z : Int) : |(rint q : ℚ) - q| ≤ |(z : ℚ) - q| := by
  have h1 : (Int.floor q : ℚ) ≤ q := Int.floor_le q
  have h2 : q < (Int.floor q : ℚ) + 1 := Int.lt_floor_add_one q
  -- the distance of `rint q` from `q` is at most the smaller of the two
  have hr : |(rint q : ℚ) - q| ≤ q - Int.floor q ∧ |(rint q : ℚ) - q| ≤ Int.floor q + 1 - q := by
    unfold rint
    by_cases c1 : q - (Int.floor q : ℚ) < 1 / 2
    · rw [if_pos c1]
      rw [abs_sub_comm, abs_of_nonneg (by linarith)]
      constructor <;> linarith
    · rw [if_neg c1]
      by_cases c2 : 1 / 2 < q - (Int.floor q : ℚ)
      · rw [if_pos c2]
        push_cast
        rw [abs_of_nonneg (by linarith)]
        constructor <;> linarith
      · rw [if_neg c2]
        have e : q - (Int.floor q : ℚ) = 1 / 2 := le_antisymm (not_lt.mp c2) (not_lt.mp c1)
        by_cases c3 : Int.floor q % 2 = 0
        · rw [if_pos c3]
          rw [abs_sub_comm, abs_of_nonneg (by linarith)]
          constructor <;> linarith
        · rw [if_neg c3]
          push_cast
          rw [abs_of_nonneg (by linarith)]
          constructor <;> linarith
  by_cases hz : z ≤ Int.floor q
  · have hzq : (z : ℚ) ≤ (Int.floor q : ℚ) := by exact_mod_cast hz
    have e : |(z : ℚ) - q| = q - z := by
      rw [abs_sub_comm, abs_of_nonneg (by linarith)]
    rw [e]
    linarith [hr.1]
  · have hzq : (Int.floor q : ℚ) + 1 ≤ (z : ℚ) := by
      have : Int.floor q + 1 ≤ z := by omega
      exact_mod_cast this
    have e : |(z : ℚ) - q| = z - q := abs_of_nonneg (by linarith)
    rw [e]
    linarith [hr.2]

theorem rint_eq (q : ℚ) (n : Int) (h1 : (n : ℚ) - 1 / 2 < q) (h2 : q < (n : ℚ) + 1 / 2) :
    rint q = n := by
  have h := rint_near q n
  have h3 : |(n : ℚ) - q| < 1 / 2 := by
    rw [abs_lt]
    constructor <;> linarith
  have h4 : |(rint q : ℚ) - q| < 1 / 2 := lt_of_le_of_lt h h3
  rw [abs_lt] at h4
  have h5 : ((rint q : Int) : ℚ) < (n : ℚ) + 1 := by linarith [h4.2]
  have h6 : (n : ℚ) - 1 < ((rint q : Int) : ℚ) := by linarith [h4.1]
  have h7 : rint q < n + 1 := by exact_mod_cast h5
  have h8 : n - 1 < rint q := by exact_mod_cast h6
  omega

/-- Evaluation of a rounding: the exponent `e` and the integer `n` nearest to
the scaled value are given. -/
theorem fround_eq (prec : Nat) (emin e k n : Int) (x : ℚ)
    (hk : k = e - (prec : Int) + 1) (he : emin ≤ e)
    (hlo : (2 : ℚ) ^ e ≤ |x|) (hhi : |x| < (2 : ℚ) ^ (e + 1))
    (hn1 : (n : ℚ) - 1 / 2 < x / (2 : ℚ) ^ k) (hn2 : x / (2 : ℚ) ^ k < (n : ℚ) + 1 / 2) :
    fround prec emin x = (n : ℚ) * (2 : ℚ) ^ k := by
  have hpos : 0 < |x| := lt_of_lt_of_le (by positivity) hlo
  have hx0 : x ≠ 0 := abs_pos.mp hpos
  have hlog : Int.log 2 |x| = e := by
    have h1 : e ≤ Int.log 2 |x| :=
      (Int.zpow_le_iff_le_log (by norm_num) hpos).mp (by exact_mod_cast hlo)
    have h2 : Int.log 2 |x| < e + 1 :=
      (Int.lt_zpow_iff_log_lt (by norm_num) hpos).mp (by exact_mod_cast hhi)
    omega
  unfold fround
  rw [if_neg hx0, hlog, max_eq_left he, ← hk, rint_eq _ n hn1 hn2]

/-- A value with at most `prec` significant bits is not changed. -/
theorem fround_exact (prec : Nat) (emin m k : Int) (x : ℚ)
    (hx : x = (m : ℚ) * (2 : ℚ) ^ k) (hm : |m| < 2 ^ prec)
    (hk : emin - (prec : Int) + 1 ≤ k) :
    fround prec emin x = x := by
  by_cases hx0 : x = 0
  · unfold fround
    rw [if_pos hx0, hx0]
  unfold fround
  rw [if_neg hx0]
  have hpos : 0 < |x| := abs_pos.mpr hx0
  have h2 : (0 : ℚ) < 2 := by norm_num
  -- the exponent in use is at most `k + prec - 1`
  have hlog : Int.log 2 |x| < k + prec := by
    apply (Int.lt_zpow_iff_log_lt (by norm_num) hpos).mp
    have hm' : ((|m| : Int) : ℚ) < (2 : ℚ) ^ prec := by exact_mod_cast hm
    rw [hx, abs_mul, abs_of_pos (zpow_pos h2 k), ← Int.cast_abs]
    push_cast
    rw [add_comm, zpow_add₀ (by norm_num : (2 : ℚ) ≠ 0), zpow_natCast]
    push_cast at hm'
    exact mul_lt_mul_of_pos_right hm' (zpow_pos h2 k)
  have hsh : max (Int.log 2 |x|) emin - (prec : Int) + 1 ≤ k := by
    rcases max_cases (Int.log 2 |x|) emin with ⟨h, -⟩ | ⟨h, -⟩ <;> rw [h] <;> omega
  obtain ⟨s, hs⟩ : ∃ s : Int, s = max (Int.log 2 |x|) emin - (prec : Int) + 1 := ⟨_, rfl⟩
  rw [← hs] at hsh ⊢
  obtain ⟨d, hd⟩ : ∃ d : Nat, k = s + d := ⟨(k - s).toNat, by omega⟩
  have hs0 : (2 : ℚ) ^ s ≠ 0 := (zpow_pos h2 s).ne'
  have hq : x / (2 : ℚ) ^ s = ((m * 2 ^ d : Int) : ℚ) := by
    rw [hx, hd, zpow_add₀ (by norm_num : (2 : ℚ) ≠ 0), zpow_natCast]
    push_cast
    field_simp
    ring
  rw [hq, rint_intCast, hx, hd, zpow_add₀ (by norm_num : (2 : ℚ) ≠ 0), zpow_natCast]
  push_cast
  ring

theorem fround_intCast (prec : Nat) (emin : Int) (n : Int)
    (hn : |n| < 2 ^ prec) (he : emin - (prec : Int) + 1 ≤ 0) :
    fround prec emin (n : ℚ) = n :=
  fround_exact prec emin n 0 _ (by simp) hn he

/-- Below `2 ^ prec` every integer is at least as far from `x` as the rounded
value is. -/
theorem fround_near_int (prec : Nat) (emin : Int) (x : ℚ) (z : Int)
    (hx : |x| < (2 : ℚ) ^ prec) (he : emin ≤ (prec : Int) - 1) :
    |fround prec emin x - x| ≤ |(z : ℚ) - x| := by
  by_cases hx0 : x = 0
  · unfold fround
    rw [if_pos hx0, hx0]
    simp
  unfold fround
  rw [if_neg hx0]
  have hpos : 0 < |x| := abs_pos.mpr hx0
  have hlog : Int.log 2 |x| < prec := by
    apply (Int.lt_zpow_iff_log_lt (by norm_num) hpos).mp
    rw [zpow_natCast]
    exact_mod_cast hx
  have hsh : max (Int.log 2 |x|) emin - (prec : Int) + 1 ≤ 0 := by
    rcases max_cases (Int.log 2 |x|) emin with ⟨h, -⟩ | ⟨h, -⟩ <;> rw [h] <;> omega
  obtain ⟨d, hd⟩ : ∃ d : Nat, max (Int.log 2 |x|) emin - (prec : Int) + 1 = -(d : Int) :=
    ⟨(-(max (Int.log 2 |x|) emin - (prec : Int) + 1)).toNat, by omega⟩
  rw [hd]
  have hu : (0 : ℚ) < (2 : ℚ) ^ (-(d : Int)) := zpow_pos (by norm_num) _
  have hinv : (2 : ℚ) ^ (-(d : Int)) * (2 : ℚ) ^ d = 1 := by
    rw [zpow_neg, zpow_natCast]
    field_simp
  have hnear := rint_near (x / (2 : ℚ) ^ (-(d : Int))) (z * 2 ^ d)
  have e1 : (rint (x / (2 : ℚ) ^ (-(d : Int))) : ℚ) * (2 : ℚ) ^ (-(d : Int)) - x =
      ((rint (x / (2 : ℚ) ^ (-(d : Int))) : ℚ) - x / (2 : ℚ) ^ (-(d : Int)))
        * (2 : ℚ) ^ (-(d : Int)) := by
    field_simp
    ring
  have e2 : (z : ℚ) - x =
      (((z * 2 ^ d : Int) : ℚ) - x / (2 : ℚ) ^ (-(d : Int))) * (2 : ℚ) ^ (-(d : Int)) := by
    push_cast
    rw [sub_mul, mul_assoc, mul_comm ((2 : ℚ) ^ d), hinv]
    field_simp
  rw [e1, e2, abs_mul, abs_mul, abs_of_pos hu]
  exact mul_le_mul_of_nonneg_right hnear hu.le

theorem int_le_fround (prec : Nat) (emin : Int) (x : ℚ) (z : Int)
    (hx : |x| < (2 : ℚ) ^ prec) (he : emin ≤ (prec : Int) - 1) (hz : (z : ℚ) ≤ x) :
    (z : ℚ) ≤ fround prec emin x := by
  have h := fround_near_int prec emin x z hx he
  rw [abs_sub_comm (z : ℚ) x, abs_of_nonneg (by linarith : (0 : ℚ) ≤ x - z)] at h
  have := neg_abs_le (fround prec emin x - x)
  linarith

theorem fround_le_int (prec : Nat) (emin : Int) (x : ℚ) (z : Int)
    (hx : |x| < (2 : ℚ) ^ prec) (he : emin ≤ (prec : Int) - 1) (hz : x ≤ (z : ℚ)) :
    fround prec emin x ≤ (z : ℚ) := by
  have h := fround_near_int prec emin x z hx he
  rw [abs_of_nonneg (by linarith : (0 : ℚ) ≤ (z : ℚ) - x)] at h
  have := le_abs_self (fround prec emin x - x)
  linarith

/-- Below `2 ^ prec`, rounding and then taking the floor lands within one of
the exact value. -/
theorem abs_floor_fround_sub_le_one (prec : Nat) (emin : Int) (x : ℚ)
    (hx : |x| < (2 : ℚ) ^ prec) (he : emin ≤ (prec : Int) - 1) :
    |((Int.floor (fround prec emin x) : Int) : ℚ) - x| ≤ 1 := by
  have h1 := int_le_fround prec emin x (Int.floor x) hx he (Int.floor_le x)
  have h2 := fround_le_int prec emin x (Int.floor x + 1) hx he (by
    push_cast
    exact (Int.lt_floor_add_one x).le)
  have h3 : Int.floor x ≤ Int.floor (fround prec emin x) := Int.le_floor.mpr h1
  have h4 : ((Int.floor (fround prec emin x) : Int) : ℚ) ≤ fround prec emin x :=
    Int.floor_le _
  have h5 : ((Int.floor x : Int) : ℚ) ≤ ((Int.floor (fround prec emin x) : Int) : ℚ) := by
    exact_mod_cast h3
  have h6 := Int.lt_floor_add_one x
  have h7 := Int.floor_le x
  push_cast at h2
  rw [abs_le]
  constructor <;> linarith

theorem rint_nonneg (q : ℚ) (hq : 0 ≤ q) : 0 ≤ rint q := by
  have hf : 0 ≤ Int.floor q := Int.floor_nonneg.mpr hq
  unfold rint
  split_ifs <;> omega

theorem fround_nonneg (prec : Nat) (emin : Int) (x : ℚ) (hx : 0 ≤ x) :
    0 ≤ fround prec emin x := by
  unfold fround
  split_ifs
  · exact le_refl 0
  · have h2 : (0 : ℚ) < (2 : ℚ) ^ (max (Int.log 2 |x|) emin - (prec : Int) + 1) :=
      zpow_pos (by norm_num) _
    have h3 : 0 ≤ rint (x / (2 : ℚ) ^ (max (Int.log 2 |x|) emin - (prec : Int) + 1)) :=
      rint_nonneg _ (div_nonneg hx h2.le)
    exact mul_nonneg (by exact_mod_cast h3) h2.le

theorem f32_intCast (n : Int) (hn : |n| < 2 ^ 24) : f32 (n : ℚ) = n :=
  fround_intCast 24 (-126) n hn (by norm_num)

theorem f64_intCast (n : Int) (hn : |n| < 2 ^ 53) : f64 (n : ℚ) = n :=
  fround_intCast 53 (-1022) n hn (by norm_num)

theorem f32_zero : f32 0 = 0 := by
  unfold f32 fround
  rw [if_pos rfl]

theorem f64_zero : f64 0 = 0 := by
  unfold f64 fround
  rw [if_pos rfl]

theorem floorf_eq_some (x : ℚ) (v : Int) (h : floorf x = some v) : v = Int.floor x := by
  unfold floorf at h
  split_ifs at h
  exact (Option.some.inj h).symm

theorem floorf_of_range (x : ℚ) (h1 : -2147483648 ≤ Int.floor x)
    (h2 : Int.floor x ≤ 2147483647) : floorf x = some (Int.floor x) := by
  unfold floorf
  rw [if_pos ⟨h1, h2⟩]

theorem floorf_nonneg (x : ℚ) (v : Int) (h : floorf x = some v) (hx : 0 ≤ x) : 0 ≤ v := by
  rw [floorf_eq_some x v h]
  exact Int.floor_nonneg.mpr hx

/-! ### Geometry -/

/-- What `resolve_geometry` computes, case by case, for a finite positive
aspect ratio. -/
theorem resolve_geometry_pos (c : AVCodecContext) (ff : ffst) (a : ℚ)
    (ha : ff_get_aspectratio c = some a) (hpos : 0 < a) :
    resolve_geometry c ff =
      if ff.out_height < 0 ∧ 0 < ff.out_width then
        (floorf (f32 (f32 ff.out_width / a))).map (fun v => { ff with out_height := v })
      else if 0 < ff.out_height ∧ ff.out_width < 0 then
        (floorf (f32 (f32 ff.out_height * a))).map (fun v => { ff with out_width := v })
      else if ff.out_height < 0 then
        (floorf (f32 (f32 c.width / a))).map
          (fun v => { (if ff.out_width < 0 then { ff with out_width := c.width } else ff) with
                      out_height := v })
      else some (if ff.out_width < 0 then { ff with out_width := c.width } else ff) := by
  have ha0 : ¬ a = 0 := hpos.ne'
  unfold resolve_geometry
  simp only [ha, floorf_div, floorf_mul, if_neg ha0, gt_iff_lt]
  by_cases h1 : ff.out_height < 0 ∧ 0 < ff.out_width
  · rw [if_pos h1, if_pos h1]
    cases hfl : floorf (f32 (f32 (ff.out_width : ℚ) / a)) with
    | none => rfl
    | some v =>
      have hv : 0 ≤ v := floorf_nonneg _ v hfl
        (fround_nonneg _ _ _ (div_nonneg (fround_nonneg _ _ _ (by exact_mod_cast h1.2.le))
          hpos.le))
      have hw : ¬ ff.out_width < 0 := by omega
      have hv2 : ¬ v < 0 := by omega
      simp [hw, hv2]
  · rw [if_neg h1, if_neg h1]
    by_cases h2 : 0 < ff.out_height ∧ ff.out_width < 0
    · rw [if_pos h2, if_pos h2]
      cases hfl : floorf (f32 (f32 (ff.out_height : ℚ) * a)) with
      | none => rfl
      | some v =>
        have hv : 0 ≤ v := floorf_nonneg _ v hfl
          (fround_nonneg _ _ _ (mul_nonneg (fround_nonneg _ _ _ (by exact_mod_cast h2.1.le))
            hpos.le))
        have hh : ¬ ff.out_height < 0 := by omega
        have hv2 : ¬ v < 0 := by omega
        simp [hh, hv2]
    · rw [if_neg h2, if_neg h2]
      by_cases h3 : ff.out_height < 0
      · by_cases h4 : ff.out_width < 0
        · simp [h3, h4]
        · simp [h3, h4]
      · by_cases h4 : ff.out_width < 0
        · simp [h3, h4]
        · simp [h3, h4]

theorem resolve_geometry_eq (c : AVCodecContext) (ff g : ffst)
    (h : resolve_geometry c ff = some g) :
    g = { ff with out_width := g.out_width, out_height := g.out_height } := by
  unfold resolve_geometry at h
  simp only [] at h
  split at h
  · cases h
  · rename_i ff1 hs1
    have e1 : ff1 = { ff with out_width := ff1.out_width, out_height := ff1.out_height } := by
      split_ifs at hs1 with c1 c2
      · obtain ⟨v, -, hv⟩ := Option.map_eq_some'.mp hs1
        rw [← hv]
      · obtain ⟨v, -, hv⟩ := Option.map_eq_some'.mp hs1
        rw [← hv]
      · cases hs1
        rfl
    split_ifs at h with c3 c4 c5
    · obtain ⟨v, -, hv⟩ := Option.map_eq_some'.mp h
      rw [← hv, e1]
    · cases h
      rw [e1]
    · obtain ⟨v, -, hv⟩ := Option.map_eq_some'.mp h
      rw [← hv, e1]
    · cases h
      exact e1

/-- A size that was requested as a nonnegative number is kept by
`resolve_geometry`. -/
theorem resolve_geometry_keeps (c : AVCodecContext) (ff g : ffst)
    (h : resolve_geometry c ff = some g) :
    (0 ≤ ff.out_width → g.out_width = ff.out_width) ∧
    (0 ≤ ff.out_height → g.out_height = ff.out_height) := by
  unfold resolve_geometry at h
  simp only [] at h
  split at h
  · cases h
  · rename_i ff1 hs1
    have e1 : (0 ≤ ff.out_width → ff1.out_width = ff.out_width) ∧
        (0 ≤ ff.out_height → ff1.out_height = ff.out_height) := by
      split_ifs at hs1 with c1 c2
      · obtain ⟨v, -, hv⟩ := Option.map_eq_some'.mp hs1
        rw [← hv]
        exact ⟨fun _ => rfl, fun hh => absurd c1.1 (by omega)⟩
      · obtain ⟨v, -, hv⟩ := Option.map_eq_some'.mp hs1
        rw [← hv]
        exact ⟨fun hw => absurd c2.2 (by omega), fun _ => rfl⟩
      · cases hs1
        exact ⟨fun _ => rfl, fun _ => rfl⟩
    split_ifs at h with c3 c4 c5
    · obtain ⟨v, -, hv⟩ := Option.map_eq_some'.mp h
      rw [← hv]
      refine ⟨fun hw => absurd (e1.1 hw) (by omega), fun hh => ?_⟩
      have h5 := e1.2 hh
      have h6 : ff1.out_height < 0 := c4
      omega
    · cases h
      exact ⟨fun hw => absurd (e1.1 hw) (by omega), e1.2⟩
    · obtain ⟨v, -, hv⟩ := Option.map_eq_some'.mp h
      rw [← hv]
      refine ⟨e1.1, fun hh => ?_⟩
      have h5 := e1.2 hh
      have h6 : ff1.out_height < 0 := c5
      omega
    · cases h
      exact e1

/-- The state `ff_init_moviebuffer` returns, as an update of its argument. -/
theorem init_moviebuffer_eq (L : Lib) (ff ff' : ffst) (c : AVCodecContext)
    (calls : List Call) (hc : ff.pCodecCtx = some c)
    (h : ff_init_moviebuffer L ff = some (ff', calls)) :
    ∃ g ib b, resolve_geometry c ff = some g ∧
      ff' = { ff with out_width := g.out_width, out_height := g.out_height,
                      internal_buffer := ib, buffer := b,
                      buf_width := g.out_width, buf_height := g.out_height } := by
  unfold ff_init_moviebuffer at h
  rw [hc] at h
  simp only [] at h
  cases hg : resolve_geometry c ff with
  | none => rw [hg] at h; cases h
  | some g =>
    rw [hg] at h
    simp only [] at h
    have hge := resolve_geometry_eq c ff g hg
    split_ifs at h with h1 <;> cases h
    · refine ⟨ff', ff.internal_buffer, ff.buffer, rfl, ?_⟩
      have e1 : ff.buf_width = ff'.out_width := by rw [← h1.1, hge]
      have e2 : ff.buf_height = ff'.out_height := by rw [← h1.2, hge]
      have hg2 := hge
      rw [← e1, ← e2] at hg2 ⊢
      exact hg2
    all_goals
      refine ⟨g, L.calloc (ff_getbuffersize L g), L.calloc (ff_getbuffersize L g), rfl, ?_⟩
      rw [hge]

/-- `ff_init_moviebuffer` returns whenever the sizes can be resolved, the codec
context and the output frame are there and `calloc` succeeds. -/
theorem init_moviebuffer_returns (L : Lib) (ff g : ffst) (c : AVCodecContext)
    (hc : ff.pCodecCtx = some c) (hg : resolve_geometry c ff = some g)
    (hfmt : ff.pFrameFMT ≠ Ptr.null) (hcalloc : ∀ n, L.calloc n ≠ Ptr.null) :
    ∃ ff' calls, ff_init_moviebuffer L ff = some (ff', calls) := by
  have hge := resolve_geometry_eq c ff g hg
  have hf : g.pFrameFMT ≠ Ptr.null := by rw [hge]; exact hfmt
  unfold ff_init_moviebuffer
  rw [hc]
  simp only [hg]
  split_ifs with h1 h2
  all_goals first
    | exact ⟨_, _, rfl⟩
    | exact absurd h2 (hcalloc _)

/-- The geometry `ff_init_moviebuffer` leaves is the one `resolve_geometry`
computes; the function returns exactly when that one exists. -/
theorem init_moviebuffer_geometry (L : Lib) (ff : ffst) (c : AVCodecContext)
    (hc : ff.pCodecCtx = some c) (hfmt : ff.pFrameFMT ≠ Ptr.null)
    (hcalloc : ∀ n, L.calloc n ≠ Ptr.null) :
    (ff_init_moviebuffer L ff).map (fun r => (r.1.out_width, r.1.out_height)) =
      (resolve_geometry c ff).map (fun g => (g.out_width, g.out_height)) := by
  cases hg : resolve_geometry c ff with
  | none =>
    unfold ff_init_moviebuffer
    rw [hc]
    simp only [hg]
    rfl
  | some g =>
    obtain ⟨ff1, calls, hr⟩ := init_moviebuffer_returns L ff g c hc hg hfmt hcalloc
    obtain ⟨g1, ib, b, hg1, he⟩ := init_moviebuffer_eq L ff ff1 c calls hc hr
    rw [hg] at hg1
    cases hg1
    rw [hr, he]
    rfl

/-- `ff_resize` with the internal buffer is `ff_init_moviebuffer` on the
requested sizes. -/
theorem resize_null_eq (L : Lib) (ff ff' : ffst) (w h : Int)
    (i vi : Option VInfo) (calls : List Call)
    (hr : ff_resize L ff w h Ptr.null i = some (ff', vi, calls)) :
    ff_init_moviebuffer L { ff with out_width := w, out_height := h } = some (ff', calls) := by
  unfold ff_resize at hr
  simp only [if_true] at hr
  cases hi : ff_init_moviebuffer L { ff with out_width := w, out_height := h } with
  | none => rw [hi] at hr; cases hr
  | some r =>
    obtain ⟨ff1, c1⟩ := r
    rw [hi] at hr
    cases i with
    | none =>
      simp only [Option.some.injEq, Prod.mk.injEq] at hr
      rw [hr.1, hr.2.2]
    | some v =>
      simp only [] at hr
      cases hv : ff_get_info L ff1 v with
      | none => rw [hv] at hr; cases hr
      | some v1 =>
        rw [hv] at hr
        simp only [Option.some.injEq, Prod.mk.injEq] at hr
        rw [hr.1, hr.2.2]

theorem resize_null_none (L : Lib) (ff : ffst) (w h : Int) :
    ff_resize L ff w h Ptr.null none =
      (ff_init_moviebuffer L { ff with out_width := w, out_height := h }).map
        (fun r => (r.1, none, r.2)) := by
  unfold ff_resize
  simp only [if_true]
  cases ff_init_moviebuffer L { ff with out_width := w, out_height := h } with
  | none => rfl
  | some r => rfl

/-- Two automatic sizes: the codec width and the height derived from it. -/
theorem resolve_geometry_auto (c : AVCodecContext) (ff : ffst)
    (hw : ff.out_width < 0) (hh : ff.out_height < 0) :
    resolve_geometry c ff =
      (floorf_div c.width (ff_get_aspectratio c)).map
        (fun v => { ff with out_width := c.width, out_height := v }) := by
  have h2 : ¬ 0 < ff.out_width := by omega
  have h3 : ¬ 0 < ff.out_height := by omega
  unfold resolve_geometry
  simp [hh, hw, h2, h3]

/-- A successful `open_codec`: the state it leaves. -/
theorem open_codec_success (L : Lib) (m : Media) (file_name : List Char) (ff4 ff' : ffst)
    (c : AVCodecContext) (calls calls' : List Call) (hc : ff4.pCodecCtx = some c)
    (h : open_codec L m file_name ff4 calls = some (0, ff', calls')) :
    m.alloc_frame_fmt ≠ Ptr.null ∧
    ∃ mh ib b, floorf_div c.width (ff_get_aspectratio c) = some mh ∧ ff' =
      { ff4 with pFrame := m.alloc_frame, pFrameFMT := m.alloc_frame_fmt,
                 out_width := c.width, out_height := mh,
                 internal_buffer := ib, buffer := b, buf_width := c.width,
                 buf_height := mh, current_file := some file_name } := by
  unfold open_codec at h
  simp only [] at h
  split_ifs at h with h1 h2 h3 h4
  · simp at h
  · simp at h
  · simp at h
  · simp at h
  · cases hi : ff_init_moviebuffer L
        { ff4 with pFrame := m.alloc_frame, pFrameFMT := m.alloc_frame_fmt,
                   out_width := -1, out_height := -1 } with
    | none => rw [hi] at h; cases h
    | some r =>
      obtain ⟨ff8, c8⟩ := r
      rw [hi] at h
      simp only [Option.some.injEq, Prod.mk.injEq, true_and] at h
      obtain ⟨g, ib, b, hg, he⟩ := init_moviebuffer_eq L _ ff8 c c8 (by exact hc) hi
      rw [resolve_geometry_auto c _ (by show (-1 : Int) < 0; decide)
        (by show (-1 : Int) < 0; decide)] at hg
      obtain ⟨mh, hmh, hv⟩ := Option.map_eq_some'.mp hg
      refine ⟨h4, mh, ib, b, hmh, ?_⟩
      rw [← h.1, he, ← hv]

theorem set_framerate_eq (ff ff3 : ffst) (h : ff_set_framerate ff = some ff3) :
    ff3 = { ff with framerate := ff3.framerate } := by
  unfold ff_set_framerate at h
  split at h
  · cases h
  · simp only [] at h
    split_ifs at h <;> cases h <;> rfl

theorem close_movie_want_ignstart (ff : ffst) :
    (ff_close_movie ff).2.1.want_ignstart = ff.want_ignstart := by
  unfold ff_close_movie
  simp only []
  split_ifs <;> rfl

theorem set_framerate_value (ff ff3 : ffst) (avs : AVStream)
    (hvs : video_stream ff = some avs) (h : ff_set_framerate ff = some ff3) :
    ff3.framerate =
      (if avs.r_frame_rate.den ≠ 0 ∧ avs.r_frame_rate.num ≠ 0 then
        (if (av_q2d avs.r_frame_rate < 4 ∨ av_q2d avs.r_frame_rate > 100)
            ∧ (avs.time_base.num ≠ 0 ∧ avs.time_base.den ≠ 0) then
          f64 (1 / av_q2d avs.time_base)
        else av_q2d avs.r_frame_rate)
      else ff.framerate) := by
  unfold ff_set_framerate at h
  rw [hvs] at h
  simp only [] at h
  split_ifs at h ⊢ <;> cases h <;> rfl

/-- A successful `open_stream_info`: the fields it sets. -/
theorem open_stream_info_success (ctx : AVFormatContext) (avs : AVStream) (ff3 ff4 : ffst)
    (h : open_stream_info ctx avs ff3 = some ff4) :
    avs.time_base.den ≠ 0 ∧ f64 (av_q2d avs.time_base * ff3.framerate) ≠ 0 ∧
    ∃ n mh,
      (if avs.nb_frames ≠ 0 then some avs.nb_frames
        else trunc (f64 (f64 (f64 ctx.duration * ff3.framerate) / f64 AV_TIME_BASE))) = some n ∧
      floorf_div avs.codec.width (ff_get_aspectratio avs.codec) = some mh ∧
      ff4 = { ff3 with frames := n,
                       duration := f64 (f64 avs.duration * av_q2d avs.time_base),
                       tpf := f64 (1 / f64 (av_q2d avs.time_base * ff3.framerate)),
                       file_frame_offset :=
                         f64 (ff3.framerate * f64 (f64 ctx.start_time / f64 AV_TIME_BASE)),
                       pCodecCtx := some avs.codec,
                       movie_width := avs.codec.width,
                       movie_height := mh } := by
  unfold open_stream_info at h
  simp only [ne_eq, not_true_eq_false, false_and, if_false] at h
  split_ifs at h with h1 h2
  · have h1' := not_or.mp h1
    split at h
    · rename_i n mh hn hm
      cases h
      exact ⟨h1'.1, h1'.2, n, mh, by rw [if_neg (not_not.mpr h2)]; exact hn, hm, rfl⟩
    · cases h
  · have h1' := not_or.mp h1
    split at h
    · rename_i n mh hn hm
      cases h
      exact ⟨h1'.1, h1'.2, n, mh, by rw [if_pos h2]; exact hn, hm, rfl⟩
    · cases h

/-- A successful `open_video`: the video stream it settled on and the call of
`open_codec` it ends with. -/
theorem open_video_success (L : Lib) (m : Media) (file_name : List Char) (ff1 ff' : ffst)
    (calls calls' : List Call)
    (h : open_video L m file_name ff1 calls = some (0, ff', calls')) :
    first_video m.ctx.streams 0 ≠ -1 ∧
    ∃ avs ff3 ff4 c3, stream_at m.ctx (first_video m.ctx.streams 0) = some avs ∧
      ff_set_framerate { ff1 with videoStream := first_video m.ctx.streams 0 } = some ff3 ∧
      open_stream_info m.ctx avs ff3 = some ff4 ∧
      open_codec L m file_name ff4 c3 = some (0, ff', calls') := by
  unfold open_video at h
  simp only [] at h
  split_ifs at h with h1 h2
  · simp at h
  · simp at h
  · refine ⟨h2, ?_⟩
    split at h
    · rename_i ff3 avs hf hs
      split at h
      · rename_i ff4 h4
        exact ⟨avs, ff3, ff4, _, hs, hf, h4, h⟩
      · cases h
    · cases h

theorem first_video_ge (streams : List AVStream) :
    ∀ i : Int, first_video streams i ≠ -1 → 0 ≤ i → i ≤ first_video streams i := by
  induction streams with
  | nil => intro i h _; exact absurd rfl h
  | cons s rest ih =>
    intro i h hi
    unfold first_video at h ⊢
    split_ifs at h ⊢ with hv
    · exact le_refl i
    · have := ih (i + 1) h (by omega)
      omega

/-- The fields of the decoder after `ff_open_movie` has opened a file (the
call returned 0 and was not the no-op on the file already open). -/
theorem open_movie_success (L : Lib) (ff ff' : ffst) (file_name : List Char)
    (render_fmt : Int) (calls : List Call)
    (hnew : ¬ (ff.pFrameFMT ≠ Ptr.null ∧ ff.current_file = some file_name))
    (h : ff_open_movie L ff file_name render_fmt = some (0, ff', calls)) :
    ∃ avs, stream_at (L.media file_name).ctx
        (first_video (L.media file_name).ctx.streams 0) = some avs ∧
      0 ≤ ff'.videoStream ∧
      ff'.videoStream = first_video (L.media file_name).ctx.streams 0 ∧
      ff'.pFormatCtx = some (L.media file_name).ctx ∧
      ff'.pCodecCtx = some avs.codec ∧
      ff'.movie_width = avs.codec.width ∧
      floorf_div avs.codec.width (ff_get_aspectratio avs.codec) = some ff'.movie_height ∧
      ff'.out_width = avs.codec.width ∧
      ff'.out_height = ff'.movie_height ∧
      ff'.buf_width = ff'.out_width ∧ ff'.buf_height = ff'.out_height ∧
      (if avs.nb_frames ≠ 0 then some avs.nb_frames
        else trunc (f64 (f64 (f64 (L.media file_name).ctx.duration * ff'.framerate) /
          f64 AV_TIME_BASE))) = some ff'.frames ∧
      ff'.pFrameFMT ≠ Ptr.null ∧ ff'.current_file = some file_name ∧
      ff'.avprev = 0 ∧ ff'.stream_pts_offset = AV_NOPTS_VALUE ∧
      ff'.tpf = f64 (1 / f64 (av_q2d avs.time_base * ff'.framerate)) ∧
      ff'.seekflags = (if strncmp_eq file_name ['h', 't', 't', 'p', ':', '/', '/'] 7
        then SEEK_LIVESTREAM else SEEK_CONTINUOUS) ∧
      ff'.framerate =
        (if avs.r_frame_rate.den ≠ 0 ∧ avs.r_frame_rate.num ≠ 0 then
          (if (av_q2d avs.r_frame_rate < 4 ∨ av_q2d avs.r_frame_rate > 100)
              ∧ (avs.time_base.num ≠ 0 ∧ avs.time_base.den ≠ 0) then
            f64 (1 / av_q2d avs.time_base)
          else av_q2d avs.r_frame_rate)
        else 1) ∧
      ff'.want_ignstart = ff.want_ignstart ∧
      avs.time_base.den ≠ 0 ∧ f64 (av_q2d avs.time_base * ff'.framerate) ≠ 0 := by
  unfold ff_open_movie at h
  rw [if_neg hnew] at h
  simp only [] at h
  cases ho : (L.media file_name).open_input_ok
  · simp [ho] at h
  · simp only [ho, Bool.not_true, Bool.false_eq_true, if_false] at h
    obtain ⟨hv, avs, ff3, ff4, c3, hs, hf, h4, hcod⟩ :=
      open_video_success L _ file_name _ ff' _ calls h
    have h3 := set_framerate_eq _ ff3 hf
    obtain ⟨hden, hprod, n, mh, hn, hmh, he4⟩ :=
      open_stream_info_success (L.media file_name).ctx avs ff3 ff4 h4
    obtain ⟨hfmt, mh2, ib, b, hmh2, he⟩ := open_codec_success L _ file_name ff4 ff' avs.codec
      c3 calls (by rw [he4]) hcod
    rw [hmh] at hmh2
    have hmm : mh2 = mh := (Option.some.inj hmh2).symm
    subst hmm
    have hv0 := first_video_ge (L.media file_name).ctx.streams 0 hv (le_refl 0)
    have e1 : ff3.videoStream = first_video (L.media file_name).ctx.streams 0 := by rw [h3]
    have e2 : ff3.pFormatCtx = some (L.media file_name).ctx := by rw [h3]
    have e3 : ff3.avprev = 0 := by rw [h3]; rfl
    have e4 : ff3.stream_pts_offset = AV_NOPTS_VALUE := by rw [h3]; rfl
    have e5 : ff3.seekflags = (if strncmp_eq file_name ['h', 't', 't', 'p', ':', '/', '/'] 7
        then SEEK_LIVESTREAM else SEEK_CONTINUOUS) := by rw [h3]
    have e6 := set_framerate_value _ ff3 avs (by
      show video_stream _ = some avs
      simp only [video_stream]
      exact hs) hf
    simp only [] at e6
    have e7 : ff3.want_ignstart = ff.want_ignstart := by
      rw [h3]
      simp only [open_defaults]
      split_ifs
      · exact close_movie_want_ignstart ff
      · rfl
    subst he
    subst he4
    refine ⟨avs, hs, ?_, e1, e2, rfl, rfl, hmh, rfl, rfl, rfl, rfl, hn, hfmt, rfl, e3, e4, rfl,
      e5, ?_, e7, hden, hprod⟩
    · show 0 ≤ ff3.videoStream
      rw [e1]; exact hv0
    · show ff3.framerate = _
      rw [e6]
      simp [open_defaults]

/-- Below `2 ^ 24` the floor of a single-precision value is an `int` within one
of the exact value. -/
theorem floorf_f32_spec (x : ℚ) (hx : |x| < (2 : ℚ) ^ 24) :
    ∃ v, floorf (f32 x) = some v ∧ |(v : ℚ) - x| ≤ 1 := by
  have h := abs_floor_fround_sub_le_one 24 (-126) x hx (by norm_num)
  refine ⟨Int.floor (f32 x), ?_, h⟩
  have h1 := abs_le.mp h
  have h2 := abs_lt.mp hx
  have h3 : (-2147483648 : ℚ) ≤ ((Int.floor (f32 x) : Int) : ℚ) := by
    have : ((Int.floor (fround 24 (-126) x) : Int) : ℚ) = ((Int.floor (f32 x) : Int) : ℚ) := rfl
    rw [← this]
    norm_num at h2
    linarith [h1.1, h2.1]
  have h4 : ((Int.floor (f32 x) : Int) : ℚ) ≤ (2147483647 : ℚ) := by
    have : ((Int.floor (fround 24 (-126) x) : Int) : ℚ) = ((Int.floor (f32 x) : Int) : ℚ) := rfl
    rw [← this]
    norm_num at h2
    linarith [h1.2, h2.2]
  exact floorf_of_range _ (by exact_mod_cast h3) (by exact_mod_cast h4)

/-- The geometry `ff_resize` leaves with the internal buffer. -/
theorem resize_null_geometry (L : Lib) (ff : ffst) (c : AVCodecContext) (w h : Int)
    (hc : ff.pCodecCtx = some c) (hfmt : ff.pFrameFMT ≠ Ptr.null)
    (hcalloc : ∀ n, L.calloc n ≠ Ptr.null) :
    (ff_resize L ff w h Ptr.null none).map (fun r => (r.1.out_width, r.1.out_height)) =
      (resolve_geometry c { ff with out_width := w, out_height := h }).map
        (fun g => (g.out_width, g.out_height)) := by
  rw [resize_null_none, ← init_moviebuffer_geometry L _ c (by exact hc) (by exact hfmt) hcalloc]
  cases ff_init_moviebuffer L { ff with out_width := w, out_height := h } with
  | none => rfl
  | some r => rfl

/-- C4 (amended): `ff_resize(w, h, NULL, ..)` with one or both of `w`, `h` equal
to -1, neither equal to 0, and a positive aspect ratio `a` (the `float` that
`ff_get_aspectratio` returns, as the rational it denotes) returns, when `calloc`
succeeds, a geometry that keeps the aspect ratio within one pixel on the derived
axis: the width is within 1 px of `out_height * a` when the height was requested,
the height within 1 px of `out_width / a` when the height is derived.  The size
the derivation starts from and the exact derived size are below `2 ^ 24` in
magnitude, the range in which a `float` holds every integer. -/
theorem resize_preserves_aspect (L : Lib) (ff : ffst) (c : AVCodecContext) (w h : Int)
    (a : ℚ) (hc : ff.pCodecCtx = some c) (ha : ff_get_aspectratio c = some a) (hpos : 0 < a)
    (hauto : w = -1 ∨ h = -1) (hw : w ≠ 0) (hh : h ≠ 0)
    (hrange : (0 < h → (h : ℚ) < 2 ^ 24 ∧ (h : ℚ) * a < 2 ^ 24) ∧
      (h < 0 → 0 < w → (w : ℚ) < 2 ^ 24 ∧ (w : ℚ) / a < 2 ^ 24) ∧
      (h < 0 → w < 0 → |(c.width : ℚ)| < 2 ^ 24 ∧ |(c.width : ℚ) / a| < 2 ^ 24))
    (hfmt : ff.pFrameFMT ≠ Ptr.null) (hcalloc : ∀ n, L.calloc n ≠ Ptr.null) :
    (∃ ff' calls, ff_resize L ff w h Ptr.null none = some (ff', none, calls)) ∧
    ∀ i ff' vi calls, ff_resize L ff w h Ptr.null i = some (ff', vi, calls) →
      (0 < h ∧ |(ff'.out_width : ℚ) - (ff'.out_height : ℚ) * a| ≤ 1) ∨
      (h < 0 ∧ |(ff'.out_height : ℚ) - (ff'.out_width : ℚ) / a| ≤ 1) := by
  have hg : ∃ g, resolve_geometry c { ff with out_width := w, out_height := h } = some g ∧
      ((0 < h ∧ |(g.out_width : ℚ) - (g.out_height : ℚ) * a| ≤ 1) ∨
       (h < 0 ∧ |(g.out_height : ℚ) - (g.out_width : ℚ) / a| ≤ 1)) := by
    rw [resolve_geometry_pos c _ a ha hpos]
    show ∃ g, (if h < 0 ∧ 0 < w then _ else if 0 < h ∧ w < 0 then _
      else if h < 0 then _ else _) = some g ∧ _
    rcases lt_or_gt_of_ne hh with hneg | hhpos
    · rcases lt_or_gt_of_ne hw with hwneg | hwpos
      · -- both automatic
        obtain ⟨r1, r2⟩ := hrange.2.2 hneg hwneg
        have hcw : |c.width| < 2 ^ 24 := by
          have : ((|c.width| : Int) : ℚ) < ((2 ^ 24 : Int) : ℚ) := by
            rw [Int.cast_abs]
            push_cast
            exact r1
          exact_mod_cast this
        obtain ⟨v, hv, hb⟩ := floorf_f32_spec ((c.width : ℚ) / a) r2
        rw [if_neg (by omega), if_neg (by omega), if_pos hneg]
        rw [f32_intCast c.width hcw, hv]
        refine ⟨_, rfl, Or.inr ⟨hneg, ?_⟩⟩
        simp only [Option.map_some', hwneg, if_true]
        exact hb
      · obtain ⟨r1, r2⟩ := hrange.2.1 hneg hwpos
        have hw0 : (0 : ℚ) < (w : ℚ) := by exact_mod_cast hwpos
        have hcw : |w| < 2 ^ 24 := by
          rw [abs_of_pos hwpos]
          have : (w : ℚ) < ((2 ^ 24 : Int) : ℚ) := by
            push_cast
            exact r1
          exact_mod_cast this
        obtain ⟨v, hv, hb⟩ := floorf_f32_spec ((w : ℚ) / a)
          (by rw [abs_of_pos (div_pos hw0 hpos)]; exact r2)
        rw [if_pos ⟨hneg, hwpos⟩]
        show ∃ g, Option.map _ (floorf (f32 (f32 (w : ℚ) / a))) = some g ∧ _
        rw [f32_intCast w hcw, hv]
        exact ⟨_, rfl, Or.inr ⟨hneg, hb⟩⟩
    · have hwneg : w < 0 := by
        rcases hauto with h1 | h1 <;> omega
      obtain ⟨r1, r2⟩ := hrange.1 hhpos
      have hh0 : (0 : ℚ) < (h : ℚ) := by exact_mod_cast hhpos
      have hch : |h| < 2 ^ 24 := by
        rw [abs_of_pos hhpos]
        have : (h : ℚ) < ((2 ^ 24 : Int) : ℚ) := by
          push_cast
          exact r1
        exact_mod_cast this
      obtain ⟨v, hv, hb⟩ := floorf_f32_spec ((h : ℚ) * a)
        (by rw [abs_of_pos (mul_pos hh0 hpos)]; exact r2)
      rw [if_neg (by omega), if_pos ⟨hhpos, hwneg⟩]
      show ∃ g, Option.map _ (floorf (f32 (f32 (h : ℚ) * a))) = some g ∧ _
      rw [f32_intCast h hch, hv]
      exact ⟨_, rfl, Or.inl ⟨hhpos, hb⟩⟩
  obtain ⟨g, hg1, hg2⟩ := hg
  constructor
  · obtain ⟨ff1, c1, h1⟩ := init_moviebuffer_returns L
      { ff with out_width := w, out_height := h } g c hc hg1 hfmt hcalloc
    exact ⟨ff1, c1, by rw [resize_null_none, h1]; rfl⟩
  · intro i ff' vi calls hr
    have hi := resize_null_eq L ff ff' w h i vi calls hr
    obtain ⟨g', ib, b, hg', he⟩ := init_moviebuffer_eq L _ ff' c calls (by exact hc) hi
    rw [hg1] at hg'
    cases hg'
    rw [he]
    exact hg2

theorem f64_30 : f64 30 = 30 := by
  have h := f64_intCast 30 (by norm_num)
  norm_num at h
  exact h

theorem f64_tb_30000 : f64 (1 / 30000) = (2459565876494607 / 73786976294838206464) := by
  unfold f64
  rw [fround_eq 53 (-1022) (-15) (-67) 4919131752989214 _ (by norm_num) (by norm_num)
    (by norm_num [abs_of_pos]) (by norm_num [abs_of_pos]) (by norm_num) (by norm_num)]
  norm_num

theorem f64_tb_30000_x30 : f64 (36893488147419105 / 36893488147419103232) = (1152921504606847 / 1152921504606846976) := by
  unfold f64
  rw [fround_eq 53 (-1022) (-10) (-62) 4611686018427388 _ (by norm_num) (by norm_num)
    (by norm_num [abs_of_pos]) (by norm_num [abs_of_pos]) (by norm_num) (by norm_num)]
  norm_num

theorem f64_tpf_fixture : f64 (1152921504606846976 / 1152921504606847) = 1000 := by
  unfold f64
  rw [fround_eq 53 (-1022) (9) (-43) 8796093022208000 _ (by norm_num) (by norm_num)
    (by norm_num [abs_of_pos]) (by norm_num [abs_of_pos]) (by norm_num) (by norm_num)]
  norm_num

theorem f64_300000 : f64 300000 = 300000 := by
  have h := f64_intCast 300000 (by norm_num)
  norm_num at h
  exact h

theorem f64_duration_fixture : f64 (23058430092136940625 / 2305843009213693952) = 10 := by
  unfold f64
  rw [fround_eq 53 (-1022) (3) (-49) 5629499534213120 _ (by norm_num) (by norm_num)
    (by norm_num [abs_of_pos]) (by norm_num [abs_of_pos]) (by norm_num) (by norm_num)]
  norm_num

theorem f64_0 : f64 0 = 0 := f64_zero

theorem f64_1 : f64 1 = 1 := by
  have h := f64_intCast 1 (by norm_num)
  norm_num at h
  exact h

theorem f32_640 : f32 640 = 640 := by
  have h := f32_intCast 640 (by norm_num)
  norm_num at h
  exact h

theorem f64_640 : f64 640 = 640 := by
  have h := f64_intCast 640 (by norm_num)
  norm_num at h
  exact h

theorem f32_480 : f32 480 = 480 := by
  have h := f32_intCast 480 (by norm_num)
  norm_num at h
  exact h

theorem f64_4_3 : f64 (4 / 3) = (6004799503160661 / 4503599627370496) := by
  unfold f64
  rw [fround_eq 53 (-1022) (0) (-52) 6004799503160661 _ (by norm_num) (by norm_num)
    (by norm_num [abs_of_pos]) (by norm_num [abs_of_pos]) (by norm_num) (by norm_num)]
  norm_num

theorem f32_aspect_4_3 : f32 (6004799503160661 / 4503599627370496) = (11184811 / 8388608) := by
  unfold f32
  rw [fround_eq 24 (-126) (0) (-23) 11184811 _ (by norm_num) (by norm_num)
    (by norm_num [abs_of_pos]) (by norm_num [abs_of_pos]) (by norm_num) (by norm_num)]
  norm_num

theorem f32_height_fixture : f32 (5368709120 / 11184811) = 480 := by
  unfold f32
  rw [fround_eq 24 (-126) (8) (-15) 15728640 _ (by norm_num) (by norm_num)
    (by norm_num [abs_of_pos]) (by norm_num [abs_of_pos]) (by norm_num) (by norm_num)]
  norm_num

theorem floorf_480 : floorf 480 = some 480 := by
  unfold floorf
  norm_num

theorem aspect_fixture :
    ff_get_aspectratio fixture_stream.codec = some (11184811 / 8388608) := by
  norm_num [ff_get_aspectratio, fixture_stream, av_q2d, f64_1, f32_640, f64_640, f32_480,
    f64_4_3, f32_aspect_4_3]

theorem height_fixture :
    floorf_div 640 (some (11184811 / 8388608)) = some 480 := by
  norm_num [floorf_div, f32_640, f32_height_fixture, floorf_480]

/-- Evaluation of `ff_set_framerate`: the frame rate is the value of the case
distinction of lines 217-222. -/
theorem set_framerate_eval (ff : ffst) (avs : AVStream) (fr : ℚ)
    (hvs : video_stream ff = some avs)
    (hfr : (if avs.r_frame_rate.den ≠ 0 ∧ avs.r_frame_rate.num ≠ 0 then
        (if (av_q2d avs.r_frame_rate < 4 ∨ av_q2d avs.r_frame_rate > 100)
            ∧ (avs.time_base.num ≠ 0 ∧ avs.time_base.den ≠ 0) then
          f64 (1 / av_q2d avs.time_base)
        else av_q2d avs.r_frame_rate)
      else ff.framerate) = fr) :
    ff_set_framerate ff = some { ff with framerate := fr } := by
  unfold ff_set_framerate
  rw [hvs]
  simp only []
  split_ifs at hfr ⊢ with h1 h2
  · rw [hfr]
  · rw [hfr]
  · rw [← hfr]

/-- Evaluation of `open_stream_info`, the values of the floating-point
expressions being given. -/
theorem open_stream_info_eval (ctx : AVFormatContext) (avs : AVStream) (ff : ffst)
    (n mh : Int) (p tpf dur off : ℚ)
    (hden : avs.time_base.den ≠ 0)
    (hp : f64 (av_q2d avs.time_base * ff.framerate) = p) (hp0 : p ≠ 0)
    (htpf : f64 (1 / p) = tpf)
    (hdur : f64 (f64 avs.duration * av_q2d avs.time_base) = dur)
    (hoff : f64 (ff.framerate * f64 (f64 ctx.start_time / f64 AV_TIME_BASE)) = off)
    (hn : (if avs.nb_frames ≠ 0 then some avs.nb_frames
        else trunc (f64 (f64 (f64 ctx.duration * ff.framerate) / f64 AV_TIME_BASE))) = some n)
    (hmh : floorf_div avs.codec.width (ff_get_aspectratio avs.codec) = some mh) :
    open_stream_info ctx avs ff =
      some { ff with frames := n, duration := dur, tpf := tpf, file_frame_offset := off,
                     pCodecCtx := some avs.codec, movie_width := avs.codec.width,
                     movie_height := mh } := by
  unfold open_stream_info
  simp only [ne_eq, not_true_eq_false, false_and, if_false]
  rw [hp, htpf, hdur, hoff, hmh]
  rw [if_neg (by
    intro h
    rcases h with h | h
    · exact hden h
    · exact hp0 h)]
  simp only [ne_eq] at hn
  rw [hn]

/-- Evaluation of `ff_open_movie` on a fresh decoder in the fixture
environment, for a file on which every library call succeeds and whose first
stream is a video stream: the frame rate and the stream figures are given. -/
theorem open_fresh_steps (med : List Char → Media) (ctx : AVFormatContext) (avs : AVStream)
    (rest : List AVStream) (file_name : List Char) (fmt : Int) (ff3 ff4 : ffst)
    (hmed : med file_name = { fixture_media with ctx := ctx })
    (hs : ctx.streams = avs :: rest) (hvid : avs.is_video = true)
    (h3 : ff_set_framerate
      { open_defaults (ff_create 2) fmt with
        pFormatCtx := some ctx,
        seekflags := if strncmp_eq file_name ['h', 't', 't', 'p', ':', '/', '/'] 7
                     then SEEK_LIVESTREAM else SEEK_CONTINUOUS,
        videoStream := 0 } = some ff3)
    (h4 : open_stream_info ctx avs ff3 = some ff4)
    (hgeo : ¬ (0 = ff4.movie_width ∧ 0 = ff4.movie_height)) :
    ff_open_movie { fixture_lib with media := med } (ff_create 2) file_name fmt =
      some (0, { ff4 with pFrame := Ptr.block 1, pFrameFMT := Ptr.block 2,
                          out_width := ff4.movie_width, out_height := ff4.movie_height,
                          internal_buffer := Ptr.block 3, buffer := Ptr.block 3,
                          buf_width := ff4.movie_width, buf_height := ff4.movie_height,
                          current_file := some file_name },
        [Call.avformat_open_input, Call.lock, Call.avformat_find_stream_info, Call.unlock,
         Call.avcodec_find_decoder, Call.lock, Call.avcodec_open2, Call.unlock,
         Call.avcodec_alloc_frame, Call.avcodec_alloc_frame,
         Call.calloc (3 * ff4.movie_width * ff4.movie_height),
         Call.avpicture_fill, Call.strdup]) := by
  have e3 := set_framerate_eq _ ff3 h3
  obtain ⟨-, -, n, mh, -, hmh, e4⟩ := open_stream_info_success ctx avs ff3 ff4 h4
  have hfv : first_video ctx.streams 0 = 0 := by
    rw [hs]
    unfold first_video
    rw [if_pos hvid]
  have hsa : stream_at ctx 0 = some avs := by
    unfold stream_at
    rw [if_neg (by decide), hs]
    rfl
  have hmw : ff4.movie_width = avs.codec.width := by rw [e4]
  have hmhh : ff4.movie_height = mh := by rw [e4]
  have hinit : ff_init_moviebuffer { fixture_lib with media := med }
      { ff4 with pFrame := Ptr.block 1, pFrameFMT := Ptr.block 2,
                 out_width := -1, out_height := -1 } =
      some ({ ff4 with pFrame := Ptr.block 1, pFrameFMT := Ptr.block 2,
                          out_width := ff4.movie_width, out_height := ff4.movie_height,
                          internal_buffer := Ptr.block 3, buffer := Ptr.block 3,
                          buf_width := ff4.movie_width, buf_height := ff4.movie_height },
        [Call.calloc (3 * ff4.movie_width * ff4.movie_height), Call.avpicture_fill]) := by
    have hc : ff4.pCodecCtx = some avs.codec := by rw [e4]
    have hbw : ff4.buf_width = 0 := by rw [e4, e3]; rfl
    have hbh : ff4.buf_height = 0 := by rw [e4, e3]; rfl
    have hib : ff4.internal_buffer = Ptr.null := by rw [e4, e3]; rfl
    unfold ff_init_moviebuffer
    simp only [hc]
    rw [resolve_geometry_auto avs.codec _ (by show (-1 : Int) < 0; decide)
      (by show (-1 : Int) < 0; decide), hmh]
    simp only [Option.map_some', hbw, hbh, hib, ← hmw, ← hmhh]
    rw [if_neg hgeo]
    simp [fixture_lib, ff_getbuffersize]
  have hcodec : ∀ calls, open_codec { fixture_lib with media := med }
      { fixture_media with ctx := ctx } file_name ff4 calls =
      some (0, { ff4 with pFrame := Ptr.block 1, pFrameFMT := Ptr.block 2,
                          out_width := ff4.movie_width, out_height := ff4.movie_height,
                          internal_buffer := Ptr.block 3, buffer := Ptr.block 3,
                          buf_width := ff4.movie_width, buf_height := ff4.movie_height,
                          current_file := some file_name },
        calls ++ [Call.avcodec_find_decoder, Call.lock, Call.avcodec_open2, Call.unlock,
         Call.avcodec_alloc_frame, Call.avcodec_alloc_frame,
         Call.calloc (3 * ff4.movie_width * ff4.movie_height),
         Call.avpicture_fill, Call.strdup]) := by
    intro calls
    unfold open_codec
    simp only [fixture_media, Bool.not_true, Bool.false_eq_true, if_false]
    rw [if_neg (by simp), if_neg (by simp)]
    rw [hinit]
    simp
  have hvideo : ∀ calls, open_video { fixture_lib with media := med }
      { fixture_media with ctx := ctx } file_name
      { open_defaults (ff_create 2) fmt with
        pFormatCtx := some ctx,
        seekflags := if strncmp_eq file_name ['h', 't', 't', 'p', ':', '/', '/'] 7
                     then SEEK_LIVESTREAM else SEEK_CONTINUOUS } calls =
      open_codec { fixture_lib with media := med }
        { fixture_media with ctx := ctx } file_name ff4
        (calls ++ [Call.lock, Call.avformat_find_stream_info] ++ [Call.unlock]) := by
    intro calls
    unfold open_video
    simp only [fixture_media, Bool.not_true, Bool.false_eq_true, if_false, hfv]
    rw [if_neg (by decide)]
    simp only [] at h3
    rw [h3, hsa]
    simp only [h4]
  unfold ff_open_movie
  rw [if_neg (by simp [ff_create])]
  have hcl : (if (ff_create 2).pFrameFMT ≠ Ptr.null then
      ((ff_close_movie (ff_create 2)).2.1, (ff_close_movie (ff_create 2)).2.2)
      else (ff_create 2, ([] : List Call))) = (ff_create 2, []) := if_neg (by simp [ff_create])
  simp only [hcl, hmed]
  rw [if_neg (by simp [fixture_media])]
  rw [hvideo, hcodec]
  rfl

/-- Evaluation of `ff_open_movie` on a fresh decoder in the fixture
environment, for a file on which every library call succeeds and whose first
stream is a video stream, from the values of the floating-point expressions. -/
theorem open_fresh_eq (med : List Char → Media) (ctx : AVFormatContext) (avs : AVStream)
    (rest : List AVStream) (file_name : List Char) (fmt : Int)
    (fr p tpf dur off : ℚ) (n mh : Int)
    (hmed : med file_name = { fixture_media with ctx := ctx })
    (hs : ctx.streams = avs :: rest) (hvid : avs.is_video = true)
    (hfr : (if avs.r_frame_rate.den ≠ 0 ∧ avs.r_frame_rate.num ≠ 0 then
        (if (av_q2d avs.r_frame_rate < 4 ∨ av_q2d avs.r_frame_rate > 100)
            ∧ (avs.time_base.num ≠ 0 ∧ avs.time_base.den ≠ 0) then
          f64 (1 / av_q2d avs.time_base)
        else av_q2d avs.r_frame_rate)
      else 1) = fr)
    (hden : avs.time_base.den ≠ 0)
    (hp : f64 (av_q2d avs.time_base * fr) = p) (hp0 : p ≠ 0)
    (htpf : f64 (1 / p) = tpf)
    (hdur : f64 (f64 avs.duration * av_q2d avs.time_base) = dur)
    (hoff : f64 (fr * f64 (f64 ctx.start_time / f64 AV_TIME_BASE)) = off)
    (hn : (if avs.nb_frames ≠ 0 then some avs.nb_frames
        else trunc (f64 (f64 (f64 ctx.duration * fr) / f64 AV_TIME_BASE))) = some n)
    (hmh : floorf_div avs.codec.width (ff_get_aspectratio avs.codec) = some mh)
    (hgeo : ¬ (0 = avs.codec.width ∧ 0 = mh)) :
    ff_open_movie { fixture_lib with media := med } (ff_create 2) file_name fmt =
      some (0,
        { want_ignstart := false, want_genpts := false,
          seekflags := if strncmp_eq file_name ['h', 't', 't', 'p', ':', '/', '/'] 7
                       then SEEK_LIVESTREAM else SEEK_CONTINUOUS,
          movie_width := avs.codec.width, movie_height := mh,
          out_width := avs.codec.width, out_height := mh,
          duration := dur, framerate := fr, file_frame_offset := off, frames := n,
          current_file := some file_name, tpf := tpf, avprev := 0,
          stream_pts_offset := AV_NOPTS_VALUE,
          internal_buffer := Ptr.block 3, buffer := Ptr.block 3,
          buf_width := avs.codec.width, buf_height := mh, videoStream := 0,
          render_fmt := fmt, packet := none, pFormatCtx := some ctx,
          pCodecCtx := some avs.codec, pFrame := Ptr.block 1, pFrameFMT := Ptr.block 2,
          pSWSCtx := Ptr.null },
        [Call.avformat_open_input, Call.lock, Call.avformat_find_stream_info, Call.unlock,
         Call.avcodec_find_decoder, Call.lock, Call.avcodec_open2, Call.unlock,
         Call.avcodec_alloc_frame, Call.avcodec_alloc_frame,
         Call.calloc (3 * avs.codec.width * mh),
         Call.avpicture_fill, Call.strdup]) := by
  have hsa : stream_at ctx 0 = some avs := by
    unfold stream_at
    rw [if_neg (by decide), hs]
    rfl
  have h3 := set_framerate_eval
    { open_defaults (ff_create 2) fmt with
      pFormatCtx := some ctx,
      seekflags := if strncmp_eq file_name ['h', 't', 't', 'p', ':', '/', '/'] 7
                   then SEEK_LIVESTREAM else SEEK_CONTINUOUS,
      videoStream := 0 } avs fr hsa hfr
  have h4 := open_stream_info_eval ctx avs
    { open_defaults (ff_create 2) fmt with
      pFormatCtx := some ctx,
      seekflags := if strncmp_eq file_name ['h', 't', 't', 'p', ':', '/', '/'] 7
                   then SEEK_LIVESTREAM else SEEK_CONTINUOUS,
      videoStream := 0, framerate := fr } n mh p tpf dur off hden hp hp0 htpf hdur hoff
    hn hmh
  rw [open_fresh_steps med ctx avs rest file_name fmt _ _ hmed hs hvid h3 h4 hgeo]
  rfl

theorem fixture_rate : av_q2d fixture_stream.r_frame_rate = 30 := by
  norm_num [av_q2d, fixture_stream, f64_30]

theorem fixture_time_base :
    av_q2d fixture_stream.time_base = 2459565876494607 / 73786976294838206464 := by
  norm_num [av_q2d, fixture_stream, f64_tb_30000]

theorem fixture_rate_value :
    (if fixture_stream.r_frame_rate.den ≠ 0 ∧ fixture_stream.r_frame_rate.num ≠ 0 then
        (if (av_q2d fixture_stream.r_frame_rate < 4 ∨ av_q2d fixture_stream.r_frame_rate > 100)
            ∧ (fixture_stream.time_base.num ≠ 0 ∧ fixture_stream.time_base.den ≠ 0) then
          f64 (1 / av_q2d fixture_stream.time_base)
        else av_q2d fixture_stream.r_frame_rate)
      else 1) = 30 := by
  rw [if_pos (by decide), fixture_rate, if_neg (by norm_num)]

theorem fixture_ticks :
    f64 (av_q2d fixture_stream.time_base * 30) = 1152921504606847 / 1152921504606846976 := by
  rw [fixture_time_base]
  norm_num [f64_tb_30000_x30]

theorem fixture_tpf : f64 (1 / (1152921504606847 / 1152921504606846976)) = 1000 := by
  norm_num [f64_tpf_fixture]

theorem fixture_duration :
    f64 (f64 fixture_stream.duration * av_q2d fixture_stream.time_base) = 10 := by
  rw [fixture_time_base]
  norm_num [fixture_stream, f64_300000, f64_duration_fixture]

/-- The start offset in frames of a container that starts at 0. -/
theorem offset_zero (fr : ℚ) :
    f64 (fr * f64 (f64 ((0 : Int) : ℚ) / f64 AV_TIME_BASE)) = 0 := by
  norm_num [f64_0]

/-- Opening the fixture on a fresh decoder gives the state `fixture_open`. -/
theorem fixture_open_eq :
    ff_open_movie fixture_lib (ff_create 2) ['a'] 2 = some (0, fixture_open,
      [Call.avformat_open_input, Call.lock, Call.avformat_find_stream_info, Call.unlock,
       Call.avcodec_find_decoder, Call.lock, Call.avcodec_open2, Call.unlock,
       Call.avcodec_alloc_frame, Call.avcodec_alloc_frame, Call.calloc 921600,
       Call.avpicture_fill, Call.strdup]) :=
  open_fresh_eq (fun _ => fixture_media) fixture_media.ctx fixture_stream [] ['a'] 2
    30 (1152921504606847 / 1152921504606846976) 1000 10 0 300 480 rfl rfl rfl
    fixture_rate_value (by decide) fixture_ticks (by norm_num) fixture_tpf fixture_duration
    (offset_zero 30) (by rw [if_pos (by decide)]; rfl)
    (by rw [aspect_fixture]; exact height_fixture) (by decide)

theorem f32_1280 : f32 1280 = 1280 := by
  have h := f32_intCast 1280 (by norm_num)
  norm_num at h
  exact h

theorem f64_1280 : f64 1280 = 1280 := by
  have h := f64_intCast 1280 (by norm_num)
  norm_num at h
  exact h

theorem f32_720 : f32 720 = 720 := by
  have h := f32_intCast 720 (by norm_num)
  norm_num at h
  exact h

theorem f64_16_9 : f64 (16 / 9) = (2001599834386887 / 1125899906842624) := by
  unfold f64
  rw [fround_eq 53 (-1022) (0) (-52) 8006399337547548 _ (by norm_num) (by norm_num)
    (by norm_num [abs_of_pos]) (by norm_num [abs_of_pos]) (by norm_num) (by norm_num)]
  norm_num

theorem f32_aspect_16_9 : f32 (2001599834386887 / 1125899906842624) = (14913081 / 8388608) := by
  unfold f32
  rw [fround_eq 24 (-126) (0) (-23) 14913081 _ (by norm_num) (by norm_num)
    (by norm_num [abs_of_pos]) (by norm_num [abs_of_pos]) (by norm_num) (by norm_num)]
  norm_num

theorem f32_323 : f32 323 = 323 := by
  have h := f32_intCast 323 (by norm_num)
  norm_num at h
  exact h

theorem f32_height_323_widescreen : f32 (142606336 / 784899) = (2907 / 16) := by
  unfold f32
  rw [fround_eq 24 (-126) (7) (-16) 11907072 _ (by norm_num) (by norm_num)
    (by norm_num [abs_of_pos]) (by norm_num [abs_of_pos]) (by norm_num) (by norm_num)]
  norm_num

theorem f64_480 : f64 480 = 480 := by
  have h := f64_intCast 480 (by norm_num)
  norm_num at h
  exact h

theorem f32_1 : f32 1 = 1 := by
  have h := f32_intCast 1 (by norm_num)
  norm_num at h
  exact h

theorem f32_67108869 : f32 67108869 = 67108872 := by
  unfold f32
  rw [fround_eq 24 (-126) (26) (3) 8388609 _ (by norm_num) (by norm_num)
    (by norm_num [abs_of_pos]) (by norm_num [abs_of_pos]) (by norm_num) (by norm_num)]
  norm_num

theorem f32_67108872 : f32 67108872 = 67108872 := by
  unfold f32
  rw [fround_eq 24 (-126) (26) (3) 8388609 _ (by norm_num) (by norm_num)
    (by norm_num [abs_of_pos]) (by norm_num [abs_of_pos]) (by norm_num) (by norm_num)]
  norm_num

theorem f32_320 : f32 320 = 320 := by
  have h := f32_intCast 320 (by norm_num)
  norm_num at h
  exact h

theorem f32_height_320_fixture : f32 (2684354560 / 11184811) = 240 := by
  unfold f32
  rw [fround_eq 24 (-126) (7) (-16) 15728640 _ (by norm_num) (by norm_num)
    (by norm_num [abs_of_pos]) (by norm_num [abs_of_pos]) (by norm_num) (by norm_num)]
  norm_num

theorem floorf_eq (x : ℚ) (v : Int) (h1 : (v : ℚ) ≤ x) (h2 : x < (v : ℚ) + 1)
    (h3 : -2147483648 ≤ v) (h4 : v ≤ 2147483647) : floorf x = some v := by
  have hf : Int.floor x = v := Int.floor_eq_iff.mpr ⟨h1, h2⟩
  unfold floorf
  rw [hf, if_pos ⟨h3, h4⟩]

theorem aspect_widescreen :
    ff_get_aspectratio { width := 1280, height := 720,
                         sample_aspect_ratio := { num := 1, den := 1 } } =
      some (14913081 / 8388608) := by
  norm_num [ff_get_aspectratio, av_q2d, f64_1, f32_1280, f64_1280, f32_720, f64_16_9,
    f32_aspect_16_9]

theorem aspect_square :
    ff_get_aspectratio { width := 480, height := 480,
                         sample_aspect_ratio := { num := 1, den := 1 } } = some 1 := by
  norm_num [ff_get_aspectratio, av_q2d, f64_1, f32_480, f64_480, f32_1]

/-- `ff_resize(w, -1, NULL)` for a positive `w` and a positive aspect ratio:
the height is the floor of the single-precision quotient. -/
theorem resize_height_eval (L : Lib) (ff : ffst) (c : AVCodecContext) (w v : Int) (a : ℚ)
    (hc : ff.pCodecCtx = some c) (ha : ff_get_aspectratio c = some a) (hpos : 0 < a)
    (hw : 0 < w) (hv : floorf (f32 (f32 (w : ℚ) / a)) = some v)
    (hfmt : ff.pFrameFMT ≠ Ptr.null) (hcalloc : ∀ n, L.calloc n ≠ Ptr.null) :
    (ff_resize L ff w (-1) Ptr.null none).map (fun r => (r.1.out_width, r.1.out_height)) =
      some (w, v) := by
  rw [resize_null_geometry L ff c w (-1) hc hfmt hcalloc, resolve_geometry_pos c _ a ha hpos]
  show Option.map _ (if (-1 : Int) < 0 ∧ 0 < w then _ else _) = _
  rw [if_pos ⟨by decide, hw⟩]
  show Option.map _ (Option.map _ (floorf (f32 (f32 (w : ℚ) / a)))) = _
  rw [hv]
  rfl

/-- C4 (as stated) fails.  With a caller-supplied buffer `ff_resize(-1, 480, buf)`
leaves the geometry (-1, 480), within one pixel for no positive aspect ratio.
With the internal buffer `ff_resize(-1, 0, NULL)` on the 640x480 fixture leaves
(640, 0).  On a 16:9 stream `ff_resize(323, -1, NULL)` leaves (323, 181), more
than one pixel of width away from `181 * a`.  On a stream of aspect ratio 1
`ff_resize(67108869, -1, NULL)` leaves the height 67108872, the `float` nearest
to the requested width. -/
theorem resize_aspect_counterexample :
    ((ff_resize fixture_lib fixture_open (-1) 480 (Ptr.block 9) none).map
          (fun r => (r.1.out_width, r.1.out_height)) = some (-1, 480) ∧
      ∀ a : ℚ, 0 < a →
        ¬ |(((-1 : Int) : ℚ)) - ((480 : Int) : ℚ) * a| ≤ 1 ∧
        ¬ |(((480 : Int) : ℚ)) - ((-1 : Int) : ℚ) / a| ≤ 1) ∧
    (ff_get_aspectratio fixture_stream.codec = some (11184811 / 8388608) ∧
      (ff_resize fixture_lib fixture_open (-1) 0 Ptr.null none).map
          (fun r => (r.1.out_width, r.1.out_height)) = some (640, 0) ∧
      ¬ |(((640 : Int) : ℚ)) - ((0 : Int) : ℚ) * (11184811 / 8388608)| ≤ 1 ∧
      ¬ |(((0 : Int) : ℚ)) - ((640 : Int) : ℚ) / (11184811 / 8388608)| ≤ 1) ∧
    (ff_get_aspectratio { width := 1280, height := 720,
                          sample_aspect_ratio := { num := 1, den := 1 } } =
        some (14913081 / 8388608) ∧
      (ff_resize fixture_lib widescreen_open 323 (-1) Ptr.null none).map
          (fun r => (r.1.out_width, r.1.out_height)) = some (323, 181) ∧
      ¬ |(((323 : Int) : ℚ)) - ((181 : Int) : ℚ) * (14913081 / 8388608)| ≤ 1) ∧
    (ff_get_aspectratio { width := 480, height := 480,
                          sample_aspect_ratio := { num := 1, den := 1 } } = some 1 ∧
      (ff_resize fixture_lib
          { fixture_open with
            pCodecCtx := some { width := 480, height := 480,
                                sample_aspect_ratio := { num := 1, den := 1 } } }
          67108869 (-1) Ptr.null none).map
          (fun r => (r.1.out_width, r.1.out_height)) = some (67108869, 67108872) ∧
      ¬ |(((67108872 : Int) : ℚ)) - ((67108869 : Int) : ℚ) / 1| ≤ 1) := by
  refine ⟨⟨rfl, ?_⟩, ⟨aspect_fixture, ?_, ?_, ?_⟩, ⟨aspect_widescreen, ?_, ?_⟩,
    ⟨aspect_square, ?_, ?_⟩⟩
  · intro a ha
    have h1 : 0 < 1 / a := one_div_pos.mpr ha
    constructor
    · intro h
      have := (abs_le.mp h).1
      push_cast at this
      linarith
    · intro h
      have := (abs_le.mp h).2
      push_cast at this
      rw [neg_div] at this
      linarith
  · rw [resize_null_geometry fixture_lib fixture_open fixture_stream.codec (-1) 0 rfl
      (by decide) (fun n => by simp [fixture_lib]),
      resolve_geometry_pos fixture_stream.codec _ _ aspect_fixture (by norm_num)]
    rfl
  · norm_num [abs_le]
  · norm_num [abs_le]
  · exact resize_height_eval fixture_lib widescreen_open _ 323 181 _ rfl aspect_widescreen
      (by norm_num) (by decide)
      (by
        have e : f32 (f32 ((323 : Int) : ℚ) / (14913081 / 8388608)) = 2907 / 16 := by
          norm_num [f32_323, f32_height_323_widescreen]
        rw [e]
        exact floorf_eq _ 181 (by norm_num) (by norm_num) (by decide) (by decide))
      (by decide) (fun n => by simp [fixture_lib])
  · norm_num [abs_le]
  · exact resize_height_eval fixture_lib _ _ 67108869 67108872 _ rfl aspect_square
      (by norm_num) (by decide)
      (by
        have e : f32 (f32 ((67108869 : Int) : ℚ) / 1) = 67108872 := by
          norm_num [f32_67108869, f32_67108872]
        rw [e]
        exact floorf_eq _ 67108872 (by norm_num) (by norm_num) (by decide) (by decide))
      (by decide) (fun n => by simp [fixture_lib])
  · norm_num [abs_le]

theorem resize_preserves_aspect_witness :
    (∃ ff' calls, ff_resize fixture_lib fixture_open 320 (-1) Ptr.null none =
        some (ff', none, calls)) ∧
    ∀ i ff' vi calls, ff_resize fixture_lib fixture_open 320 (-1) Ptr.null i =
        some (ff', vi, calls) →
      ((0 : Int) < -1 ∧
        |(ff'.out_width : ℚ) - (ff'.out_height : ℚ) * (11184811 / 8388608)| ≤ 1) ∨
      ((-1 : Int) < 0 ∧
        |(ff'.out_height : ℚ) - (ff'.out_width : ℚ) / (11184811 / 8388608)| ≤ 1) :=
  resize_preserves_aspect fixture_lib fixture_open fixture_stream.codec 320 (-1)
    (11184811 / 8388608) rfl aspect_fixture (by norm_num) (Or.inr rfl) (by decide)
    (by decide)
    ⟨fun h => absurd h (by decide), fun _ _ => by norm_num, fun _ h => absurd h (by decide)⟩
    (by decide) (fun n => by simp [fixture_lib])

theorem f32_101 : f32 101 = 101 := by
  have h := f32_intCast 101 (by norm_num)
  norm_num at h
  exact h

theorem f32_width_101_fixture : f32 (1129665911 / 8388608) = (8825515 / 65536) := by
  unfold f32
  rw [fround_eq 24 (-126) (7) (-16) 8825515 _ (by norm_num) (by norm_num)
    (by norm_num [abs_of_pos]) (by norm_num [abs_of_pos]) (by norm_num) (by norm_num)]
  norm_num

theorem f32_height_101_fixture : f32 (847249408 / 11184811) = (303 / 4) := by
  unfold f32
  rw [fround_eq 24 (-126) (6) (-17) 9928704 _ (by norm_num) (by norm_num)
    (by norm_num [abs_of_pos]) (by norm_num [abs_of_pos]) (by norm_num) (by norm_num)]
  norm_num

/-- C5 (as stated) fails: on the 640x480 fixture (aspect ratio 11184811/8388608,
the `float` nearest to 4/3) a request of height 101 with automatic width gives
width 134, and a request of width 101 with automatic height gives height 75,
where rounding gives 135 and 76. -/
theorem init_moviebuffer_round_counterexample :
    ff_get_aspectratio fixture_stream.codec = some (11184811 / 8388608) ∧
    ((ff_init_moviebuffer fixture_lib
        { fixture_open with out_width := -1, out_height := 101 }).map
          (fun r => (r.1.out_width, r.1.out_height)) = some (134, 101) ∧
      round (((101 : Int) : ℚ) * (11184811 / 8388608)) = 135) ∧
    ((ff_init_moviebuffer fixture_lib
        { fixture_open with out_width := 101, out_height := -1 }).map
          (fun r => (r.1.out_width, r.1.out_height)) = some (101, 75) ∧
      round (((101 : Int) : ℚ) / (11184811 / 8388608)) = 76) := by
  refine ⟨aspect_fixture, ⟨?_, ?_⟩, ⟨?_, ?_⟩⟩
  · rw [init_moviebuffer_geometry fixture_lib _ fixture_stream.codec rfl (by decide)
      (fun n => by simp [fixture_lib]),
      resolve_geometry_pos fixture_stream.codec _ _ aspect_fixture (by norm_num)]
    show Option.map _ (Option.map _
      (floorf (f32 (f32 ((101 : Int) : ℚ) * (11184811 / 8388608))))) = _
    have e : f32 (f32 ((101 : Int) : ℚ) * (11184811 / 8388608)) = 8825515 / 65536 := by
      norm_num [f32_101, f32_width_101_fixture]
    rw [e, floorf_eq _ 134 (by norm_num) (by norm_num) (by decide) (by decide)]
    rfl
  · rw [round_eq, Int.floor_eq_iff]
    constructor <;> norm_num
  · rw [init_moviebuffer_geometry fixture_lib _ fixture_stream.codec rfl (by decide)
      (fun n => by simp [fixture_lib]),
      resolve_geometry_pos fixture_stream.codec _ _ aspect_fixture (by norm_num)]
    show Option.map _ (Option.map _
      (floorf (f32 (f32 ((101 : Int) : ℚ) / (11184811 / 8388608))))) = _
    have e : f32 (f32 ((101 : Int) : ℚ) / (11184811 / 8388608)) = 303 / 4 := by
      norm_num [f32_101, f32_height_101_fixture]
    rw [e, floorf_eq _ 75 (by norm_num) (by norm_num) (by decide) (by decide)]
    rfl
  · rw [round_eq, Int.floor_eq_iff]
    constructor <;> norm_num

/-- C5 (amended): `ff_init_moviebuffer` resolves automatic sizes with `floorf`
in single precision, not with rounding.  With `a` the positive aspect ratio
that `ff_get_aspectratio` returns: a negative `out_width` with a positive
`out_height` becomes `(int) floorf((float) out_height * a)`, a negative
`out_height` with a positive `out_width` becomes
`(int) floorf((float) out_width / a)` (the function returns exactly when that
number is in the range of `int`), two negative sizes become the intrinsic
geometry `(movie_width, movie_height)` that `ff_open_movie` recorded and
`ff_get_info` reports, and a positive requested size is never altered. -/
theorem init_moviebuffer_auto_sizes (L : Lib) (ff : ffst) (c : AVCodecContext) (a : ℚ)
    (hc : ff.pCodecCtx = some c) (ha : ff_get_aspectratio c = some a) (hpos : 0 < a)
    (hmovie : ff.movie_width = c.width ∧
      floorf (f32 (f32 (c.width : ℚ) / a)) = some ff.movie_height)
    (hfmt : ff.pFrameFMT ≠ Ptr.null) (hcalloc : ∀ n, L.calloc n ≠ Ptr.null) :
    (ff.out_width < 0 → 0 < ff.out_height →
      (ff_init_moviebuffer L ff).map (fun r => (r.1.out_width, r.1.out_height)) =
        (floorf (f32 (f32 (ff.out_height : ℚ) * a))).map (fun v => (v, ff.out_height))) ∧
    (ff.out_height < 0 → 0 < ff.out_width →
      (ff_init_moviebuffer L ff).map (fun r => (r.1.out_width, r.1.out_height)) =
        (floorf (f32 (f32 (ff.out_width : ℚ) / a))).map (fun v => (ff.out_width, v))) ∧
    (ff.out_width < 0 → ff.out_height < 0 →
      ∃ ff' calls, ff_init_moviebuffer L ff = some (ff', calls) ∧
        ff'.out_width = ff'.movie_width ∧ ff'.out_height = ff'.movie_height ∧
        ∀ i info, ff_get_info L ff' i = some info →
          info.out_width = info.movie_width ∧ info.out_height = info.movie_height) ∧
    (0 < ff.out_width → 0 < ff.out_height →
      ∃ ff' calls, ff_init_moviebuffer L ff = some (ff', calls)) ∧
    (∀ ff' calls, ff_init_moviebuffer L ff = some (ff', calls) →
      (0 < ff.out_width → ff'.out_width = ff.out_width) ∧
      (0 < ff.out_height → ff'.out_height = ff.out_height)) := by
  have hgeo := init_moviebuffer_geometry L ff c hc hfmt hcalloc
  have hres := resolve_geometry_pos c ff a ha hpos
  refine ⟨?_, ?_, ?_, ?_, ?_⟩
  · intro hw hh
    rw [hgeo, hres, if_neg (by omega), if_pos ⟨hh, hw⟩]
    cases floorf (f32 (f32 (ff.out_height : ℚ) * a)) with
    | none => rfl
    | some v => rfl
  · intro hh hw
    rw [hgeo, hres, if_pos ⟨hh, hw⟩]
    cases floorf (f32 (f32 (ff.out_width : ℚ) / a)) with
    | none => rfl
    | some v => rfl
  · intro hw hh
    have hg : resolve_geometry c ff =
        some { ff with out_width := c.width, out_height := ff.movie_height } := by
      rw [hres, if_neg (by omega), if_neg (by omega), if_pos hh, hmovie.2]
      simp only [Option.map_some', hw, if_true]
    obtain ⟨ff1, calls, hr⟩ := init_moviebuffer_returns L ff _ c hc hg hfmt hcalloc
    obtain ⟨g, ib, b, hg', he⟩ := init_moviebuffer_eq L ff ff1 c calls hc hr
    rw [hg] at hg'
    cases hg'
    have e1 : ff1.out_width = ff1.movie_width := by
      rw [he]
      exact hmovie.1.symm
    have e2 : ff1.out_height = ff1.movie_height := by rw [he]
    refine ⟨ff1, calls, hr, e1, e2, ?_⟩
    intro i info hi
    unfold ff_get_info at hi
    split at hi
    · cases hi
    · split at hi
      · cases hi
      · cases hi
        exact ⟨e1, e2⟩
  · intro hw hh
    have hg : resolve_geometry c ff = some ff := by
      rw [hres, if_neg (by omega), if_neg (by omega), if_neg (by omega), if_neg (by omega)]
    exact init_moviebuffer_returns L ff ff c hc hg hfmt hcalloc
  · intro ff' calls hr
    obtain ⟨g, ib, b, hg, he⟩ := init_moviebuffer_eq L ff ff' c calls hc hr
    obtain ⟨k1, k2⟩ := resolve_geometry_keeps c ff g hg
    rw [he]
    exact ⟨fun hw => k1 hw.le, fun hh => k2 hh.le⟩

theorem init_moviebuffer_auto_sizes_witness :
    ((-1 : Int) < 0 → (0 : Int) < 101 →
      (ff_init_moviebuffer fixture_lib
          { fixture_open with out_width := -1, out_height := 101 }).map
          (fun r => (r.1.out_width, r.1.out_height)) =
        (floorf (f32 (f32 ((101 : Int) : ℚ) * (11184811 / 8388608)))).map
          (fun v => (v, (101 : Int)))) ∧
    ((101 : Int) < 0 → (0 : Int) < -1 →
      (ff_init_moviebuffer fixture_lib
          { fixture_open with out_width := -1, out_height := 101 }).map
          (fun r => (r.1.out_width, r.1.out_height)) =
        (floorf (f32 (f32 ((-1 : Int) : ℚ) / (11184811 / 8388608)))).map
          (fun v => ((-1 : Int), v))) ∧
    ((-1 : Int) < 0 → (101 : Int) < 0 →
      ∃ ff' calls, ff_init_moviebuffer fixture_lib
          { fixture_open with out_width := -1, out_height := 101 } = some (ff', calls) ∧
        ff'.out_width = ff'.movie_width ∧ ff'.out_height = ff'.movie_height ∧
        ∀ i info, ff_get_info fixture_lib ff' i = some info →
          info.out_width = info.movie_width ∧ info.out_height = info.movie_height) ∧
    ((0 : Int) < -1 → (0 : Int) < 101 →
      ∃ ff' calls, ff_init_moviebuffer fixture_lib
          { fixture_open with out_width := -1, out_height := 101 } = some (ff', calls)) ∧
    (∀ ff' calls, ff_init_moviebuffer fixture_lib
          { fixture_open with out_width := -1, out_height := 101 } = some (ff', calls) →
      ((0 : Int) < -1 → ff'.out_width = -1) ∧
      ((0 : Int) < 101 → ff'.out_height = 101)) :=
  init_moviebuffer_auto_sizes fixture_lib
    { fixture_open with out_width := -1, out_height := 101 } fixture_stream.codec
    (11184811 / 8388608) rfl aspect_fixture (by norm_num)
    ⟨rfl, by
      have h := height_fixture
      unfold floorf_div at h
      simp only [] at h
      rw [if_neg (by norm_num)] at h
      exact h⟩
    (by decide) (fun n => by simp [fixture_lib])

theorem after_calls_eq_some {α β γ : Type} (c : List Call)
    (r : Option (α × β × γ × List Call)) (a : α) (b : β) (g : γ) (calls : List Call)
    (h : after_calls c r = some (a, b, g, calls)) :
    ∃ calls1, r = some (a, b, g, calls1) ∧ calls = c ++ calls1 := by
  unfold after_calls at h
  split at h
  · cases h
  · rename_i x
    obtain ⟨x1, x2, x3, x4⟩ := x
    cases h
    exact ⟨x4, rfl, rfl⟩

theorem touched_self (ff : ffst) :
    ff = touched ff ff.packet ff.avprev ff.stream_pts_offset ff.pSWSCtx := rfl

theorem reset_video_head_touch (dm : Demux) (ff ff' : ffst) (pending rest : List AVPacket)
    (calls : List Call) (h : reset_video_head dm ff pending = some (ff', rest, calls)) :
    ∃ pk, ff' = touched ff pk 0 ff.stream_pts_offset ff.pSWSCtx := by
  unfold reset_video_head at h
  simp only [] at h
  split at h
  · cases h
  · cases h
    exact ⟨_, rfl⟩

theorem remember_offset_touch (ff : ffst) (p : AVPacket) (m : Int) :
    ∃ off, remember_offset ff p m = touched ff ff.packet ff.avprev off ff.pSWSCtx := by
  unfold remember_offset
  split_ifs
  · exact ⟨m, rfl⟩
  · exact ⟨ff.stream_pts_offset, rfl⟩

/-- `read_frame` writes only packet, `avprev` and `stream_pts_offset`; it
returns 0 or 1, and when it returns 1 it has a packet, has left `avprev`
alone and has made no seek and no flush. -/
theorem read_frame_touch (dm : Demux) (ts : Int) :
    ∀ (pending : List AVPacket) (ff : ffst) (n : Int) (rv : Int) (ff' : ffst)
      (rest : List AVPacket) (calls : List Call),
      read_frame dm ts ff n pending = some (rv, ff', rest, calls) →
      (∃ pk av off, ff' = touched ff pk av off ff.pSWSCtx ∧
        (rv = 1 → av = ff.avprev ∧ pk ≠ none)) ∧
      (rv = 0 ∨ rv = 1) ∧
      (rv = 1 → Call.avcodec_flush_buffers ∉ calls ∧
        ∀ t f, Call.av_seek_frame t f ∉ calls) := by
  intro pending
  induction pending with
  | nil =>
    intro ff n rv ff' rest calls h
    unfold read_frame at h
    cases h
    exact ⟨⟨_, _, _, touched_self ff, fun h => absurd h (by decide)⟩, Or.inl rfl,
      fun h => absurd h (by decide)⟩
  | cons p tl ih =>
    intro ff n rv ff' rest calls h
    unfold read_frame at h
    by_cases h1 : p.dup_ok = false
    · rw [if_pos h1] at h
      obtain ⟨calls1, hrec, hcalls⟩ := after_calls_eq_some _ _ _ _ _ _ h
      obtain ⟨⟨pk, av, off, he, hs⟩, hrv, hc⟩ := ih _ _ _ _ _ _ hrec
      refine ⟨⟨pk, av, off, by rw [he]; rfl, hs⟩, hrv, fun h1 => ?_⟩
      obtain ⟨c1, c2⟩ := hc h1
      subst hcalls
      exact ⟨by simp [c1], fun t f => by simp [c2 t f]⟩
    rw [if_neg h1] at h
    by_cases h2 : p.stream_index ≠ ff.videoStream
    · rw [if_pos h2] at h
      obtain ⟨calls1, hrec, hcalls⟩ := after_calls_eq_some _ _ _ _ _ _ h
      obtain ⟨⟨pk, av, off, he, hs⟩, hrv, hc⟩ := ih _ _ _ _ _ _ hrec
      refine ⟨⟨pk, av, off, by rw [he]; rfl, hs⟩, hrv, fun h1 => ?_⟩
      obtain ⟨c1, c2⟩ := hc h1
      subst hcalls
      constructor
      · split_ifs <;> simp [c1]
      · intro t f
        split_ifs <;> simp [c2 t f]
    rw [if_neg h2] at h
    by_cases h3 : ff.seekflags ≠ SEEK_CONTINUOUS ∧ ff.seekflags ≠ SEEK_LIVESTREAM
    · rw [if_pos h3] at h
      cases h
      exact ⟨⟨some p, ff.avprev, ff.stream_pts_offset, rfl, fun _ => ⟨rfl, by simp⟩⟩,
        Or.inr rfl, fun _ => ⟨by simp, fun t f => by simp⟩⟩
    rw [if_neg h3] at h
    by_cases h4 : packet_timestamp p = AV_NOPTS_VALUE
    · rw [if_pos h4] at h
      cases h
      exact ⟨⟨_, ff.avprev, ff.stream_pts_offset, rfl, fun h => absurd h (by decide)⟩,
        Or.inl rfl, fun h => absurd h (by decide)⟩
    rw [if_neg h4] at h
    obtain ⟨off, ho⟩ := remember_offset_touch { ff with packet := some p } p (packet_timestamp p)
    by_cases h5 : corrected_timestamp (remember_offset { ff with packet := some p } p
        (packet_timestamp p)) (packet_timestamp p) ≥ ts
    · rw [if_pos h5] at h
      cases h
      exact ⟨⟨some p, ff.avprev, off, by rw [ho]; rfl, fun _ => ⟨rfl, by simp⟩⟩,
        Or.inr rfl, fun _ => ⟨by simp, fun t f => by simp⟩⟩
    rw [if_neg h5] at h
    by_cases h6 : p.decodes = false ∨ n + 1 < MAX_CONT_FRAMES
    · rw [if_pos h6] at h
      obtain ⟨calls1, hrec, hcalls⟩ := after_calls_eq_some _ _ _ _ _ _ h
      obtain ⟨⟨pk, av, off2, he, hs⟩, hrv, hc⟩ := ih _ _ _ _ _ _ hrec
      refine ⟨⟨pk, av, off2, ?_, ?_⟩, hrv, fun h1 => ?_⟩
      · rw [he, ho]; rfl
      · intro h1
        have := hs h1
        refine ⟨?_, this.2⟩
        rw [this.1, ho]; rfl
      · obtain ⟨c1, c2⟩ := hc h1
        subst hcalls
        exact ⟨by simp [c1], fun t f => by simp [c2 t f]⟩
    · rw [if_neg h6] at h
      obtain ⟨calls1, hrec, hcalls⟩ := after_calls_eq_some _ _ _ _ _ _ h
      cases hres : reset_video_head dm
          { remember_offset { ff with packet := some p } p (packet_timestamp p) with
            packet := some (av_free_packet p) } tl with
      | none => rw [hres] at hrec; cases hrec
      | some r =>
        obtain ⟨ff1, rest1, calls2⟩ := r
        rw [hres] at hrec
        cases hrec
        obtain ⟨pk, he⟩ := reset_video_head_touch dm _ _ _ _ _ hres
        refine ⟨⟨pk, 0, off, ?_, fun h => absurd h (by decide)⟩, Or.inl rfl,
          fun h => absurd h (by decide)⟩
        rw [he, ho]; rfl

theorem render_loop_touch (dm : Demux) :
    ∀ (pending : List AVPacket) (ff : ffst) (p : AVPacket) (fin : Bool) (ff' : ffst)
      (rest : List AVPacket) (calls : List Call),
      render_loop dm ff p pending = some (fin, ff', rest, calls) →
      ∃ pk av sws, ff' = touched ff pk av ff.stream_pts_offset sws ∧
        (fin = true → av = ff.avprev) := by
  intro pending
  induction pending with
  | nil =>
    intro ff p fin ff' rest calls h
    unfold render_loop at h
    by_cases h1 : p.stream_index = ff.videoStream ∧ p.decodes = true
    · rw [if_pos h1] at h
      cases h
      exact ⟨_, ff.avprev, _, rfl, fun _ => rfl⟩
    · rw [if_neg h1] at h
      simp only [] at h
      obtain ⟨calls1, hrec, -⟩ := after_calls_eq_some _ _ _ _ _ _ h
      cases hres : reset_video_head dm
          { ff with packet := some (if p.has_data then av_free_packet p else p) } [] with
      | none => rw [hres] at hrec; cases hrec
      | some r =>
        obtain ⟨ff1, rest1, calls2⟩ := r
        rw [hres] at hrec
        cases hrec
        obtain ⟨pk, he⟩ := reset_video_head_touch dm _ _ _ _ _ hres
        exact ⟨pk, 0, ff.pSWSCtx, by rw [he]; rfl, fun h => absurd h (by decide)⟩
  | cons q tl ih =>
    intro ff p fin ff' rest calls h
    unfold render_loop at h
    by_cases h1 : p.stream_index = ff.videoStream ∧ p.decodes = true
    · rw [if_pos h1] at h
      cases h
      exact ⟨_, ff.avprev, _, rfl, fun _ => rfl⟩
    · rw [if_neg h1] at h
      simp only [] at h
      by_cases h2 : q.dup_ok = false
      · rw [if_pos h2] at h
        cases h
        exact ⟨_, ff.avprev, ff.pSWSCtx, rfl, fun _ => rfl⟩
      · rw [if_neg h2] at h
        obtain ⟨calls1, hrec, -⟩ := after_calls_eq_some _ _ _ _ _ _ h
        obtain ⟨pk, av, sws, he, hs⟩ := ih _ _ _ _ _ _ hrec
        exact ⟨pk, av, sws, by rw [he]; rfl, hs⟩

theorem seek_dispatch_calls (dm : Demux) (ff : ffst) (pending : List AVPacket) (ts : Int) :
    seek_dispatch dm ff pending ts = (1, pending, []) ∨
    ∃ fl, seek_dispatch dm ff pending ts = seek_and_flush dm pending ts fl := by
  unfold seek_dispatch
  split_ifs
  · exact Or.inr ⟨_, rfl⟩
  · exact Or.inr ⟨_, rfl⟩
  · exact Or.inl rfl
  · exact Or.inr ⟨_, rfl⟩
  · exact Or.inl rfl

/-- `my_seek_frame` on an open stream: it returns 0 or 1, writes only packet,
`avprev` and `stream_pts_offset`, and after a return of 1 `avprev` is the
rescaled target and a packet is at hand. -/
theorem my_seek_frame_touch (dm : Demux) (ff ff' : ffst) (pending rest : List AVPacket)
    (timestamp rv : Int) (calls : List Call) (ctx : AVFormatContext) (avs : AVStream)
    (hctx : ff.pFormatCtx = some ctx) (hvs : video_stream ff = some avs)
    (hv : 0 ≤ ff.videoStream)
    (h : my_seek_frame dm ff pending timestamp = some (rv, ff', rest, calls)) :
    (∃ pk av off, ff' = touched ff pk av off ff.pSWSCtx ∧
      (rv = 1 → av = seek_timestamp ff ctx avs timestamp ∧ pk ≠ none)) ∧
    (rv = 0 ∨ rv = 1) := by
  unfold my_seek_frame at h
  rw [if_neg (by omega)] at h
  split at h
  case h_2 hne => exact absurd hvs (hne ctx avs hctx)
  rename_i ctx1 avs1 hc1 hv1
  have ec : ctx1 = ctx := Option.some.inj (hc1.symm.trans hctx)
  have ev : avs1 = avs := Option.some.inj (hv1.symm.trans hvs)
  subst ec ev
  simp only [] at h
  by_cases h1 : (seek_dispatch dm ff pending (seek_timestamp ff ctx1 avs1 timestamp)).1 < 0
  · rw [if_pos h1] at h
    cases h
    exact ⟨⟨ff.packet, _, ff.stream_pts_offset, rfl, fun h => absurd h (by decide)⟩, Or.inl rfl⟩
  · rw [if_neg h1] at h
    obtain ⟨calls1, hrec, -⟩ := after_calls_eq_some _ _ _ _ _ _ h
    obtain ⟨⟨pk, av, off, he, hs⟩, hrv, -⟩ := read_frame_touch dm _ _ _ _ _ _ _ _ hrec
    exact ⟨⟨pk, av, off, by rw [he]; rfl, hs⟩, hrv⟩

/-- `ff_render` on an open stream writes only packet, `avprev`,
`stream_pts_offset` and the scaler context, and after a return of 0 `avprev`
is the rescaled target of the request. -/
theorem ff_render_touch (dm : Demux) (ff ff' : ffst) (pending rest : List AVPacket)
    (frame : Nat) (rv : Int) (calls : List Call) (ctx : AVFormatContext) (avs : AVStream)
    (hctx : ff.pFormatCtx = some ctx) (hvs : video_stream ff = some avs)
    (hv : 0 ≤ ff.videoStream)
    (h : ff_render dm ff pending frame = some (rv, ff', rest, calls)) :
    ∃ pk av off sws, ff' = touched ff pk av off sws ∧
      (rv = 0 → av = seek_timestamp ff ctx avs (frame : Int)) := by
  unfold ff_render at h
  by_cases h0 : ff.pFrameFMT ≠ Ptr.null ∧ ff.pFormatCtx ≠ none
  · rw [if_pos h0] at h
    cases hm : my_seek_frame dm ff pending (frame : Int) with
    | none => rw [hm] at h; cases h
    | some r =>
      obtain ⟨rv1, ff1, pend1, calls1⟩ := r
      rw [hm] at h
      simp only [] at h
      obtain ⟨⟨pk, av, off, he, hs⟩, hrv⟩ :=
        my_seek_frame_touch dm ff ff1 pending pend1 _ rv1 calls1 ctx avs hctx hvs hv hm
      by_cases h1 : rv1 ≠ 0
      · rw [if_pos h1] at h
        have hrv1 : rv1 = 1 := by
          rcases hrv with h2 | h2
          · exact absurd h2 h1
          · exact h2
        obtain ⟨hav, -⟩ := hs hrv1
        cases hp : ff1.packet with
        | none => rw [hp] at h; cases h
        | some p =>
          rw [hp] at h
          simp only [] at h
          cases hl : after_calls calls1 (render_loop dm ff1 p pend1) with
          | none => rw [hl] at h; cases h
          | some r2 =>
            obtain ⟨fin, ff2, pend2, calls2⟩ := r2
            rw [hl] at h
            simp only [Option.map_some', Option.some.injEq, Prod.mk.injEq] at h
            obtain ⟨hfin, hff, -, -⟩ := h
            obtain ⟨calls3, hrec, -⟩ := after_calls_eq_some _ _ _ _ _ _ hl
            obtain ⟨pk2, av2, sws, he2, hs2⟩ := render_loop_touch dm _ _ _ _ _ _ _ hrec
            refine ⟨pk2, av2, off, sws, ?_, fun h0 => ?_⟩
            · rw [← hff, he2, he]; rfl
            · have hft : fin = true := by
                cases fin with
                | true => rfl
                | false =>
                  rw [h0] at hfin
                  simp at hfin
              rw [hs2 hft, he, ← hav]
              rfl
      · rw [if_neg h1] at h
        cases h
        exact ⟨pk, av, off, ff.pSWSCtx, he, fun h => absurd h (by decide)⟩
  · rw [if_neg h0] at h
    cases h
    exact ⟨_, _, _, _, touched_self ff, fun h => absurd h (by decide)⟩

theorem my_seek_frame_keeps (dm : Demux) (ff ff' : ffst) (pending rest : List AVPacket)
    (timestamp rv : Int) (calls : List Call)
    (h : my_seek_frame dm ff pending timestamp = some (rv, ff', rest, calls)) :
    (∃ pk av off, ff' = touched ff pk av off ff.pSWSCtx) ∧ (rv = 0 ∨ rv = 1) := by
  by_cases hv : ff.videoStream < 0
  · unfold my_seek_frame at h
    rw [if_pos hv] at h
    cases h
    exact ⟨⟨_, _, _, touched_self ff⟩, Or.inl rfl⟩
  · cases hc : ff.pFormatCtx with
    | none =>
      unfold my_seek_frame at h
      rw [if_neg hv] at h
      split at h
      · rename_i c1 v1 hc1 hv1
        rw [hc] at hc1
        cases hc1
      · cases h
    | some ctx =>
      cases hs : video_stream ff with
      | none =>
        unfold my_seek_frame at h
        rw [if_neg hv] at h
        split at h
        · rename_i c1 v1 hc1 hv1
          rw [hs] at hv1
          cases hv1
        · cases h
      | some avs =>
        obtain ⟨⟨pk, av, off, he, -⟩, hrv⟩ := my_seek_frame_touch dm ff ff' pending rest
          timestamp rv calls ctx avs hc hs (by omega) h
        exact ⟨⟨pk, av, off, he⟩, hrv⟩

theorem ff_render_keeps (dm : Demux) (ff ff' : ffst) (pending rest : List AVPacket)
    (frame : Nat) (rv : Int) (calls : List Call)
    (h : ff_render dm ff pending frame = some (rv, ff', rest, calls)) :
    ∃ pk av off sws, ff' = touched ff pk av off sws := by
  unfold ff_render at h
  by_cases h0 : ff.pFrameFMT ≠ Ptr.null ∧ ff.pFormatCtx ≠ none
  · rw [if_pos h0] at h
    cases hm : my_seek_frame dm ff pending (frame : Int) with
    | none => rw [hm] at h; cases h
    | some r =>
      obtain ⟨rv1, ff1, pend1, calls1⟩ := r
      rw [hm] at h
      simp only [] at h
      obtain ⟨⟨pk, av, off, he⟩, -⟩ := my_seek_frame_keeps dm ff ff1 pending pend1 _ rv1 calls1 hm
      by_cases h1 : rv1 ≠ 0
      · rw [if_pos h1] at h
        cases hp : ff1.packet with
        | none => rw [hp] at h; cases h
        | some p =>
          rw [hp] at h
          simp only [] at h
          cases hl : after_calls calls1 (render_loop dm ff1 p pend1) with
          | none => rw [hl] at h; cases h
          | some r2 =>
            obtain ⟨fin, ff2, pend2, calls2⟩ := r2
            rw [hl] at h
            simp only [Option.map_some', Option.some.injEq, Prod.mk.injEq] at h
            obtain ⟨-, hff, -, -⟩ := h
            obtain ⟨calls3, hrec, -⟩ := after_calls_eq_some _ _ _ _ _ _ hl
            obtain ⟨pk2, av2, sws, he2, -⟩ := render_loop_touch dm _ _ _ _ _ _ _ hrec
            exact ⟨pk2, av2, off, sws, by rw [← hff, he2, he]; rfl⟩
      · rw [if_neg h1] at h
        cases h
        exact ⟨pk, av, off, ff.pSWSCtx, he⟩
  · rw [if_neg h0] at h
    cases h
    exact ⟨_, _, _, _, touched_self ff⟩

theorem f64_32000 : f64 32000 = 32000 := by
  have h := f64_intCast 32000 (by norm_num)
  norm_num at h
  exact h

theorem f64_1000 : f64 1000 = 1000 := by
  have h := f64_intCast 1000 (by norm_num)
  norm_num at h
  exact h

theorem f64_two_pow_52 : f64 4503599627370496 = 4503599627370496 := by
  have h := f64_intCast 4503599627370496 (by norm_num)
  norm_num at h
  exact h

theorem f64_three_quarters : f64 (3 / 4) = (3 / 4) := by
  unfold f64
  rw [fround_eq 53 (-1022) (-1) (-53) 6755399441055744 _ (by norm_num) (by norm_num)
    (by norm_num [abs_of_pos]) (by norm_num [abs_of_pos]) (by norm_num) (by norm_num)]
  norm_num

theorem f64_two_pow_52_sum : f64 (18014398509481987 / 4) = 4503599627370497 := by
  unfold f64
  rw [fround_eq 53 (-1022) (52) (0) 4503599627370497 _ (by norm_num) (by norm_num)
    (by norm_num [abs_of_pos]) (by norm_num [abs_of_pos]) (by norm_num) (by norm_num)]
  norm_num

theorem f64_two_pow_52_succ : f64 4503599627370497 = 4503599627370497 := by
  have h := f64_intCast 4503599627370497 (by norm_num)
  norm_num at h
  exact h

/-! ### The seek policy and the scan budget -/

theorem after_calls_nil {α β γ : Type} (r : Option (α × β × γ × List Call)) :
    after_calls [] r = r := by
  cases r <;> rfl

theorem after_calls_append {α β γ : Type} (a b : List Call)
    (r : Option (α × β × γ × List Call)) :
    after_calls a (after_calls b r) = after_calls (a ++ b) r := by
  cases r with
  | none => rfl
  | some x => simp [after_calls, List.append_assoc]

/-- The seek dispatch in SEEK_CONTINUOUS mode. -/
theorem seek_dispatch_continuous (dm : Demux) (ff : ffst) (pending : List AVPacket)
    (ts : Int) (hmode : ff.seekflags = SEEK_CONTINUOUS) :
    seek_dispatch dm ff pending ts =
      if ff.avprev ≥ ts ∨ f64 (f64 ff.avprev + f64 (32 * ff.tpf)) < f64 ts then
        seek_and_flush dm pending ts AVSEEK_FLAG_BACKWARD
      else (1, pending, []) := by
  unfold seek_dispatch
  rw [hmode, if_neg (by decide), if_neg (by decide), if_neg (by decide)]

/-- `my_seek_frame` on an open stream, in terms of dispatch and scan. -/
theorem my_seek_frame_eq (dm : Demux) (ff : ffst) (pending : List AVPacket)
    (timestamp : Int) (ctx : AVFormatContext) (avs : AVStream)
    (hctx : ff.pFormatCtx = some ctx) (hvs : video_stream ff = some avs)
    (hv : 0 ≤ ff.videoStream) :
    my_seek_frame dm ff pending timestamp =
      if (seek_dispatch dm ff pending (seek_timestamp ff ctx avs timestamp)).1 < 0 then
        some (0, { ff with avprev := seek_timestamp ff ctx avs timestamp },
          (seek_dispatch dm ff pending (seek_timestamp ff ctx avs timestamp)).2.1,
          (seek_dispatch dm ff pending (seek_timestamp ff ctx avs timestamp)).2.2)
      else
        after_calls (seek_dispatch dm ff pending (seek_timestamp ff ctx avs timestamp)).2.2
          (read_frame dm (seek_timestamp ff ctx avs timestamp)
            { ff with avprev := seek_timestamp ff ctx avs timestamp } 0
            (seek_dispatch dm ff pending (seek_timestamp ff ctx avs timestamp)).2.1) := by
  unfold my_seek_frame
  rw [if_neg (by omega)]
  split
  · rename_i ctx1 avs1 hc1 hv1
    have ec : ctx1 = ctx := Option.some.inj (hc1.symm.trans hctx)
    have ev : avs1 = avs := Option.some.inj (hv1.symm.trans hvs)
    subst ec ev
    rfl
  · rename_i hne
    exact absurd hvs (hne ctx avs hctx)

/-- The dispatch makes no seek when the target lies ahead of `avprev` by no
more than the `double` value of `32 * tpf`, all below `2 ^ 53`. -/
theorem dispatch_no_seek (a t : Int) (x : ℚ) (h0 : 0 ≤ a) (h1 : a < t)
    (h2 : (t : ℚ) ≤ (a : ℚ) + f64 x) (h3 : (a : ℚ) + f64 x < 2 ^ 53) :
    ¬ (a ≥ t ∨ f64 (f64 (a : ℚ) + f64 x) < f64 (t : ℚ)) := by
  have ha0 : (0 : ℚ) ≤ (a : ℚ) := by exact_mod_cast h0
  have hat : (a : ℚ) < (t : ℚ) := by exact_mod_cast h1
  have hx : 0 < f64 x := by linarith
  have hbound : ∀ z : Int, 0 ≤ z → (z : ℚ) < 2 ^ 53 → |z| < 2 ^ 53 := by
    intro z hz hz2
    rw [abs_of_nonneg hz]
    have : (z : ℚ) < ((2 ^ 53 : Int) : ℚ) := by
      push_cast
      exact hz2
    exact_mod_cast this
  have ea : f64 (a : ℚ) = a := f64_intCast a (hbound a h0 (by linarith))
  have et : f64 (t : ℚ) = t := f64_intCast t (hbound t (by omega) (by linarith))
  rintro (h | h)
  · omega
  · rw [ea, et] at h
    have hle := int_le_fround 53 (-1022) ((a : ℚ) + f64 x) t
      (by rw [abs_of_nonneg (by linarith)]; exact h3) (by norm_num) h2
    have : f64 ((a : ℚ) + f64 x) = fround 53 (-1022) ((a : ℚ) + f64 x) := rfl
    rw [this] at h
    linarith

theorem seek_and_flush_calls (dm : Demux) (pending : List AVPacket) (t : Int) (f : Nat) :
    (seek_and_flush dm pending t f).2.2 =
      [Call.av_seek_frame t f, Call.avcodec_flush_buffers] := by
  unfold seek_and_flush
  cases dm.seek t f <;> rfl

theorem reset_loop_no_seek (vs : Int) :
    ∀ (l : List AVPacket) (p : AVPacket) (rest : List AVPacket) (calls : List Call),
      reset_loop vs l = some (p, rest, calls) →
      ∀ t f, Call.av_seek_frame t f ∉ calls := by
  intro l
  induction l with
  | nil =>
    intro p rest calls h
    cases h
  | cons q tl ih =>
    intro p rest calls h t f
    unfold reset_loop at h
    simp only [] at h
    by_cases hq : q.stream_index = vs ∧ q.decodes = true
    · rw [if_pos hq] at h
      cases h
      split_ifs <;> simp
    · rw [if_neg hq] at h
      cases hr : reset_loop vs tl with
      | none => rw [hr] at h; cases h
      | some r =>
        obtain ⟨p1, rest1, calls1⟩ := r
        rw [hr] at h
        have := ih p1 rest1 calls1 hr t f
        cases h
        split_ifs <;> simp [this]

/-- The only seek the scan makes is the rewind to 0 of `reset_video_head`, and
the scan then returns 0. -/
theorem read_frame_seeks (dm : Demux) (ts : Int) :
    ∀ (pending : List AVPacket) (ff : ffst) (n : Int) (rv : Int) (ff' : ffst)
      (rest : List AVPacket) (calls : List Call),
      read_frame dm ts ff n pending = some (rv, ff', rest, calls) →
      ∀ t f, Call.av_seek_frame t f ∈ calls →
        rv = 0 ∧ t = 0 ∧ f = AVSEEK_FLAG_BACKWARD ∧ ff'.avprev = 0 := by
  intro pending
  induction pending with
  | nil =>
    intro ff n rv ff' rest calls h t f hm
    unfold read_frame at h
    cases h
    simp at hm
  | cons p tl ih =>
    intro ff n rv ff' rest calls h t f hm
    unfold read_frame at h
    by_cases h1 : p.dup_ok = false
    · rw [if_pos h1] at h
      obtain ⟨calls1, hrec, hcalls⟩ := after_calls_eq_some _ _ _ _ _ _ h
      subst hcalls
      exact ih _ _ _ _ _ _ hrec t f (by simpa using hm)
    rw [if_neg h1] at h
    by_cases h2 : p.stream_index ≠ ff.videoStream
    · rw [if_pos h2] at h
      obtain ⟨calls1, hrec, hcalls⟩ := after_calls_eq_some _ _ _ _ _ _ h
      subst hcalls
      refine ih _ _ _ _ _ _ hrec t f ?_
      split_ifs at hm <;> simpa using hm
    rw [if_neg h2] at h
    by_cases h3 : ff.seekflags ≠ SEEK_CONTINUOUS ∧ ff.seekflags ≠ SEEK_LIVESTREAM
    · rw [if_pos h3] at h
      cases h
      simp at hm
    rw [if_neg h3] at h
    by_cases h4 : packet_timestamp p = AV_NOPTS_VALUE
    · rw [if_pos h4] at h
      cases h
      simp at hm
    rw [if_neg h4] at h
    by_cases h5 : corrected_timestamp (remember_offset { ff with packet := some p } p
        (packet_timestamp p)) (packet_timestamp p) ≥ ts
    · rw [if_pos h5] at h
      cases h
      simp at hm
    rw [if_neg h5] at h
    by_cases h6 : p.decodes = false ∨ n + 1 < MAX_CONT_FRAMES
    · rw [if_pos h6] at h
      obtain ⟨calls1, hrec, hcalls⟩ := after_calls_eq_some _ _ _ _ _ _ h
      subst hcalls
      exact ih _ _ _ _ _ _ hrec t f (by simpa using hm)
    · rw [if_neg h6] at h
      obtain ⟨calls1, hrec, hcalls⟩ := after_calls_eq_some _ _ _ _ _ _ h
      subst hcalls
      cases hres : reset_video_head dm
          { remember_offset { ff with packet := some p } p (packet_timestamp p) with
            packet := some (av_free_packet p) } tl with
      | none => rw [hres] at hrec; cases hrec
      | some r =>
        obtain ⟨ff1, rest1, calls2⟩ := r
        rw [hres] at hrec
        cases hrec
        unfold reset_video_head at hres
        simp only [] at hres
        split at hres
        · cases hres
        · rename_i q rest2 calls3 hloop
          cases hres
          have hns := reset_loop_no_seek _ _ _ _ _ hloop t f
          have hm2 : Call.av_seek_frame t f ∈
              (seek_and_flush dm tl 0 AVSEEK_FLAG_BACKWARD).2.2 := by
            have hm3 : Call.av_seek_frame t f ∈
                (seek_and_flush dm tl 0 AVSEEK_FLAG_BACKWARD).2.2 ++ calls3 := by
              simpa using hm
            rcases List.mem_append.mp hm3 with h7 | h7
            · exact h7
            · exact absurd h7 hns
          have hm4 : t = 0 ∧ f = AVSEEK_FLAG_BACKWARD := by
            rw [seek_and_flush_calls] at hm2
            simpa using hm2
          exact ⟨rfl, hm4.1, hm4.2, rfl⟩

theorem read_frame_nonvideo (dm : Demux) (ts : Int) (ff : ffst) (n : Int) (p : AVPacket)
    (rest : List AVPacket) (hd : p.dup_ok = true) (hs : p.stream_index ≠ ff.videoStream) :
    read_frame dm ts ff n (p :: rest) =
      after_calls
        ([Call.av_read_frame, Call.av_dup_packet]
          ++ (if p.has_data then [Call.av_free_packet] else []))
        (read_frame dm ts
          { ff with packet := some (if p.has_data then av_free_packet p else p) }
          (n + 1) rest) := by
  rw [read_frame, if_neg (by simp [hd]), if_pos hs]

theorem read_frame_below (dm : Demux) (ts : Int) (ff : ffst) (n : Int) (p : AVPacket)
    (rest : List AVPacket)
    (hmode : ff.seekflags = SEEK_CONTINUOUS ∨ ff.seekflags = SEEK_LIVESTREAM)
    (hd : p.dup_ok = true) (hs : p.stream_index = ff.videoStream)
    (hpts : packet_timestamp p ≠ AV_NOPTS_VALUE)
    (hlow : corrected_timestamp (remember_offset { ff with packet := some p } p
        (packet_timestamp p)) (packet_timestamp p) < ts) :
    read_frame dm ts ff n (p :: rest) =
      if p.decodes = false ∨ n + 1 < MAX_CONT_FRAMES then
        after_calls
          [Call.av_read_frame, Call.av_dup_packet, Call.avcodec_decode_video2,
           Call.av_free_packet]
          (read_frame dm ts
            { remember_offset { ff with packet := some p } p (packet_timestamp p) with
              packet := some (av_free_packet p) }
            (n + 1) rest)
      else
        after_calls
          [Call.av_read_frame, Call.av_dup_packet, Call.avcodec_decode_video2,
           Call.av_free_packet]
          ((reset_video_head dm
            { remember_offset { ff with packet := some p } p (packet_timestamp p) with
              packet := some (av_free_packet p) } rest).map
            (fun r => ((0 : Int), r.1, r.2.1, r.2.2))) := by
  have hm : ¬ (ff.seekflags ≠ SEEK_CONTINUOUS ∧ ff.seekflags ≠ SEEK_LIVESTREAM) := by
    rintro ⟨h1, h2⟩
    rcases hmode with h | h
    · exact h1 h
    · exact h2 h
  rw [read_frame, if_neg (by simp [hd]), if_neg (by simp [hs]), if_neg hm, if_neg hpts,
    if_neg (by omega)]

theorem reset_loop_returns (vs : Int) :
    ∀ l : List AVPacket, (∃ q ∈ l, q.stream_index = vs ∧ q.decodes = true) →
      ∃ r, reset_loop vs l = some r := by
  intro l
  induction l with
  | nil => rintro ⟨q, hq, -⟩; cases hq
  | cons p tl ih =>
    intro hex
    unfold reset_loop
    simp only []
    by_cases hp : p.stream_index = vs ∧ p.decodes = true
    · rw [if_pos hp]
      exact ⟨_, rfl⟩
    · rw [if_neg hp]
      have htl : ∃ q ∈ tl, q.stream_index = vs ∧ q.decodes = true := by
        obtain ⟨q, hq, hqq⟩ := hex
        rcases List.mem_cons.mp hq with h | h
        · subst h
          exact absurd hqq hp
        · exact ⟨q, h, hqq⟩
      obtain ⟨r, hr⟩ := ih htl
      rw [hr]
      exact ⟨_, rfl⟩

theorem reset_video_head_returns (dm : Demux) (ff : ffst) (pending : List AVPacket)
    (hex : ∃ q ∈ (seek_and_flush dm pending 0 AVSEEK_FLAG_BACKWARD).2.1,
      q.stream_index = ff.videoStream ∧ q.decodes = true) :
    ∃ ff' rest calls, reset_video_head dm ff pending = some (ff', rest, calls) ∧
      ff'.avprev = 0 ∧
      Call.av_seek_frame 0 AVSEEK_FLAG_BACKWARD ∈ calls ∧
      Call.avcodec_flush_buffers ∈ calls := by
  obtain ⟨r, hr⟩ := reset_loop_returns ff.videoStream _ hex
  obtain ⟨p, rest, calls⟩ := r
  unfold reset_video_head
  simp only [hr]
  refine ⟨_, _, _, rfl, rfl, ?_, ?_⟩
  · unfold seek_and_flush
    cases dm.seek 0 AVSEEK_FLAG_BACKWARD <;> simp
  · unfold seek_and_flush
    cases dm.seek 0 AVSEEK_FLAG_BACKWARD <;> simp

/-- A run of `k + 1` copies of a packet of another stream is skipped, each
copy adding one to the counter. -/
theorem read_frame_skip (dm : Demux) (ts : Int) (a : AVPacket)
    (ha : a.dup_ok = true) (hdata : a.has_data = true) :
    ∀ (k : Nat) (ff : ffst) (n : Int) (rest : List AVPacket),
      a.stream_index ≠ ff.videoStream →
      read_frame dm ts ff n (List.replicate (k + 1) a ++ rest) =
        after_calls
          (List.replicate (k + 1)
            [Call.av_read_frame, Call.av_dup_packet, Call.av_free_packet]).flatten
          (read_frame dm ts { ff with packet := some (av_free_packet a) }
            (n + 1 + (k : Int)) rest) := by
  intro k
  induction k with
  | zero =>
    intro ff n rest hs
    have h := read_frame_nonvideo dm ts ff n a rest ha hs
    simp only [hdata, if_true] at h
    simpa using h
  | succ k ih =>
    intro ff n rest hs
    have h := read_frame_nonvideo dm ts ff n a (List.replicate (k + 1) a ++ rest) ha hs
    simp only [hdata, if_true] at h
    have h2 := ih { ff with packet := some (av_free_packet a) } (n + 1) rest hs
    rw [List.replicate_succ, List.cons_append, h, h2, after_calls_append]
    have e : n + 1 + 1 + (k : Int) = n + 1 + ((k + 1 : Nat) : Int) := by
      push_cast
      ring
    rw [e]
    simp [List.replicate_succ]

/-- A run of `k + 1` copies of a video packet below the target is decoded and
skipped in SEEK_CONTINUOUS mode as long as the budget lasts. -/
theorem read_frame_skip_below (dm : Demux) (ts : Int) (p : AVPacket)
    (hd : p.dup_ok = true) (hpts : packet_timestamp p ≠ AV_NOPTS_VALUE)
    (hlow : packet_timestamp p < ts) :
    ∀ (k : Nat) (ff : ffst) (n : Int) (rest : List AVPacket),
      ff.seekflags = SEEK_CONTINUOUS → p.stream_index = ff.videoStream →
      n + 1 + (k : Int) < MAX_CONT_FRAMES →
      read_frame dm ts ff n (List.replicate (k + 1) p ++ rest) =
        after_calls
          (List.replicate (k + 1)
            [Call.av_read_frame, Call.av_dup_packet, Call.avcodec_decode_video2,
             Call.av_free_packet]).flatten
          (read_frame dm ts { ff with packet := some (av_free_packet p) }
            (n + 1 + (k : Int)) rest) := by
  have hstep : ∀ (ff : ffst) (n : Int) (rest : List AVPacket),
      ff.seekflags = SEEK_CONTINUOUS → p.stream_index = ff.videoStream →
      n + 1 < MAX_CONT_FRAMES →
      read_frame dm ts ff n (p :: rest) =
        after_calls
          [Call.av_read_frame, Call.av_dup_packet, Call.avcodec_decode_video2,
           Call.av_free_packet]
          (read_frame dm ts { ff with packet := some (av_free_packet p) } (n + 1) rest) := by
    intro ff n rest hmode hs hn
    have hro : remember_offset { ff with packet := some p } p (packet_timestamp p) =
        { ff with packet := some p } := by
      unfold remember_offset
      rw [if_neg]
      rintro ⟨h1, -⟩
      rw [show ({ ff with packet := some p } : ffst).seekflags = ff.seekflags from rfl,
        hmode] at h1
      exact absurd h1 (by decide)
    have hct : corrected_timestamp { ff with packet := some p } (packet_timestamp p) =
        packet_timestamp p := by
      unfold corrected_timestamp
      rw [if_neg]
      rw [show ({ ff with packet := some p } : ffst).seekflags = ff.seekflags from rfl, hmode]
      decide
    rw [read_frame_below dm ts ff n p rest (Or.inl hmode) hd hs hpts
      (by rw [hro, hct]; exact hlow), if_pos (Or.inr hn), hro]
  intro k
  induction k with
  | zero =>
    intro ff n rest hmode hs hn
    have h := hstep ff n rest hmode hs (by simpa using hn)
    simpa using h
  | succ k ih =>
    intro ff n rest hmode hs hn
    have hn1 : n + 1 < MAX_CONT_FRAMES := by
      push_cast at hn
      omega
    have h := hstep ff n (List.replicate (k + 1) p ++ rest) hmode hs hn1
    have h2 := ih { ff with packet := some (av_free_packet p) } (n + 1) rest hmode hs (by
      push_cast at hn
      omega)
    rw [List.replicate_succ, List.cons_append, h, h2, after_calls_append]
    have e : n + 1 + 1 + (k : Int) = n + 1 + ((k + 1 : Nat) : Int) := by
      push_cast
      ring
    rw [e]
    simp [List.replicate_succ]

theorem fixture_target_one :
    seek_timestamp fixture_open fixture_media.ctx fixture_stream 1 = 1000 := by
  decide

/-- The dispatch of the fixture for frame 1 after open: no seek. -/
theorem fixture_dispatch_one :
    ¬ (fixture_open.avprev ≥ 1000 ∨
      f64 (f64 (fixture_open.avprev : ℚ) + f64 (32 * fixture_open.tpf)) <
        f64 ((1000 : Int) : ℚ)) := by
  have e : f64 (32 * fixture_open.tpf) = 32000 := by
    norm_num [fixture_open, f64_32000]
  exact dispatch_no_seek 0 1000 (32 * fixture_open.tpf) (by decide) (by decide)
    (by rw [e]; norm_num) (by rw [e]; norm_num)

/-- C8 (as stated) fails.  On the fixture after open, the request for frame 1
(target 1000) does not meet the seek condition, yet with 1000 video packets
below the target in front `my_seek_frame` ends with the rewind of
`reset_video_head`: `av_seek_frame` to 0 and the codec flush.  And the condition
is evaluated in `double`: with `avprev = 2^52` and `tpf = 3/128` the sum
`avprev + 32 * tpf` is below the target `2^52 + 1`, but its `double` value is
not, and the dispatch makes no seek. -/
theorem seek_policy_counterexample :
    (seek_timestamp fixture_open fixture_media.ctx fixture_stream 1 = 1000 ∧
      ¬ (fixture_open.avprev ≥ 1000 ∨
        (fixture_open.avprev : ℚ) + 32 * fixture_open.tpf < ((1000 : Int) : ℚ)) ∧
      my_seek_frame fixture_demux fixture_open
          (List.replicate 999 (video_packet 0) ++ [video_packet 0]) 1 =
        some (0,
          { fixture_open with packet := some (av_free_packet (video_packet 0)), avprev := 0 },
          [video_packet 1000],
          (List.replicate 999
              [Call.av_read_frame, Call.av_dup_packet, Call.avcodec_decode_video2,
               Call.av_free_packet]).flatten
            ++ [Call.av_read_frame, Call.av_dup_packet, Call.avcodec_decode_video2,
                Call.av_free_packet,
                Call.av_seek_frame 0 AVSEEK_FLAG_BACKWARD, Call.avcodec_flush_buffers,
                Call.av_read_frame, Call.avcodec_decode_video2, Call.av_free_packet])) ∧
    (((4503599627370496 : Int) : ℚ) + 32 * (3 / 128) < ((4503599627370497 : Int) : ℚ) ∧
      seek_dispatch fixture_demux
          { fixture_open with avprev := 4503599627370496, tpf := 3 / 128 } []
          4503599627370497 = (1, [], [])) := by
  refine ⟨⟨fixture_target_one, by norm_num [fixture_open], ?_⟩, by norm_num, ?_⟩
  · have heq := my_seek_frame_eq fixture_demux fixture_open
      (List.replicate 999 (video_packet 0) ++ [video_packet 0]) 1 fixture_media.ctx
      fixture_stream rfl rfl (by decide)
    have hd := seek_dispatch_continuous fixture_demux fixture_open
      (List.replicate 999 (video_packet 0) ++ [video_packet 0]) 1000 rfl
    rw [if_neg fixture_dispatch_one] at hd
    rw [fixture_target_one] at heq
    rw [heq, hd]
    simp only [show ¬ ((1 : Int) < 0) by decide, if_false]
    rw [after_calls_nil]
    rw [read_frame_skip_below fixture_demux 1000 (video_packet 0) rfl (by decide) (by decide)
      998 _ 0 [video_packet 0] rfl rfl (by decide)]
    rw [read_frame_below fixture_demux 1000 _ _ (video_packet 0) [] (Or.inl rfl) rfl rfl
      (by decide) (by decide)]
    rw [if_neg (by decide)]
    rfl
  · rw [seek_dispatch_continuous _ _ _ _ rfl, if_neg]
    rintro (h | h)
    · exact absurd h (by decide)
    · have e : f64 (f64 (((4503599627370496 : Int) : ℚ)) + f64 (32 * (3 / 128))) =
          4503599627370497 := by
        norm_num [f64_two_pow_52, f64_three_quarters, f64_two_pow_52_sum]
      have e2 : f64 (((4503599627370497 : Int) : ℚ)) = 4503599627370497 := by
        norm_num [f64_two_pow_52_succ]
      have h' : f64 (f64 (((4503599627370496 : Int) : ℚ)) + f64 (32 * (3 / 128))) <
          f64 (((4503599627370497 : Int) : ℚ)) := h
      rw [e, e2] at h'
      exact absurd h' (lt_irrefl _)

/-- C8 (amended): in SEEK_CONTINUOUS mode, on an open stream, the target `ts`
of a request is the frame index (plus the rounded start offset when
`want_ignstart` is set) rescaled by the stream time base and then by
`r_frame_rate`.  The dispatch of `my_seek_frame` makes the library seek to `ts`
(backward, followed by the codec flush) exactly when `avprev >= ts` or, in
`double` arithmetic, `avprev + 32 * tpf < ts`; in every other case the dispatch
makes no seek and no flush and `my_seek_frame` reads forward from the current
position.  A call that then returns 1 has made no seek and no flush; the only
seek a forward scan can make is the rewind to 0 of `reset_video_head` when the
scan gives up, and the call then returns 0 with `avprev = 0`. -/
theorem continuous_seek_policy (dm : Demux) (ff : ffst) (pending : List AVPacket)
    (frame : Int) (ctx : AVFormatContext) (avs : AVStream)
    (hmode : ff.seekflags = SEEK_CONTINUOUS)
    (hctx : ff.pFormatCtx = some ctx) (hvs : video_stream ff = some avs)
    (hv : 0 ≤ ff.videoStream) :
    seek_timestamp ff ctx avs frame =
      av_rescale_q (av_rescale_q
        (if ff.want_ignstart then
          frame + rint (f64 (ff.framerate * f64 (f64 ctx.start_time / f64 AV_TIME_BASE)))
         else frame) c1_Q avs.time_base) c1_Q avs.r_frame_rate ∧
    ((ff.avprev ≥ seek_timestamp ff ctx avs frame ∨
        f64 (f64 (ff.avprev : ℚ) + f64 (32 * ff.tpf)) <
          f64 (seek_timestamp ff ctx avs frame : ℚ)) →
      my_seek_frame dm ff pending frame =
        match dm.seek (seek_timestamp ff ctx avs frame) AVSEEK_FLAG_BACKWARD with
        | none =>
          some (0, { ff with avprev := seek_timestamp ff ctx avs frame }, pending,
            [Call.av_seek_frame (seek_timestamp ff ctx avs frame) AVSEEK_FLAG_BACKWARD,
             Call.avcodec_flush_buffers])
        | some l =>
          after_calls
            [Call.av_seek_frame (seek_timestamp ff ctx avs frame) AVSEEK_FLAG_BACKWARD,
             Call.avcodec_flush_buffers]
            (read_frame dm (seek_timestamp ff ctx avs frame)
              { ff with avprev := seek_timestamp ff ctx avs frame } 0 l)) ∧
    (¬ (ff.avprev ≥ seek_timestamp ff ctx avs frame ∨
        f64 (f64 (ff.avprev : ℚ) + f64 (32 * ff.tpf)) <
          f64 (seek_timestamp ff ctx avs frame : ℚ)) →
      my_seek_frame dm ff pending frame =
        read_frame dm (seek_timestamp ff ctx avs frame)
          { ff with avprev := seek_timestamp ff ctx avs frame } 0 pending ∧
      ∀ rv ff' rest calls, my_seek_frame dm ff pending frame = some (rv, ff', rest, calls) →
        (rv = 1 →
          Call.avcodec_flush_buffers ∉ calls ∧ ∀ t f, Call.av_seek_frame t f ∉ calls) ∧
        (∀ t f, Call.av_seek_frame t f ∈ calls →
          rv = 0 ∧ t = 0 ∧ f = AVSEEK_FLAG_BACKWARD ∧ ff'.avprev = 0)) := by
  have heq := my_seek_frame_eq dm ff pending frame ctx avs hctx hvs hv
  have hd := seek_dispatch_continuous dm ff pending (seek_timestamp ff ctx avs frame) hmode
  refine ⟨rfl, ?_, ?_⟩
  · intro hcond
    rw [if_pos hcond] at hd
    rw [heq, hd]
    unfold seek_and_flush
    cases dm.seek (seek_timestamp ff ctx avs frame) AVSEEK_FLAG_BACKWARD with
    | none => simp
    | some l => simp
  · intro hcond
    rw [if_neg hcond] at hd
    have h2 : my_seek_frame dm ff pending frame =
        read_frame dm (seek_timestamp ff ctx avs frame)
          { ff with avprev := seek_timestamp ff ctx avs frame } 0 pending := by
      rw [heq, hd]
      simp only [show ¬ ((1 : Int) < 0) by decide, if_false]
      exact after_calls_nil _
    refine ⟨h2, ?_⟩
    intro rv ff' rest calls hres
    rw [h2] at hres
    exact ⟨fun h1 => (read_frame_touch dm _ _ _ _ _ _ _ _ hres).2.2 h1,
      read_frame_seeks dm _ _ _ _ _ _ _ _ hres⟩

theorem continuous_seek_policy_witness :
    seek_timestamp fixture_open fixture_media.ctx fixture_stream 0 =
      av_rescale_q (av_rescale_q
        (if fixture_open.want_ignstart then
          0 + rint (f64 (fixture_open.framerate *
            f64 (f64 fixture_media.ctx.start_time / f64 AV_TIME_BASE)))
         else 0) c1_Q fixture_stream.time_base) c1_Q fixture_stream.r_frame_rate ∧
    ((fixture_open.avprev ≥ seek_timestamp fixture_open fixture_media.ctx fixture_stream 0 ∨
        f64 (f64 (fixture_open.avprev : ℚ) + f64 (32 * fixture_open.tpf)) <
          f64 (seek_timestamp fixture_open fixture_media.ctx fixture_stream 0 : ℚ)) →
      my_seek_frame fixture_demux fixture_open [] 0 =
        match fixture_demux.seek
            (seek_timestamp fixture_open fixture_media.ctx fixture_stream 0)
            AVSEEK_FLAG_BACKWARD with
        | none =>
          some (0, { fixture_open with
              avprev := seek_timestamp fixture_open fixture_media.ctx fixture_stream 0 }, [],
            [Call.av_seek_frame
               (seek_timestamp fixture_open fixture_media.ctx fixture_stream 0)
               AVSEEK_FLAG_BACKWARD,
             Call.avcodec_flush_buffers])
        | some l =>
          after_calls
            [Call.av_seek_frame
               (seek_timestamp fixture_open fixture_media.ctx fixture_stream 0)
               AVSEEK_FLAG_BACKWARD,
             Call.avcodec_flush_buffers]
            (read_frame fixture_demux
              (seek_timestamp fixture_open fixture_media.ctx fixture_stream 0)
              { fixture_open with
                avprev := seek_timestamp fixture_open fixture_media.ctx fixture_stream 0 }
              0 l)) ∧
    (¬ (fixture_open.avprev ≥ seek_timestamp fixture_open fixture_media.ctx fixture_stream 0 ∨
        f64 (f64 (fixture_open.avprev : ℚ) + f64 (32 * fixture_open.tpf)) <
          f64 (seek_timestamp fixture_open fixture_media.ctx fixture_stream 0 : ℚ)) →
      my_seek_frame fixture_demux fixture_open [] 0 =
        read_frame fixture_demux
          (seek_timestamp fixture_open fixture_media.ctx fixture_stream 0)
          { fixture_open with
            avprev := seek_timestamp fixture_open fixture_media.ctx fixture_stream 0 } 0 [] ∧
      ∀ rv ff' rest calls,
        my_seek_frame fixture_demux fixture_open [] 0 = some (rv, ff', rest, calls) →
        (rv = 1 →
          Call.avcodec_flush_buffers ∉ calls ∧ ∀ t f, Call.av_seek_frame t f ∉ calls) ∧
        (∀ t f, Call.av_seek_frame t f ∈ calls →
          rv = 0 ∧ t = 0 ∧ f = AVSEEK_FLAG_BACKWARD ∧ ff'.avprev = 0)) :=
  continuous_seek_policy fixture_demux fixture_open [] 0 fixture_media.ctx fixture_stream
    rfl rfl rfl (by decide)

/-- C10 (as stated) fails: in SEEK_CONTINUOUS mode, with 999 packets of another
stream in front of a single video packet below the target, `my_seek_frame`
gives up at that first finished video frame: it rewinds (seek to 0, flush,
`avprev = 0`) and returns 0.  The packets of the other stream have used up the
budget. -/
theorem scan_budget_counterexample :
    my_seek_frame fixture_demux fixture_open
        (List.replicate 999 audio_packet ++ [video_packet 0]) 1 =
      some (0,
        { fixture_open with packet := some (av_free_packet (video_packet 0)), avprev := 0 },
        [video_packet 1000],
        (List.replicate 999
            [Call.av_read_frame, Call.av_dup_packet, Call.av_free_packet]).flatten
          ++ [Call.av_read_frame, Call.av_dup_packet, Call.avcodec_decode_video2,
              Call.av_free_packet,
              Call.av_seek_frame 0 AVSEEK_FLAG_BACKWARD, Call.avcodec_flush_buffers,
              Call.av_read_frame, Call.avcodec_decode_video2, Call.av_free_packet]) := by
  have heq := my_seek_frame_eq fixture_demux fixture_open
    (List.replicate 999 audio_packet ++ [video_packet 0]) 1 fixture_media.ctx fixture_stream
    rfl rfl (by decide)
  have hd := seek_dispatch_continuous fixture_demux fixture_open
    (List.replicate 999 audio_packet ++ [video_packet 0]) 1000 rfl
  have hno : ¬ (fixture_open.avprev ≥ 1000 ∨
      f64 (f64 (fixture_open.avprev : ℚ) + f64 (32 * fixture_open.tpf)) <
        f64 ((1000 : Int) : ℚ)) := fixture_dispatch_one
  rw [if_neg hno] at hd
  rw [fixture_target_one] at heq
  rw [heq, hd]
  simp only [show ¬ ((1 : Int) < 0) by decide, if_false]
  rw [after_calls_nil]
  rw [read_frame_skip fixture_demux 1000 audio_packet rfl rfl 998 _ 0 [video_packet 0]
    (by decide)]
  rw [read_frame_below fixture_demux 1000 _ _ (video_packet 0) [] (Or.inl rfl) rfl rfl
    (by decide) (by decide)]
  rw [if_neg (by decide)]
  rfl

/-- C10 (amended): in SEEK_CONTINUOUS / SEEK_LIVESTREAM mode `nolivelock` counts
every packet the scan reads, video or not; a packet of another stream is
discarded without the budget being looked at, but it is counted.  The budget is
looked at only after a video packet below the target has produced a finished
frame: with fewer than `MAX_CONT_FRAMES = 1000` packets read so far the scan
goes on, otherwise the decoder performs the full reset (seek to 0, flush,
`avprev = 0`) and `my_seek_frame` returns 0; the reset returns whenever the
rewound stream delivers a video packet that completes a frame. -/
theorem scan_budget (dm : Demux) (ts : Int) (ff : ffst) (n : Int) (p : AVPacket)
    (rest : List AVPacket)
    (hmode : ff.seekflags = SEEK_CONTINUOUS ∨ ff.seekflags = SEEK_LIVESTREAM)
    (hd : p.dup_ok = true) :
    (p.stream_index ≠ ff.videoStream →
      read_frame dm ts ff n (p :: rest) =
        after_calls
          ([Call.av_read_frame, Call.av_dup_packet]
            ++ (if p.has_data then [Call.av_free_packet] else []))
          (read_frame dm ts
            { ff with packet := some (if p.has_data then av_free_packet p else p) }
            (n + 1) rest)) ∧
    (p.stream_index = ff.videoStream → packet_timestamp p ≠ AV_NOPTS_VALUE →
      corrected_timestamp (remember_offset { ff with packet := some p } p
        (packet_timestamp p)) (packet_timestamp p) < ts →
      p.decodes = true →
      (n + 1 < MAX_CONT_FRAMES →
        read_frame dm ts ff n (p :: rest) =
          after_calls
            [Call.av_read_frame, Call.av_dup_packet, Call.avcodec_decode_video2,
             Call.av_free_packet]
            (read_frame dm ts
              { remember_offset { ff with packet := some p } p (packet_timestamp p) with
                packet := some (av_free_packet p) }
              (n + 1) rest)) ∧
      (MAX_CONT_FRAMES ≤ n + 1 →
        (∀ rv ff' rest' calls,
          read_frame dm ts ff n (p :: rest) = some (rv, ff', rest', calls) →
          rv = 0 ∧ ff'.avprev = 0 ∧
            Call.av_seek_frame 0 AVSEEK_FLAG_BACKWARD ∈ calls ∧
            Call.avcodec_flush_buffers ∈ calls) ∧
        ((∃ q ∈ (seek_and_flush dm rest 0 AVSEEK_FLAG_BACKWARD).2.1,
            q.stream_index = ff.videoStream ∧ q.decodes = true) →
          ∃ ff' rest' calls,
            read_frame dm ts ff n (p :: rest) = some (0, ff', rest', calls)))) := by
  refine ⟨fun hs => read_frame_nonvideo dm ts ff n p rest hd hs, ?_⟩
  intro hs hpts hlow hdec
  have hb := read_frame_below dm ts ff n p rest hmode hd hs hpts hlow
  obtain ⟨off, ho⟩ := remember_offset_touch { ff with packet := some p } p (packet_timestamp p)
  constructor
  · intro hn
    rw [hb, if_pos (Or.inr hn)]
  · intro hn
    have hcond : ¬ (p.decodes = false ∨ n + 1 < MAX_CONT_FRAMES) := by
      rintro (h | h)
      · rw [hdec] at h; cases h
      · omega
    rw [if_neg hcond] at hb
    have hvs : ({ remember_offset { ff with packet := some p } p (packet_timestamp p) with
        packet := some (av_free_packet p) } : ffst).videoStream = ff.videoStream := by
      show (remember_offset { ff with packet := some p } p (packet_timestamp p)).videoStream = _
      rw [ho]
      rfl
    constructor
    · intro rv ff' rest' calls hres
      rw [hb] at hres
      obtain ⟨calls1, hrec, hcalls⟩ := after_calls_eq_some _ _ _ _ _ _ hres
      cases hreset : reset_video_head dm
          { remember_offset { ff with packet := some p } p (packet_timestamp p) with
            packet := some (av_free_packet p) } rest with
      | none => rw [hreset] at hrec; cases hrec
      | some r =>
        obtain ⟨ff1, rest1, calls2⟩ := r
        rw [hreset] at hrec
        cases hrec
        subst hcalls
        unfold reset_video_head at hreset
        simp only [] at hreset
        split at hreset
        · cases hreset
        · cases hreset
          refine ⟨rfl, rfl, ?_, ?_⟩
          · unfold seek_and_flush
            cases dm.seek 0 AVSEEK_FLAG_BACKWARD <;> simp
          · unfold seek_and_flush
            cases dm.seek 0 AVSEEK_FLAG_BACKWARD <;> simp
    · intro hex
      rw [← hvs] at hex
      obtain ⟨ff1, rest1, calls1, hr, -⟩ := reset_video_head_returns dm _ rest hex
      rw [hb, hr]
      exact ⟨_, _, _, rfl⟩

theorem scan_budget_witness :
    (video_packet 0).stream_index = fixture_open.videoStream ∧
    ∃ ff' rest' calls,
      read_frame fixture_demux 1000 fixture_open 999 (video_packet 0 :: []) =
        some (0, ff', rest', calls) :=
  ⟨rfl, ((scan_budget fixture_demux 1000 fixture_open 999 (video_packet 0) []
    (Or.inl rfl) rfl).2 rfl (by decide) (by decide) rfl).2 (by decide) |>.2
      ⟨video_packet 0, by simp [seek_and_flush, fixture_demux], rfl, rfl⟩⟩

theorem f64_50 : f64 50 = 50 := by
  have h := f64_intCast 50 (by norm_num)
  norm_num at h
  exact h

theorem f64_tb_25 : f64 (1 / 25) = (5764607523034235 / 144115188075855872) := by
  unfold f64
  rw [fround_eq 53 (-1022) (-5) (-57) 5764607523034235 _ (by norm_num) (by norm_num)
    (by norm_num [abs_of_pos]) (by norm_num [abs_of_pos]) (by norm_num) (by norm_num)]
  norm_num

theorem f64_tb_25_x50 : f64 (144115188075855875 / 72057594037927936) = 2 := by
  unfold f64
  rw [fround_eq 53 (-1022) (1) (-51) 4503599627370496 _ (by norm_num) (by norm_num)
    (by norm_num [abs_of_pos]) (by norm_num [abs_of_pos]) (by norm_num) (by norm_num)]
  norm_num

theorem f64_tpf_interlaced : f64 (1 / 2) = (1 / 2) := by
  unfold f64
  rw [fround_eq 53 (-1022) (-1) (-53) 4503599627370496 _ (by norm_num) (by norm_num)
    (by norm_num [abs_of_pos]) (by norm_num [abs_of_pos]) (by norm_num) (by norm_num)]
  norm_num

theorem f64_250 : f64 250 = 250 := by
  have h := f64_intCast 250 (by norm_num)
  norm_num at h
  exact h

theorem f64_duration_interlaced : f64 (720575940379279375 / 72057594037927936) = 10 := by
  unfold f64
  rw [fround_eq 53 (-1022) (3) (-49) 5629499534213120 _ (by norm_num) (by norm_num)
    (by norm_num [abs_of_pos]) (by norm_num [abs_of_pos]) (by norm_num) (by norm_num)]
  norm_num

theorem f64_120 : f64 120 = 120 := by
  have h := f64_intCast 120 (by norm_num)
  norm_num at h
  exact h

theorem f64_tb_90000 : f64 (1 / 90000) = (819855292164869 / 73786976294838206464) := by
  unfold f64
  rw [fround_eq 53 (-1022) (-17) (-69) 6558842337318952 _ (by norm_num) (by norm_num)
    (by norm_num [abs_of_pos]) (by norm_num [abs_of_pos]) (by norm_num) (by norm_num)]
  norm_num

theorem f64_rate_highspeed : f64 (73786976294838206464 / 819855292164869) = 90000 := by
  unfold f64
  rw [fround_eq 53 (-1022) (16) (-36) 6184752906240000 _ (by norm_num) (by norm_num)
    (by norm_num [abs_of_pos]) (by norm_num [abs_of_pos]) (by norm_num) (by norm_num)]
  norm_num

theorem f64_tb_90000_x90000 : f64 (4611686018427388125 / 4611686018427387904) = 1 := by
  unfold f64
  rw [fround_eq 53 (-1022) (0) (-52) 4503599627370496 _ (by norm_num) (by norm_num)
    (by norm_num [abs_of_pos]) (by norm_num [abs_of_pos]) (by norm_num) (by norm_num)]
  norm_num

theorem f64_900000 : f64 900000 = 900000 := by
  have h := f64_intCast 900000 (by norm_num)
  norm_num at h
  exact h

theorem f64_duration_highspeed : f64 (23058430092136940625 / 2305843009213693952) = 10 := by
  unfold f64
  rw [fround_eq 53 (-1022) (3) (-49) 5629499534213120 _ (by norm_num) (by norm_num)
    (by norm_num [abs_of_pos]) (by norm_num [abs_of_pos]) (by norm_num) (by norm_num)]
  norm_num

theorem f64_150000 : f64 150000 = 150000 := by
  have h := f64_intCast 150000 (by norm_num)
  norm_num at h
  exact h

theorem f64_16 : f64 16 = 16 := by
  have h := f64_intCast 16 (by norm_num)
  norm_num at h
  exact h

theorem f64_32 : f64 32 = 32 := by
  have h := f64_intCast 32 (by norm_num)
  norm_num at h
  exact h

theorem f64_750 : f64 750 = 750 := by
  have h := f64_intCast 750 (by norm_num)
  norm_num at h
  exact h

/-! ### Consecutive frames -/

theorem interlaced_open_eq :
    (ff_open_movie interlaced_lib (ff_create 2) ['a'] 2).map (fun r => (r.1, r.2.1)) =
      some (0, interlaced_open) := by
  have hrate : av_q2d interlaced_stream.r_frame_rate = 50 := by
    norm_num [av_q2d, interlaced_stream, f64_50]
  have htb : av_q2d interlaced_stream.time_base = 5764607523034235 / 144115188075855872 := by
    norm_num [av_q2d, interlaced_stream, f64_tb_25]
  rw [show interlaced_lib = { fixture_lib with media := fun _ => interlaced_media } from rfl,
    open_fresh_eq (fun _ => interlaced_media) interlaced_media.ctx interlaced_stream []
      ['a'] 2 50 2 (1 / 2) 10 0 250 480 rfl rfl rfl
      (by rw [if_pos (by decide), hrate, if_neg (by norm_num)])
      (by decide)
      (by rw [htb]; norm_num [f64_tb_25_x50])
      (by norm_num)
      (by norm_num [f64_tpf_interlaced])
      (by rw [htb]; norm_num [interlaced_stream, f64_250, f64_duration_interlaced])
      (offset_zero 50)
      (by rw [if_pos (by decide)]; rfl)
      (by
        show floorf_div 640 (ff_get_aspectratio fixture_stream.codec) = some 480
        rw [aspect_fixture]
        exact height_fixture)
      (by decide)]
  rfl

theorem highspeed_open_eq :
    (ff_open_movie highspeed_lib (ff_create 2) ['a'] 2).map (fun r => (r.1, r.2.1)) =
      some (0, highspeed_open) := by
  have hrate : av_q2d highspeed_stream.r_frame_rate = 120 := by
    norm_num [av_q2d, highspeed_stream, f64_120]
  have htb : av_q2d highspeed_stream.time_base = 819855292164869 / 73786976294838206464 := by
    norm_num [av_q2d, highspeed_stream, f64_tb_90000]
  rw [show highspeed_lib = { fixture_lib with media := fun _ => highspeed_media } from rfl,
    open_fresh_eq (fun _ => highspeed_media) highspeed_media.ctx highspeed_stream []
      ['a'] 2 90000 1 1 10 0 1200 480 rfl rfl rfl
      (by
        rw [if_pos (by decide), hrate, if_pos ⟨Or.inr (by norm_num), by decide⟩, htb]
        norm_num [f64_rate_highspeed])
      (by decide)
      (by rw [htb]; norm_num [f64_tb_90000_x90000])
      (by norm_num)
      (by norm_num [f64_1])
      (by rw [htb]; norm_num [highspeed_stream, f64_900000, f64_duration_highspeed])
      (offset_zero 90000)
      (by rw [if_pos (by decide)]; rfl)
      (by
        show floorf_div 640 (ff_get_aspectratio fixture_stream.codec) = some 480
        rw [aspect_fixture]
        exact height_fixture)
      (by decide)]
  rfl

theorem render_loop_noseek (dm : Demux) :
    ∀ (pending : List AVPacket) (ff : ffst) (p : AVPacket) (ff' : ffst)
      (rest : List AVPacket) (calls : List Call),
      render_loop dm ff p pending = some (true, ff', rest, calls) →
      ∀ t f, Call.av_seek_frame t f ∉ calls := by
  intro pending
  induction pending with
  | nil =>
    intro ff p ff' rest calls h
    unfold render_loop at h
    by_cases h1 : p.stream_index = ff.videoStream ∧ p.decodes = true
    · rw [if_pos h1] at h
      cases h
      intro t f
      simp
    · rw [if_neg h1] at h
      simp only [] at h
      obtain ⟨calls1, hrec, -⟩ := after_calls_eq_some _ _ _ _ _ _ h
      cases hres : reset_video_head dm
          { ff with packet := some (if p.has_data then av_free_packet p else p) } [] with
      | none => rw [hres] at hrec; cases hrec
      | some r =>
        rw [hres] at hrec
        cases hrec
  | cons q tl ih =>
    intro ff p ff' rest calls h
    unfold render_loop at h
    by_cases h1 : p.stream_index = ff.videoStream ∧ p.decodes = true
    · rw [if_pos h1] at h
      cases h
      intro t f
      simp
    · rw [if_neg h1] at h
      simp only [] at h
      by_cases h2 : q.dup_ok = false
      · rw [if_pos h2] at h
        cases h
      · rw [if_neg h2] at h
        obtain ⟨calls1, hrec, hc⟩ := after_calls_eq_some _ _ _ _ _ _ h
        have hi := ih _ _ _ _ _ hrec
        intro t f
        rw [hc]
        have := hi t f
        by_cases ha : p.stream_index = ff.videoStream <;> by_cases hb : p.has_data = true <;>
          simp [ha, hb, this]

theorem fixture_render_150 :
    ff_render fixture_demux fixture_open [] 150 =
      some (0, { fixture_open with
                   avprev := 150000, pSWSCtx := Ptr.block 4,
                   packet := some (av_free_packet (video_packet 150000)) },
        [video_packet 151000],
        [Call.av_seek_frame 150000 AVSEEK_FLAG_BACKWARD, Call.avcodec_flush_buffers,
         Call.av_read_frame, Call.av_dup_packet, Call.avcodec_decode_video2, Call.sws_scale,
         Call.av_free_packet]) := by
  have hts : seek_timestamp fixture_open fixture_media.ctx fixture_stream 150 = 150000 := by
    decide
  have heq := my_seek_frame_eq fixture_demux fixture_open [] 150
    fixture_media.ctx fixture_stream rfl rfl (by decide)
  have hd := seek_dispatch_continuous fixture_demux fixture_open [] 150000 rfl
  have hyes : fixture_open.avprev ≥ 150000 ∨
      f64 (f64 (fixture_open.avprev : ℚ) + f64 (32 * fixture_open.tpf)) <
        f64 ((150000 : Int) : ℚ) := by
    right
    norm_num [fixture_open, f64_0, f64_32000, f64_150000]
  rw [if_pos hyes] at hd
  rw [hts, hd] at heq
  have hsf : seek_and_flush fixture_demux [] 150000 AVSEEK_FLAG_BACKWARD =
      (0, [video_packet 150000, video_packet 151000],
        [Call.av_seek_frame 150000 AVSEEK_FLAG_BACKWARD, Call.avcodec_flush_buffers]) := rfl
  rw [hsf] at heq
  simp only [show ¬ ((0 : Int) < 0) by decide, if_false] at heq
  have hrf : read_frame fixture_demux 150000 { fixture_open with avprev := 150000 } 0
      [video_packet 150000, video_packet 151000]
      = some (1, { fixture_open with avprev := 150000, packet := some (video_packet 150000) },
          [video_packet 151000], [Call.av_read_frame, Call.av_dup_packet]) := by rfl
  rw [hrf] at heq
  have heq2 : my_seek_frame fixture_demux fixture_open [] ((150 : Nat) : Int) = _ := heq
  unfold ff_render
  rw [if_pos (by decide), heq2]
  rfl

theorem interlaced_render_1 :
    ff_render fixture_demux interlaced_open [video_packet 1] 1 =
      some (0, { interlaced_open with
                   avprev := 1, pSWSCtx := Ptr.block 4,
                   packet := some (av_free_packet (video_packet 1)) }, [],
        [Call.av_read_frame, Call.av_dup_packet, Call.avcodec_decode_video2, Call.sws_scale,
         Call.av_free_packet]) := by
  have hts : seek_timestamp interlaced_open interlaced_media.ctx interlaced_stream 1 = 1 := by
    decide
  have heq := my_seek_frame_eq fixture_demux interlaced_open [video_packet 1] 1
    interlaced_media.ctx interlaced_stream rfl rfl (by decide)
  have hd := seek_dispatch_continuous fixture_demux interlaced_open [video_packet 1] 1 rfl
  have hno : ¬ (interlaced_open.avprev ≥ 1 ∨
      f64 (f64 (interlaced_open.avprev : ℚ) + f64 (32 * interlaced_open.tpf)) <
        f64 ((1 : Int) : ℚ)) := by
    have e : f64 (32 * interlaced_open.tpf) = 16 := by
      norm_num [interlaced_open, f64_16]
    exact dispatch_no_seek 0 1 (32 * interlaced_open.tpf) (by decide) (by decide)
      (by rw [e]; norm_num) (by rw [e]; norm_num)
  rw [if_neg hno] at hd
  rw [hts, hd] at heq
  simp only [show ¬ ((1 : Int) < 0) by decide, if_false, after_calls_nil] at heq
  have hrf : read_frame fixture_demux 1 { interlaced_open with avprev := 1 } 0 [video_packet 1]
      = some (1, { interlaced_open with avprev := 1, packet := some (video_packet 1) }, [],
          [Call.av_read_frame, Call.av_dup_packet]) := by rfl
  rw [hrf] at heq
  have heq2 : my_seek_frame fixture_demux interlaced_open [video_packet 1] ((1 : Nat) : Int) = _ := heq
  unfold ff_render
  rw [if_pos (by decide), heq2]
  rfl

theorem interlaced_seek_2 :
    my_seek_frame fixture_demux
        { interlaced_open with
          avprev := 1, pSWSCtx := Ptr.block 4,
          packet := some (av_free_packet (video_packet 1)) } [] 2 =
      some (1, { interlaced_open with
                   avprev := 1, pSWSCtx := Ptr.block 4, packet := some (video_packet 1) },
        [video_packet 1001],
        [Call.av_seek_frame 1 AVSEEK_FLAG_BACKWARD, Call.avcodec_flush_buffers,
         Call.av_read_frame, Call.av_dup_packet]) := by
  have hts : seek_timestamp
      { interlaced_open with
        avprev := 1, pSWSCtx := Ptr.block 4,
        packet := some (av_free_packet (video_packet 1)) }
      interlaced_media.ctx interlaced_stream 2 = 1 := by
    decide
  have heq := my_seek_frame_eq fixture_demux
    { interlaced_open with
      avprev := 1, pSWSCtx := Ptr.block 4,
      packet := some (av_free_packet (video_packet 1)) } [] 2
    interlaced_media.ctx interlaced_stream rfl rfl (by decide)
  have hd := seek_dispatch_continuous fixture_demux
    { interlaced_open with
      avprev := 1, pSWSCtx := Ptr.block 4,
      packet := some (av_free_packet (video_packet 1)) } [] 1 rfl
  rw [if_pos (Or.inl (by decide))] at hd
  rw [hts, hd] at heq
  rw [heq]
  rfl

theorem highspeed_render_0 :
    ff_render fixture_demux highspeed_open [] 0 =
      some (0, { highspeed_open with
                   avprev := 0, pSWSCtx := Ptr.block 4,
                   packet := some (av_free_packet (video_packet 0)) },
        [video_packet 1000],
        [Call.av_seek_frame 0 AVSEEK_FLAG_BACKWARD, Call.avcodec_flush_buffers,
         Call.av_read_frame, Call.av_dup_packet, Call.avcodec_decode_video2, Call.sws_scale,
         Call.av_free_packet]) := by
  have hts : seek_timestamp highspeed_open highspeed_media.ctx highspeed_stream 0 = 0 := by
    decide
  have heq := my_seek_frame_eq fixture_demux highspeed_open [] 0
    highspeed_media.ctx highspeed_stream rfl rfl (by decide)
  have hd := seek_dispatch_continuous fixture_demux highspeed_open [] 0 rfl
  rw [if_pos (Or.inl (by decide))] at hd
  rw [hts, hd] at heq
  have heq2 : my_seek_frame fixture_demux highspeed_open [] ((0 : Nat) : Int) = _ := heq
  unfold ff_render
  rw [if_pos (by decide), heq2]
  rfl

theorem highspeed_seek_1 :
    my_seek_frame fixture_demux
        { highspeed_open with
          avprev := 0, pSWSCtx := Ptr.block 4,
          packet := some (av_free_packet (video_packet 0)) } [video_packet 1000] 1 =
      some (1, { highspeed_open with
                   avprev := 750, pSWSCtx := Ptr.block 4, packet := some (video_packet 750) },
        [video_packet 1750],
        [Call.av_seek_frame 750 AVSEEK_FLAG_BACKWARD, Call.avcodec_flush_buffers,
         Call.av_read_frame, Call.av_dup_packet]) := by
  have hts : seek_timestamp
      { highspeed_open with
        avprev := 0, pSWSCtx := Ptr.block 4,
        packet := some (av_free_packet (video_packet 0)) }
      highspeed_media.ctx highspeed_stream 1 = 750 := by
    decide
  have heq := my_seek_frame_eq fixture_demux
    { highspeed_open with
      avprev := 0, pSWSCtx := Ptr.block 4,
      packet := some (av_free_packet (video_packet 0)) } [video_packet 1000] 1
    highspeed_media.ctx highspeed_stream rfl rfl (by decide)
  have hd := seek_dispatch_continuous fixture_demux
    { highspeed_open with
      avprev := 0, pSWSCtx := Ptr.block 4,
      packet := some (av_free_packet (video_packet 0)) } [video_packet 1000] 750 rfl
  have hyes : ({ highspeed_open with
        avprev := 0, pSWSCtx := Ptr.block 4,
        packet := some (av_free_packet (video_packet 0)) } : ffst).avprev ≥ 750 ∨
      f64 (f64 ((({ highspeed_open with
        avprev := 0, pSWSCtx := Ptr.block 4,
        packet := some (av_free_packet (video_packet 0)) } : ffst).avprev : Int) : ℚ)
        + f64 (32 * ({ highspeed_open with
        avprev := 0, pSWSCtx := Ptr.block 4,
        packet := some (av_free_packet (video_packet 0)) } : ffst).tpf)) <
          f64 ((750 : Int) : ℚ) := by
    right
    norm_num [highspeed_open, fixture_open, f64_0, f64_32, f64_750]
  rw [if_pos hyes] at hd
  rw [hts, hd] at heq
  rw [heq]
  rfl

/-- The fixture after frame 150 was rendered. -/
theorem fixture_dispatch_151 :
    ¬ ((150000 : Int) ≥ 151000 ∨
      f64 (f64 ((150000 : Int) : ℚ) + f64 (32 * fixture_open.tpf)) <
        f64 ((151000 : Int) : ℚ)) := by
  have e : f64 (32 * fixture_open.tpf) = 32000 := by
    norm_num [fixture_open, f64_32000]
  exact dispatch_no_seek 150000 151000 (32 * fixture_open.tpf) (by decide) (by decide)
    (by rw [e]; norm_num) (by rw [e]; norm_num)

theorem fixture_render_151 :
    ff_render fixture_demux
        { fixture_open with
          avprev := 150000, pSWSCtx := Ptr.block 4,
          packet := some (av_free_packet (video_packet 150000)) }
        [video_packet 151000] 151 =
      some (0, { fixture_open with
                   avprev := 151000, pSWSCtx := Ptr.block 4,
                   packet := some (av_free_packet (video_packet 151000)) }, [],
        [Call.av_read_frame, Call.av_dup_packet, Call.avcodec_decode_video2, Call.sws_scale,
         Call.av_free_packet]) := by
  have hts : seek_timestamp
      { fixture_open with
        avprev := 150000, pSWSCtx := Ptr.block 4,
        packet := some (av_free_packet (video_packet 150000)) }
      fixture_media.ctx fixture_stream 151 = 151000 := by
    decide
  have heq := my_seek_frame_eq fixture_demux
    { fixture_open with
      avprev := 150000, pSWSCtx := Ptr.block 4,
      packet := some (av_free_packet (video_packet 150000)) }
    [video_packet 151000] 151 fixture_media.ctx fixture_stream rfl rfl (by decide)
  have hd := seek_dispatch_continuous fixture_demux
    { fixture_open with
      avprev := 150000, pSWSCtx := Ptr.block 4,
      packet := some (av_free_packet (video_packet 150000)) }
    [video_packet 151000] 151000 rfl
  rw [if_neg (by exact fixture_dispatch_151)] at hd
  rw [hts, hd] at heq
  simp only [show ¬ ((1 : Int) < 0) by decide, if_false, after_calls_nil] at heq
  have hrf : read_frame fixture_demux 151000
      { ({ fixture_open with
           avprev := 150000, pSWSCtx := Ptr.block 4,
           packet := some (av_free_packet (video_packet 150000)) } : ffst) with
        avprev := 151000 } 0 [video_packet 151000]
      = some (1, { fixture_open with
                     avprev := 151000, pSWSCtx := Ptr.block 4,
                     packet := some (video_packet 151000) }, [],
          [Call.av_read_frame, Call.av_dup_packet]) := by rfl
  rw [hrf] at heq
  have heq2 : my_seek_frame fixture_demux
      { fixture_open with
        avprev := 150000, pSWSCtx := Ptr.block 4,
        packet := some (av_free_packet (video_packet 150000)) }
      [video_packet 151000] ((151 : Nat) : Int) = _ := heq
  unfold ff_render
  rw [if_pos (by decide), heq2]
  rfl

/-- C9 (amended): in SEEK_CONTINUOUS mode, on an open stream, a request for
frame `f` that rendered a frame (`ff_render` returned 0) leaves `avprev` at the
rescaled target `ts f`.  The request for frame `f + 1` that follows triggers the
seek of the dispatch of `my_seek_frame` exactly when `ts (f + 1) <= ts f` or, in
`double` arithmetic, `ts f + 32 * tpf < ts (f + 1)`.  Otherwise the second call
of `my_seek_frame` is the packet scan alone, it has made no `av_seek_frame` call
when it returns 1, and a second `ff_render` that returns 0 has made no
`av_seek_frame` call.  There is no seek in particular when the target advances
by no more than the `double` value of `32 * tpf`:
`0 <= ts f < ts (f + 1) <= ts f + 32 * tpf < 2 ^ 53`. -/
theorem consecutive_frames_no_seek (dm : Demux) (ff ff1 : ffst)
    (pending pend1 : List AVPacket) (calls1 : List Call) (f : Nat)
    (ctx : AVFormatContext) (avs : AVStream)
    (hmode : ff.seekflags = SEEK_CONTINUOUS)
    (hctx : ff.pFormatCtx = some ctx) (hvs : video_stream ff = some avs)
    (hv : 0 ≤ ff.videoStream)
    (hreq : ff_render dm ff pending f = some (0, ff1, pend1, calls1)) :
    ff1.avprev = seek_timestamp ff ctx avs (f : Int) ∧
    ff1.tpf = ff.tpf ∧
    seek_timestamp ff1 ctx avs ((f + 1 : Nat) : Int) =
      seek_timestamp ff ctx avs ((f + 1 : Nat) : Int) ∧
    ((seek_timestamp ff ctx avs (f : Int) ≥ seek_timestamp ff ctx avs ((f + 1 : Nat) : Int) ∨
        f64 (f64 (seek_timestamp ff ctx avs (f : Int) : ℚ) + f64 (32 * ff.tpf)) <
          f64 (seek_timestamp ff ctx avs ((f + 1 : Nat) : Int) : ℚ)) →
      seek_dispatch dm ff1 pend1 (seek_timestamp ff ctx avs ((f + 1 : Nat) : Int)) =
        seek_and_flush dm pend1 (seek_timestamp ff ctx avs ((f + 1 : Nat) : Int))
          AVSEEK_FLAG_BACKWARD ∧
      ∀ rv ff2 pend2 calls2,
        my_seek_frame dm ff1 pend1 ((f + 1 : Nat) : Int) = some (rv, ff2, pend2, calls2) →
        Call.av_seek_frame (seek_timestamp ff ctx avs ((f + 1 : Nat) : Int))
          AVSEEK_FLAG_BACKWARD ∈ calls2) ∧
    (¬ (seek_timestamp ff ctx avs (f : Int) ≥ seek_timestamp ff ctx avs ((f + 1 : Nat) : Int) ∨
        f64 (f64 (seek_timestamp ff ctx avs (f : Int) : ℚ) + f64 (32 * ff.tpf)) <
          f64 (seek_timestamp ff ctx avs ((f + 1 : Nat) : Int) : ℚ)) →
      seek_dispatch dm ff1 pend1 (seek_timestamp ff ctx avs ((f + 1 : Nat) : Int)) =
        (1, pend1, []) ∧
      my_seek_frame dm ff1 pend1 ((f + 1 : Nat) : Int) =
        read_frame dm (seek_timestamp ff ctx avs ((f + 1 : Nat) : Int))
          { ff1 with avprev := seek_timestamp ff ctx avs ((f + 1 : Nat) : Int) } 0 pend1 ∧
      (∀ ff2 pend2 calls2,
        my_seek_frame dm ff1 pend1 ((f + 1 : Nat) : Int) = some (1, ff2, pend2, calls2) →
        ∀ t fl, Call.av_seek_frame t fl ∉ calls2) ∧
      (∀ ff2 pend2 calls2,
        ff_render dm ff1 pend1 (f + 1) = some (0, ff2, pend2, calls2) →
        ∀ t fl, Call.av_seek_frame t fl ∉ calls2)) ∧
    (0 ≤ seek_timestamp ff ctx avs (f : Int) →
      seek_timestamp ff ctx avs (f : Int) < seek_timestamp ff ctx avs ((f + 1 : Nat) : Int) →
      (seek_timestamp ff ctx avs ((f + 1 : Nat) : Int) : ℚ) ≤
        (seek_timestamp ff ctx avs (f : Int) : ℚ) + f64 (32 * ff.tpf) →
      (seek_timestamp ff ctx avs (f : Int) : ℚ) + f64 (32 * ff.tpf) < 2 ^ 53 →
      ¬ (seek_timestamp ff ctx avs (f : Int) ≥ seek_timestamp ff ctx avs ((f + 1 : Nat) : Int) ∨
        f64 (f64 (seek_timestamp ff ctx avs (f : Int) : ℚ) + f64 (32 * ff.tpf)) <
          f64 (seek_timestamp ff ctx avs ((f + 1 : Nat) : Int) : ℚ))) := by
  obtain ⟨pk, av, off, sws, he, hav⟩ :=
    ff_render_touch dm ff ff1 pending pend1 f 0 calls1 ctx avs hctx hvs hv hreq
  have hav := hav rfl
  subst he
  subst hav
  have hmode1 : (touched ff pk (seek_timestamp ff ctx avs (f : Int)) off sws).seekflags =
      SEEK_CONTINUOUS := hmode
  have hctx1 : (touched ff pk (seek_timestamp ff ctx avs (f : Int)) off sws).pFormatCtx =
      some ctx := hctx
  have hvs1 : video_stream (touched ff pk (seek_timestamp ff ctx avs (f : Int)) off sws) =
      some avs := hvs
  have hv1 : 0 ≤ (touched ff pk (seek_timestamp ff ctx avs (f : Int)) off sws).videoStream := hv
  have hts : ∀ t, seek_timestamp (touched ff pk (seek_timestamp ff ctx avs (f : Int)) off sws)
      ctx avs t = seek_timestamp ff ctx avs t := fun _ => rfl
  have hd := seek_dispatch_continuous dm
    (touched ff pk (seek_timestamp ff ctx avs (f : Int)) off sws) pend1
    (seek_timestamp ff ctx avs ((f + 1 : Nat) : Int)) hmode1
  have heq := my_seek_frame_eq dm (touched ff pk (seek_timestamp ff ctx avs (f : Int)) off sws)
    pend1 ((f + 1 : Nat) : Int) ctx avs hctx1 hvs1 hv1
  rw [hts] at heq
  refine ⟨rfl, rfl, rfl, ?_, ?_, ?_⟩
  · intro hcond
    have hd2 := hd
    rw [if_pos (by exact hcond)] at hd2
    refine ⟨hd2, ?_⟩
    intro rv ff2 pend2 calls2 hres
    rw [heq, hd2] at hres
    have hc := seek_and_flush_calls dm pend1
      (seek_timestamp ff ctx avs ((f + 1 : Nat) : Int)) AVSEEK_FLAG_BACKWARD
    by_cases hneg : (seek_and_flush dm pend1
        (seek_timestamp ff ctx avs ((f + 1 : Nat) : Int)) AVSEEK_FLAG_BACKWARD).1 < 0
    · rw [if_pos hneg] at hres
      simp only [Option.some.injEq, Prod.mk.injEq] at hres
      rw [← hres.2.2.2, hc]
      simp
    · rw [if_neg hneg] at hres
      obtain ⟨c3, -, hc3⟩ := after_calls_eq_some _ _ _ _ _ _ hres
      rw [hc3, hc]
      simp
  · intro hcond
    have hd2 := hd
    rw [if_neg (by exact hcond)] at hd2
    rw [hd2] at heq
    simp only [show ¬ ((1 : Int) < 0) by decide, if_false, after_calls_nil] at heq
    have hfound : ∀ ff2 pend2 calls2,
        my_seek_frame dm (touched ff pk (seek_timestamp ff ctx avs (f : Int)) off sws) pend1
          ((f + 1 : Nat) : Int) = some (1, ff2, pend2, calls2) →
        ∀ t fl, Call.av_seek_frame t fl ∉ calls2 := by
      intro ff2 pend2 calls2 hres
      rw [heq] at hres
      exact ((read_frame_touch dm _ _ _ _ _ _ _ _ hres).2.2 rfl).2
    refine ⟨hd2, heq, hfound, ?_⟩
    intro ff2 pend2 calls2 hres
    unfold ff_render at hres
    by_cases h0 : (touched ff pk (seek_timestamp ff ctx avs (f : Int)) off sws).pFrameFMT ≠
        Ptr.null ∧
        (touched ff pk (seek_timestamp ff ctx avs (f : Int)) off sws).pFormatCtx ≠ none
    · rw [if_pos h0] at hres
      cases hm : my_seek_frame dm (touched ff pk (seek_timestamp ff ctx avs (f : Int)) off sws)
          pend1 ((f + 1 : Nat) : Int) with
      | none => rw [hm] at hres; cases hres
      | some r =>
        obtain ⟨rv1, ff3, pend3, calls3⟩ := r
        rw [hm] at hres
        simp only [] at hres
        by_cases h1 : rv1 ≠ 0
        · rw [if_pos h1] at hres
          have hrv1 : rv1 = 1 := by
            have hm2 := hm
            rw [heq] at hm2
            rcases (read_frame_touch dm _ _ _ _ _ _ _ _ hm2).2.1 with h2 | h2
            · exact absurd h2 h1
            · exact h2
          subst hrv1
          have hs3 := hfound ff3 pend3 calls3 hm
          cases hp : ff3.packet with
          | none => rw [hp] at hres; cases hres
          | some p =>
            rw [hp] at hres
            simp only [] at hres
            cases hl : after_calls calls3 (render_loop dm ff3 p pend3) with
            | none => rw [hl] at hres; cases hres
            | some r2 =>
              obtain ⟨fin, ff4, pend4, calls4⟩ := r2
              rw [hl] at hres
              simp only [Option.map_some', Option.some.injEq, Prod.mk.injEq] at hres
              obtain ⟨hfin, -, -, hc⟩ := hres
              obtain ⟨calls5, hrec, hc5⟩ := after_calls_eq_some _ _ _ _ _ _ hl
              have hft : fin = true := by
                cases fin with
                | true => rfl
                | false => simp at hfin
              subst hft
              have hs5 := render_loop_noseek dm _ _ _ _ _ _ hrec
              intro t fl
              rw [← hc, hc5]
              intro hmem
              rcases List.mem_append.mp hmem with h6 | h6
              · exact hs3 t fl h6
              · exact hs5 t fl h6
        · rw [if_neg h1] at hres
          cases hres
    · rw [if_neg h0] at hres
      cases hres
  · intro h0 h1 h2 h3
    exact dispatch_no_seek _ _ _ h0 h1 h2 h3

theorem consecutive_frames_no_seek_witness :
    ff_render fixture_demux fixture_open [] 150 =
      some (0, { fixture_open with
                   avprev := 150000, pSWSCtx := Ptr.block 4,
                   packet := some (av_free_packet (video_packet 150000)) },
        [video_packet 151000],
        [Call.av_seek_frame 150000 AVSEEK_FLAG_BACKWARD, Call.avcodec_flush_buffers,
         Call.av_read_frame, Call.av_dup_packet, Call.avcodec_decode_video2, Call.sws_scale,
         Call.av_free_packet]) ∧
    seek_timestamp fixture_open fixture_media.ctx fixture_stream ((150 : Nat) : Int) = 150000 ∧
    seek_timestamp fixture_open fixture_media.ctx fixture_stream ((150 + 1 : Nat) : Int) =
      151000 ∧
    f64 (32 * fixture_open.tpf) = 32000 ∧
    ff_render fixture_demux
        { fixture_open with
          avprev := 150000, pSWSCtx := Ptr.block 4,
          packet := some (av_free_packet (video_packet 150000)) }
        [video_packet 151000] (150 + 1) =
      some (0, { fixture_open with
                   avprev := 151000, pSWSCtx := Ptr.block 4,
                   packet := some (av_free_packet (video_packet 151000)) }, [],
        [Call.av_read_frame, Call.av_dup_packet, Call.avcodec_decode_video2, Call.sws_scale,
         Call.av_free_packet]) ∧
    seek_dispatch fixture_demux
        { fixture_open with
          avprev := 150000, pSWSCtx := Ptr.block 4,
          packet := some (av_free_packet (video_packet 150000)) }
        [video_packet 151000] 151000 = (1, [video_packet 151000], []) ∧
    (∀ ff2 pend2 calls2,
      my_seek_frame fixture_demux
          { fixture_open with
            avprev := 150000, pSWSCtx := Ptr.block 4,
            packet := some (av_free_packet (video_packet 150000)) }
          [video_packet 151000] ((150 + 1 : Nat) : Int) = some (1, ff2, pend2, calls2) →
      ∀ t fl, Call.av_seek_frame t fl ∉ calls2) ∧
    (∀ ff2 pend2 calls2,
      ff_render fixture_demux
          { fixture_open with
            avprev := 150000, pSWSCtx := Ptr.block 4,
            packet := some (av_free_packet (video_packet 150000)) }
          [video_packet 151000] (150 + 1) = some (0, ff2, pend2, calls2) →
      ∀ t fl, Call.av_seek_frame t fl ∉ calls2) := by
  have h := consecutive_frames_no_seek fixture_demux fixture_open _ [] _ _ 150
    fixture_media.ctx fixture_stream rfl rfl rfl (by decide) fixture_render_150
  have h150 : seek_timestamp fixture_open fixture_media.ctx fixture_stream ((150 : Nat) : Int) =
      150000 := by decide
  have h151 : seek_timestamp fixture_open fixture_media.ctx fixture_stream
      ((150 + 1 : Nat) : Int) = 151000 := by decide
  have e : f64 (32 * fixture_open.tpf) = 32000 := by
    norm_num [fixture_open, f64_32000]
  obtain ⟨-, -, -, -, hno, hsuff⟩ := h
  rw [h150, h151] at hno hsuff
  have hc := hsuff (by decide) (by decide) (by rw [e]; norm_num) (by rw [e]; norm_num)
  obtain ⟨hd, -, hm, hr⟩ := hno hc
  exact ⟨fixture_render_150, h150, h151, e, fixture_render_151, hd, hm, hr⟩

/-- C9 as stated fails on two kinds of stream, each opened by `ff_open_movie`
in SEEK_CONTINUOUS mode.  On the interlaced stream (time base 1/25,
`r_frame_rate` 50/1) frames 1 and 2 rescale to the same target 1, so after
frame 1 was rendered the request for frame 2 finds `avprev >= timestamp` and
calls `av_seek_frame`.  On the 120 fps stream (time base 1/90000) the frame
rate falls back to the inverse time base, `tpf` is 1, and after frame 0 was
rendered the request for frame 1 has the target 750, more than 32 ticks ahead,
and calls `av_seek_frame`. -/
theorem consecutive_seek_counterexample :
    ((ff_open_movie interlaced_lib (ff_create 2) ['a'] 2).map (fun r => (r.1, r.2.1)) =
        some (0, interlaced_open) ∧
      interlaced_open.seekflags = SEEK_CONTINUOUS ∧
      ff_render fixture_demux interlaced_open [video_packet 1] 1 =
        some (0, { interlaced_open with
                     avprev := 1, pSWSCtx := Ptr.block 4,
                     packet := some (av_free_packet (video_packet 1)) }, [],
          [Call.av_read_frame, Call.av_dup_packet, Call.avcodec_decode_video2,
           Call.sws_scale, Call.av_free_packet]) ∧
      my_seek_frame fixture_demux
          { interlaced_open with
            avprev := 1, pSWSCtx := Ptr.block 4,
            packet := some (av_free_packet (video_packet 1)) } [] ((1 + 1 : Nat) : Int) =
        some (1, { interlaced_open with
                     avprev := 1, pSWSCtx := Ptr.block 4, packet := some (video_packet 1) },
          [video_packet 1001],
          [Call.av_seek_frame 1 AVSEEK_FLAG_BACKWARD, Call.avcodec_flush_buffers,
           Call.av_read_frame, Call.av_dup_packet])) ∧
    ((ff_open_movie highspeed_lib (ff_create 2) ['a'] 2).map (fun r => (r.1, r.2.1)) =
        some (0, highspeed_open) ∧
      highspeed_open.seekflags = SEEK_CONTINUOUS ∧
      ff_render fixture_demux highspeed_open [] 0 =
        some (0, { highspeed_open with
                     avprev := 0, pSWSCtx := Ptr.block 4,
                     packet := some (av_free_packet (video_packet 0)) },
          [video_packet 1000],
          [Call.av_seek_frame 0 AVSEEK_FLAG_BACKWARD, Call.avcodec_flush_buffers,
           Call.av_read_frame, Call.av_dup_packet, Call.avcodec_decode_video2,
           Call.sws_scale, Call.av_free_packet]) ∧
      my_seek_frame fixture_demux
          { highspeed_open with
            avprev := 0, pSWSCtx := Ptr.block 4,
            packet := some (av_free_packet (video_packet 0)) } [video_packet 1000]
          ((0 + 1 : Nat) : Int) =
        some (1, { highspeed_open with
                     avprev := 750, pSWSCtx := Ptr.block 4,
                     packet := some (video_packet 750) },
          [video_packet 1750],
          [Call.av_seek_frame 750 AVSEEK_FLAG_BACKWARD, Call.avcodec_flush_buffers,
           Call.av_read_frame, Call.av_dup_packet])) :=
  ⟨⟨interlaced_open_eq, rfl, interlaced_render_1, interlaced_seek_2⟩,
    ⟨highspeed_open_eq, rfl, highspeed_render_0, highspeed_seek_1⟩⟩

theorem fixture_target_150 :
    seek_timestamp fixture_open fixture_media.ctx fixture_stream 150 = 150000 := by
  decide

theorem failing_seek_150 :
    my_seek_frame failing_demux fixture_open [] 150 =
      some (0, { fixture_open with avprev := 150000 }, [],
        [Call.av_seek_frame 150000 AVSEEK_FLAG_BACKWARD, Call.avcodec_flush_buffers]) := by
  have heq := my_seek_frame_eq failing_demux fixture_open [] 150
    fixture_media.ctx fixture_stream rfl rfl (by decide)
  have hd := seek_dispatch_continuous failing_demux fixture_open [] 150000 rfl
  have hyes : fixture_open.avprev ≥ 150000 ∨
      f64 (f64 (fixture_open.avprev : ℚ) + f64 (32 * fixture_open.tpf)) <
        f64 ((150000 : Int) : ℚ) := by
    right
    norm_num [fixture_open, f64_0, f64_32000, f64_150000]
  rw [if_pos hyes] at hd
  rw [fixture_target_150, hd] at heq
  rw [heq]
  rfl

/-- C12 at the failing input: the fixture is open in SEEK_CONTINUOUS mode with
`avprev = 0`, frame 150 is requested (target 150000, more than 32 frames
ahead) and `av_seek_frame` fails.  `my_seek_frame` makes that one seek and the
flush, stores the target in `avprev` and returns 0; `ff_render` returns -1.
There is no seek to 0 and `avprev` is 150000, a position the stream was not
brought to; the request for frame 151 that follows is decided from it and
passes the dispatch without a seek. -/
theorem seek_failure_no_reset :
    fixture_open.seekflags = SEEK_CONTINUOUS ∧
    failing_demux.seek 150000 AVSEEK_FLAG_BACKWARD = none ∧
    my_seek_frame failing_demux fixture_open [] 150 =
      some (0, { fixture_open with avprev := 150000 }, [],
        [Call.av_seek_frame 150000 AVSEEK_FLAG_BACKWARD, Call.avcodec_flush_buffers]) ∧
    ff_render failing_demux fixture_open [] 150 =
      some (-1, { fixture_open with avprev := 150000 }, [],
        [Call.av_seek_frame 150000 AVSEEK_FLAG_BACKWARD, Call.avcodec_flush_buffers,
         Call.render_empty_frame]) ∧
    Call.av_seek_frame 0 AVSEEK_FLAG_BACKWARD ∉
      [Call.av_seek_frame 150000 AVSEEK_FLAG_BACKWARD, Call.avcodec_flush_buffers,
       Call.render_empty_frame] ∧
    ({ fixture_open with avprev := 150000 } : ffst).avprev ≠ 0 ∧
    seek_dispatch failing_demux { fixture_open with avprev := 150000 } []
        (seek_timestamp { fixture_open with avprev := 150000 } fixture_media.ctx
          fixture_stream 151) = (1, [], []) := by
  refine ⟨rfl, rfl, failing_seek_150, ?_, by decide, by decide, ?_⟩
  · have heq2 : my_seek_frame failing_demux fixture_open [] ((150 : Nat) : Int) = _ :=
      failing_seek_150
    unfold ff_render
    rw [if_pos (by decide), heq2]
    rfl
  · have hts : seek_timestamp { fixture_open with avprev := 150000 } fixture_media.ctx
        fixture_stream 151 = 151000 := by decide
    have hd := seek_dispatch_continuous failing_demux { fixture_open with avprev := 150000 }
      [] 151000 rfl
    rw [if_neg (by exact fixture_dispatch_151)] at hd
    rw [hts, hd]

theorem f64_tb_25_x1 : f64 (5764607523034235 / 144115188075855872) = (5764607523034235 / 144115188075855872) := by
  unfold f64
  rw [fround_eq 53 (-1022) (-5) (-57) 5764607523034235 _ (by norm_num) (by norm_num)
    (by norm_num [abs_of_pos]) (by norm_num [abs_of_pos]) (by norm_num) (by norm_num)]
  norm_num

theorem f64_tpf_norate : f64 (144115188075855872 / 5764607523034235) = 25 := by
  unfold f64
  rw [fround_eq 53 (-1022) (4) (-48) 7036874417766400 _ (by norm_num) (by norm_num)
    (by norm_num [abs_of_pos]) (by norm_num [abs_of_pos]) (by norm_num) (by norm_num)]
  norm_num

theorem f64_2997_100 : f64 (2997 / 100) = (1054475631502295 / 35184372088832) := by
  unfold f64
  rw [fround_eq 53 (-1022) (4) (-48) 8435805052018360 _ (by norm_num) (by norm_num)
    (by norm_num [abs_of_pos]) (by norm_num [abs_of_pos]) (by norm_num) (by norm_num)]
  norm_num

theorem f64_30000_1001 : f64 (30000 / 1001) = (1054476685978981 / 35184372088832) := by
  unfold f64
  rw [fround_eq 53 (-1022) (4) (-48) 8435813487831848 _ (by norm_num) (by norm_num)
    (by norm_num [abs_of_pos]) (by norm_num [abs_of_pos]) (by norm_num) (by norm_num)]
  norm_num

/-! ### The frame rate -/

theorem norate_open_eq :
    (ff_open_movie norate_lib (ff_create 2) ['a'] 2).map (fun r => (r.1, r.2.1)) =
      some (0, norate_open) := by
  have htb : av_q2d norate_stream.time_base = 5764607523034235 / 144115188075855872 := by
    norm_num [av_q2d, norate_stream, f64_tb_25]
  rw [show norate_lib = { fixture_lib with media := fun _ => norate_media } from rfl,
    open_fresh_eq (fun _ => norate_media) norate_media.ctx norate_stream []
      ['a'] 2 1 (5764607523034235 / 144115188075855872) 25 10 0 250 480 rfl rfl rfl
      (by rw [if_neg (by decide)])
      (by decide)
      (by rw [htb]; norm_num [f64_tb_25_x1])
      (by norm_num)
      (by norm_num [f64_tpf_norate])
      (by rw [htb]; norm_num [norate_stream, f64_250, f64_duration_interlaced])
      (offset_zero 1)
      (by rw [if_pos (by decide)]; rfl)
      (by
        show floorf_div 640 (ff_get_aspectratio fixture_stream.codec) = some 480
        rw [aspect_fixture]
        exact height_fixture)
      (by decide)]
  rfl

/-- C13 (as stated) fails.  On the 120 fps stream (time base 1/90000)
`ff_open_movie` succeeds and the decoder's frame rate is the inverse time base
(the `double` quotient `1.0 / av_q2d(time_base)`, which is 90000), but
`ff_get_framerate` reports 120/1.  On the stream without a declared
rate (time base 1/25) `ff_open_movie` succeeds and the decoder's frame rate is
1, not 25, while `ff_get_framerate` reports 25/1. -/
theorem framerate_counterexample :
    ((ff_open_movie highspeed_lib (ff_create 2) ['a'] 2).map (fun r => (r.1, r.2.1)) =
        some (0, highspeed_open) ∧
      highspeed_open.framerate = f64 (1 / av_q2d highspeed_stream.time_base) ∧
      highspeed_open.framerate = 90000 ∧
      ff_get_framerate highspeed_open { num := 0, den := 0, drop := 0 } =
        some { num := 120, den := 1, drop := 0 }) ∧
    ((ff_open_movie norate_lib (ff_create 2) ['a'] 2).map (fun r => (r.1, r.2.1)) =
        some (0, norate_open) ∧
      norate_open.framerate = 1 ∧
      f64 (1 / av_q2d norate_stream.time_base) = 25 ∧
      ff_get_framerate norate_open { num := 0, den := 0, drop := 0 } =
        some { num := 25, den := 1, drop := 0 }) := by
  refine ⟨⟨highspeed_open_eq, ?_, rfl, ?_⟩, ⟨norate_open_eq, rfl, ?_, ?_⟩⟩
  · norm_num [highspeed_open, highspeed_stream, av_q2d, f64_tb_90000, f64_rate_highspeed]
  · have hvs : video_stream highspeed_open = some highspeed_stream := rfl
    unfold ff_get_framerate
    rw [if_neg (by decide), hvs]
    simp only []
    have hdrop : ¬ (highspeed_open.framerate = f64 (2997 / 100) ∨
        highspeed_open.framerate = f64 (30000 / 1001)) := by
      norm_num [highspeed_open, f64_2997_100, f64_30000_1001]
    rw [if_neg hdrop]
    rfl
  · norm_num [norate_stream, av_q2d, f64_tb_25, f64_tpf_norate]
  · have hvs : video_stream norate_open = some norate_stream := rfl
    unfold ff_get_framerate
    rw [if_neg (by decide), hvs]
    simp only []
    have hdrop : ¬ (norate_open.framerate = f64 (2997 / 100) ∨
        norate_open.framerate = f64 (30000 / 1001)) := by
      norm_num [norate_open, f64_2997_100, f64_30000_1001]
    rw [if_neg hdrop]
    rfl

/-- C13 (amended): after `ff_open_movie` has opened a file and returned 0, with
`avs` the video stream in use: when `r_frame_rate` is present (numerator and
denominator not 0), the decoder's frame rate is `r_frame_rate` if that lies
within [4, 100]; if it lies outside, the frame rate is the inverse of the time
base when the time base has no zero component, and stays `r_frame_rate`
otherwise; `ff_get_framerate` reports the num/den of `r_frame_rate` in each of
these cases, which is the decoder's frame rate (the `double` nearest to
num/den, as `av_q2d` gives it) when the rate lies within [4, 100].  The inverse
of the time base is the `double` quotient `1.0 / av_q2d(time_base)`.  When
`r_frame_rate` is missing, `ff_get_framerate` reports
`time_base.den / time_base.num`. -/
theorem framerate_after_open (L : Lib) (ff ff1 : ffst) (file_name : List Char)
    (render_fmt : Int) (calls : List Call) (fr : TimecodeRate)
    (hnew : ¬ (ff.pFrameFMT ≠ Ptr.null ∧ ff.current_file = some file_name))
    (h : ff_open_movie L ff file_name render_fmt = some (0, ff1, calls)) :
    ∃ avs, video_stream ff1 = some avs ∧
      (avs.r_frame_rate.den ≠ 0 ∧ avs.r_frame_rate.num ≠ 0 →
        (4 ≤ av_q2d avs.r_frame_rate ∧ av_q2d avs.r_frame_rate ≤ 100 →
          ff1.framerate = av_q2d avs.r_frame_rate) ∧
        (av_q2d avs.r_frame_rate < 4 ∨ 100 < av_q2d avs.r_frame_rate →
          (avs.time_base.num ≠ 0 ∧ avs.time_base.den ≠ 0 →
            ff1.framerate = f64 (1 / av_q2d avs.time_base)) ∧
          (¬ (avs.time_base.num ≠ 0 ∧ avs.time_base.den ≠ 0) →
            ff1.framerate = av_q2d avs.r_frame_rate)) ∧
        ∃ r, ff_get_framerate ff1 fr = some r ∧
          r.num = avs.r_frame_rate.num ∧ r.den = avs.r_frame_rate.den ∧
          (4 ≤ av_q2d avs.r_frame_rate ∧ av_q2d avs.r_frame_rate ≤ 100 →
            f64 ((r.num : ℚ) / (r.den : ℚ)) = ff1.framerate)) ∧
      (¬ (avs.r_frame_rate.den ≠ 0 ∧ avs.r_frame_rate.num ≠ 0) →
        ∃ r, ff_get_framerate ff1 fr = some r ∧
          r.num = avs.time_base.den ∧ r.den = avs.time_base.num) := by
  obtain ⟨avs, hst, -, hvi, hctx, -, -, -, -, -, -, -, -, -, hfile, -, -, -, -, hfr, -⟩ :=
    open_movie_success L ff ff1 file_name render_fmt calls hnew h
  have hvs : video_stream ff1 = some avs := by
    unfold video_stream
    rw [hctx, hvi]
    exact hst
  have hget : ∀ hcur : ¬ (ff1.current_file = none ∨ ff1.pFormatCtx = none),
      ff_get_framerate ff1 fr =
        if ff1.framerate = f64 (2997 / 100) ∨ ff1.framerate = f64 (30000 / 1001) then
          some { (if avs.r_frame_rate.den ≠ 0 ∧ avs.r_frame_rate.num ≠ 0 then
                    { fr with num := avs.r_frame_rate.num, den := avs.r_frame_rate.den }
                  else { fr with num := avs.time_base.den, den := avs.time_base.num }
                  : TimecodeRate) with drop := 1 }
        else
          some { (if avs.r_frame_rate.den ≠ 0 ∧ avs.r_frame_rate.num ≠ 0 then
                    { fr with num := avs.r_frame_rate.num, den := avs.r_frame_rate.den }
                  else { fr with num := avs.time_base.den, den := avs.time_base.num }
                  : TimecodeRate) with drop := 0 } := by
    intro hcur
    unfold ff_get_framerate
    rw [if_neg hcur, hvs]
  have hcur : ¬ (ff1.current_file = none ∨ ff1.pFormatCtx = none) := by
    rw [hfile, hctx]
    simp
  have hg := hget hcur
  refine ⟨avs, hvs, ?_, ?_⟩
  · intro hpres
    rw [if_pos hpres] at hfr
    rw [if_pos hpres] at hg
    refine ⟨?_, ?_, ?_⟩
    · intro hin
      rw [hfr, if_neg]
      rintro ⟨h1 | h1, -⟩
      · linarith [hin.1]
      · linarith [hin.2]
    · intro hout
      constructor
      · intro htb
        rw [hfr, if_pos ⟨by rcases hout with h1 | h1; exact Or.inl h1; exact Or.inr h1, htb⟩]
      · intro htb
        rw [hfr, if_neg (fun hh => htb hh.2)]
    · by_cases hdrop : ff1.framerate = f64 (2997 / 100) ∨ ff1.framerate = f64 (30000 / 1001)
      · rw [if_pos hdrop] at hg
        refine ⟨_, hg, rfl, rfl, ?_⟩
        intro hin
        rw [hfr, if_neg]
        · rfl
        · rintro ⟨h1 | h1, -⟩
          · linarith [hin.1]
          · linarith [hin.2]
      · rw [if_neg hdrop] at hg
        refine ⟨_, hg, rfl, rfl, ?_⟩
        intro hin
        rw [hfr, if_neg]
        · rfl
        · rintro ⟨h1 | h1, -⟩
          · linarith [hin.1]
          · linarith [hin.2]
  · intro hmiss
    rw [if_neg hmiss] at hg
    by_cases hdrop : ff1.framerate = f64 (2997 / 100) ∨ ff1.framerate = f64 (30000 / 1001)
    · rw [if_pos hdrop] at hg
      exact ⟨_, hg, rfl, rfl⟩
    · rw [if_neg hdrop] at hg
      exact ⟨_, hg, rfl, rfl⟩

theorem framerate_after_open_witness :
    ∃ avs, video_stream fixture_open = some avs ∧
      (avs.r_frame_rate.den ≠ 0 ∧ avs.r_frame_rate.num ≠ 0 →
        (4 ≤ av_q2d avs.r_frame_rate ∧ av_q2d avs.r_frame_rate ≤ 100 →
          fixture_open.framerate = av_q2d avs.r_frame_rate) ∧
        (av_q2d avs.r_frame_rate < 4 ∨ 100 < av_q2d avs.r_frame_rate →
          (avs.time_base.num ≠ 0 ∧ avs.time_base.den ≠ 0 →
            fixture_open.framerate = f64 (1 / av_q2d avs.time_base)) ∧
          (¬ (avs.time_base.num ≠ 0 ∧ avs.time_base.den ≠ 0) →
            fixture_open.framerate = av_q2d avs.r_frame_rate)) ∧
        ∃ r, ff_get_framerate fixture_open { num := 0, den := 0, drop := 0 } = some r ∧
          r.num = avs.r_frame_rate.num ∧ r.den = avs.r_frame_rate.den ∧
          (4 ≤ av_q2d avs.r_frame_rate ∧ av_q2d avs.r_frame_rate ≤ 100 →
            f64 ((r.num : ℚ) / (r.den : ℚ)) = fixture_open.framerate)) ∧
      (¬ (avs.r_frame_rate.den ≠ 0 ∧ avs.r_frame_rate.num ≠ 0) →
        ∃ r, ff_get_framerate fixture_open { num := 0, den := 0, drop := 0 } = some r ∧
          r.num = avs.time_base.den ∧ r.den = avs.time_base.num) :=
  framerate_after_open fixture_lib (ff_create 2) fixture_open ['a'] 2 _
    { num := 0, den := 0, drop := 0 } (fun hh => hh.1 rfl) fixture_open_eq

/-! ### Open and close -/

/-- Evaluation of `ff_open_movie` on any decoder `s` that has not this file
open, in the fixture environment, for a file on which every library call
succeeds and whose first stream is a video stream: `s0` and `c0` are the state
and the calls after the close of the file that was open, if any; the frame rate
and the stream figures are given. -/
theorem open_steps (med : List Char → Media) (ctx : AVFormatContext) (avs : AVStream)
    (rest : List AVStream) (file_name : List Char) (fmt : Int) (s s0 ff3 ff4 : ffst)
    (c0 : List Call)
    (hnew : ¬ (s.pFrameFMT ≠ Ptr.null ∧ s.current_file = some file_name))
    (hclose : (if s.pFrameFMT ≠ Ptr.null then
        ((ff_close_movie s).2.1, (ff_close_movie s).2.2) else (s, ([] : List Call))) = (s0, c0))
    (hmed : med file_name = { fixture_media with ctx := ctx })
    (hs : ctx.streams = avs :: rest) (hvid : avs.is_video = true)
    (h3 : ff_set_framerate
      { open_defaults s0 fmt with
        pFormatCtx := some ctx,
        seekflags := if strncmp_eq file_name ['h', 't', 't', 'p', ':', '/', '/'] 7
                     then SEEK_LIVESTREAM else SEEK_CONTINUOUS,
        videoStream := 0 } = some ff3)
    (h4 : open_stream_info ctx avs ff3 = some ff4)
    (hgeo : ¬ (0 = ff4.movie_width ∧ 0 = ff4.movie_height)) :
    ff_open_movie { fixture_lib with media := med } s file_name fmt =
      some (0, { ff4 with pFrame := Ptr.block 1, pFrameFMT := Ptr.block 2,
                          out_width := ff4.movie_width, out_height := ff4.movie_height,
                          internal_buffer := Ptr.block 3, buffer := Ptr.block 3,
                          buf_width := ff4.movie_width, buf_height := ff4.movie_height,
                          current_file := some file_name },
        c0 ++ [Call.avformat_open_input, Call.lock, Call.avformat_find_stream_info,
         Call.unlock, Call.avcodec_find_decoder, Call.lock, Call.avcodec_open2, Call.unlock,
         Call.avcodec_alloc_frame, Call.avcodec_alloc_frame]
         ++ (if s0.internal_buffer ≠ Ptr.null then [Call.free s0.internal_buffer] else [])
         ++ [Call.calloc (3 * ff4.movie_width * ff4.movie_height),
         Call.avpicture_fill, Call.strdup]) := by
  have e3 := set_framerate_eq _ ff3 h3
  obtain ⟨-, -, n, mh, -, hmh, e4⟩ := open_stream_info_success ctx avs ff3 ff4 h4
  have hfv : first_video ctx.streams 0 = 0 := by
    rw [hs]
    unfold first_video
    rw [if_pos hvid]
  have hsa : stream_at ctx 0 = some avs := by
    unfold stream_at
    rw [if_neg (by decide), hs]
    rfl
  have hmw : ff4.movie_width = avs.codec.width := by rw [e4]
  have hmhh : ff4.movie_height = mh := by rw [e4]
  have hinit : ff_init_moviebuffer { fixture_lib with media := med }
      { ff4 with pFrame := Ptr.block 1, pFrameFMT := Ptr.block 2,
                 out_width := -1, out_height := -1 } =
      some ({ ff4 with pFrame := Ptr.block 1, pFrameFMT := Ptr.block 2,
                          out_width := ff4.movie_width, out_height := ff4.movie_height,
                          internal_buffer := Ptr.block 3, buffer := Ptr.block 3,
                          buf_width := ff4.movie_width, buf_height := ff4.movie_height },
        (if s0.internal_buffer ≠ Ptr.null then [Call.free s0.internal_buffer] else [])
          ++ [Call.calloc (3 * ff4.movie_width * ff4.movie_height), Call.avpicture_fill]) := by
    have hc : ff4.pCodecCtx = some avs.codec := by rw [e4]
    have hbw : ff4.buf_width = 0 := by rw [e4, e3]; rfl
    have hbh : ff4.buf_height = 0 := by rw [e4, e3]; rfl
    have hib : ff4.internal_buffer = s0.internal_buffer := by rw [e4, e3]; rfl
    unfold ff_init_moviebuffer
    simp only [hc]
    rw [resolve_geometry_auto avs.codec _ (by show (-1 : Int) < 0; decide)
      (by show (-1 : Int) < 0; decide), hmh]
    simp only [Option.map_some', hbw, hbh, hib, ← hmw, ← hmhh]
    rw [if_neg hgeo]
    simp [fixture_lib, ff_getbuffersize]
  have hcodec : ∀ calls, open_codec { fixture_lib with media := med }
      { fixture_media with ctx := ctx } file_name ff4 calls =
      some (0, { ff4 with pFrame := Ptr.block 1, pFrameFMT := Ptr.block 2,
                          out_width := ff4.movie_width, out_height := ff4.movie_height,
                          internal_buffer := Ptr.block 3, buffer := Ptr.block 3,
                          buf_width := ff4.movie_width, buf_height := ff4.movie_height,
                          current_file := some file_name },
        calls ++ [Call.avcodec_find_decoder, Call.lock, Call.avcodec_open2, Call.unlock,
         Call.avcodec_alloc_frame, Call.avcodec_alloc_frame]
         ++ (if s0.internal_buffer ≠ Ptr.null then [Call.free s0.internal_buffer] else [])
         ++ [Call.calloc (3 * ff4.movie_width * ff4.movie_height),
         Call.avpicture_fill, Call.strdup]) := by
    intro calls
    unfold open_codec
    simp only [fixture_media, Bool.not_true, Bool.false_eq_true, if_false]
    rw [if_neg (by simp), if_neg (by simp)]
    rw [hinit]
    simp
  have hvideo : ∀ calls, open_video { fixture_lib with media := med }
      { fixture_media with ctx := ctx } file_name
      { open_defaults s0 fmt with
        pFormatCtx := some ctx,
        seekflags := if strncmp_eq file_name ['h', 't', 't', 'p', ':', '/', '/'] 7
                     then SEEK_LIVESTREAM else SEEK_CONTINUOUS } calls =
      open_codec { fixture_lib with media := med }
        { fixture_media with ctx := ctx } file_name ff4
        (calls ++ [Call.lock, Call.avformat_find_stream_info] ++ [Call.unlock]) := by
    intro calls
    unfold open_video
    simp only [fixture_media, Bool.not_true, Bool.false_eq_true, if_false, hfv]
    rw [if_neg (by decide)]
    simp only [] at h3
    rw [h3, hsa]
    simp only [h4]
  unfold ff_open_movie
  rw [if_neg hnew]
  simp only [hclose, hmed]
  rw [if_neg (by simp [fixture_media])]
  rw [hvideo, hcodec]
  simp

/-- C14: on a decoder state in which the file `p` is open (`pFrameFMT` is not
NULL and `current_file` is `p`), `ff_open_movie` with the path `p` and any
render format returns 0, makes no library call and leaves the state as it is,
every field included; a state that a call of `ff_open_movie` with `p` has
returned 0 on is such a state, so opening `p` twice is the same as opening it
once; and the state stays such a state through `ff_render`. -/
theorem open_idempotent (L : Lib) (ff : ffst) (p : List Char) (fmt : Int)
    (hopen : ff.pFrameFMT ≠ Ptr.null ∧ ff.current_file = some p) :
    ff_open_movie L ff p fmt = some (0, ff, []) ∧
    (∀ L0 ff0 fmt0 ff1 calls,
      ff_open_movie L0 ff0 p fmt0 = some (0, ff1, calls) →
      (ff1.pFrameFMT ≠ Ptr.null ∧ ff1.current_file = some p) ∧
      ff_open_movie L ff1 p fmt = some (0, ff1, [])) ∧
    (∀ dm pending frame rv ff1 rest calls,
      ff_render dm ff pending frame = some (rv, ff1, rest, calls) →
      ff_open_movie L ff1 p fmt = some (0, ff1, [])) := by
  have key : ∀ s : ffst, s.pFrameFMT ≠ Ptr.null ∧ s.current_file = some p →
      ff_open_movie L s p fmt = some (0, s, []) := by
    intro s hs
    unfold ff_open_movie
    rw [if_pos hs]
  refine ⟨key ff hopen, ?_, ?_⟩
  · intro L0 ff0 fmt0 ff1 calls h
    have hs : ff1.pFrameFMT ≠ Ptr.null ∧ ff1.current_file = some p := by
      by_cases hold : ff0.pFrameFMT ≠ Ptr.null ∧ ff0.current_file = some p
      · unfold ff_open_movie at h
        rw [if_pos hold] at h
        cases h
        exact hold
      · obtain ⟨avs, -, -, -, -, -, -, -, -, -, -, -, -, hfmt, hfile, -⟩ :=
          open_movie_success L0 ff0 ff1 p fmt0 calls hold h
        exact ⟨hfmt, hfile⟩
    exact ⟨hs, key ff1 hs⟩
  · intro dm pending frame rv ff1 rest calls h
    obtain ⟨pk, av, off, sws, he⟩ := ff_render_keeps dm ff ff1 pending rest frame rv calls h
    apply key
    rw [he]
    exact hopen

theorem open_idempotent_witness :
    (fixture_open.pFrameFMT ≠ Ptr.null ∧ fixture_open.current_file = some ['a']) ∧
    ff_open_movie fixture_lib fixture_open ['a'] 7 = some (0, fixture_open, []) ∧
    (∀ L0 ff0 fmt0 ff1 calls,
      ff_open_movie L0 ff0 ['a'] fmt0 = some (0, ff1, calls) →
      (ff1.pFrameFMT ≠ Ptr.null ∧ ff1.current_file = some ['a']) ∧
      ff_open_movie fixture_lib ff1 ['a'] 7 = some (0, ff1, [])) ∧
    (∀ dm pending frame rv ff1 rest calls,
      ff_render dm fixture_open pending frame = some (rv, ff1, rest, calls) →
      ff_open_movie fixture_lib ff1 ['a'] 7 = some (0, ff1, [])) :=
  ⟨⟨by decide, rfl⟩, open_idempotent fixture_lib fixture_open ['a'] 7 ⟨by decide, rfl⟩⟩

/-- Opening another file on the decoder that has the fixture open: the close
of lines 230-235 frees the internal buffer and leaves the pointer in place, and
`ff_init_moviebuffer` frees the same block again before it allocates. -/
theorem fixture_reopen :
    ff_open_movie fixture_lib fixture_open ['b'] 2 =
      some (0, { fixture_open with current_file := some ['b'] },
        [Call.free_current_file, Call.avpicture_fill, Call.free (Ptr.block 3),
         Call.av_free (Ptr.block 2), Call.av_free (Ptr.block 1), Call.lock,
         Call.avcodec_close, Call.avformat_close_input, Call.unlock,
         Call.avformat_open_input, Call.lock, Call.avformat_find_stream_info, Call.unlock,
         Call.avcodec_find_decoder, Call.lock, Call.avcodec_open2, Call.unlock,
         Call.avcodec_alloc_frame, Call.avcodec_alloc_frame, Call.free (Ptr.block 3),
         Call.calloc 921600, Call.avpicture_fill, Call.strdup]) := by
  have hsa : stream_at fixture_media.ctx 0 = some fixture_stream := rfl
  have h3 := set_framerate_eval
    { open_defaults
        { fixture_open with
          current_file := none, buffer := Ptr.null, pFrameFMT := Ptr.null,
          pFrame := Ptr.null, pFormatCtx := none } 2 with
      pFormatCtx := some fixture_media.ctx,
      seekflags := if strncmp_eq ['b'] ['h', 't', 't', 'p', ':', '/', '/'] 7
                   then SEEK_LIVESTREAM else SEEK_CONTINUOUS,
      videoStream := 0 } fixture_stream 30 hsa fixture_rate_value
  have h4 := open_stream_info_eval fixture_media.ctx fixture_stream
    { open_defaults
        { fixture_open with
          current_file := none, buffer := Ptr.null, pFrameFMT := Ptr.null,
          pFrame := Ptr.null, pFormatCtx := none } 2 with
      pFormatCtx := some fixture_media.ctx,
      seekflags := if strncmp_eq ['b'] ['h', 't', 't', 'p', ':', '/', '/'] 7
                   then SEEK_LIVESTREAM else SEEK_CONTINUOUS,
      videoStream := 0, framerate := 30 } 300 480
    (1152921504606847 / 1152921504606846976) 1000 10 0 (by decide) fixture_ticks
    (by norm_num) fixture_tpf fixture_duration (offset_zero 30)
    (by rw [if_pos (by decide)]; rfl) (by rw [aspect_fixture]; exact height_fixture)
  rw [show fixture_lib = { fixture_lib with media := fun _ => fixture_media } from rfl,
    open_steps (fun _ => fixture_media) fixture_media.ctx fixture_stream [] ['b'] 2
      fixture_open
      { fixture_open with
        current_file := none, buffer := Ptr.null, pFrameFMT := Ptr.null,
        pFrame := Ptr.null, pFormatCtx := none }
      _ _
      [Call.free_current_file, Call.avpicture_fill, Call.free (Ptr.block 3),
       Call.av_free (Ptr.block 2), Call.av_free (Ptr.block 1), Call.lock,
       Call.avcodec_close, Call.avformat_close_input, Call.unlock]
      (fun hh => absurd hh.2 (by decide)) rfl rfl rfl rfl h3 h4 (by decide)]
  rfl

/-- C15 (as stated) fails: on a decoder without an open file `ff_close_movie`
returns -1, so the second of two calls returns -1, not 0; after closing the
open fixture the field `internal_buffer` still holds the block that the close
has freed; and that block is freed a second time, with no allocation in
between, when another file is opened on the decoder that has the fixture
open. -/
theorem close_movie_counterexample :
    (ff_close_movie (ff_create 2)).1 = -1 ∧
    (ff_close_movie fixture_open).1 = 0 ∧
    (ff_close_movie (ff_close_movie fixture_open).2.1).1 = -1 ∧
    Call.free (Ptr.block 3) ∈ (ff_close_movie fixture_open).2.2 ∧
    (ff_close_movie fixture_open).2.1.internal_buffer = Ptr.block 3 ∧
    ff_open_movie fixture_lib fixture_open ['b'] 2 =
      some (0, { fixture_open with current_file := some ['b'] },
        [Call.free_current_file, Call.avpicture_fill, Call.free (Ptr.block 3),
         Call.av_free (Ptr.block 2), Call.av_free (Ptr.block 1), Call.lock,
         Call.avcodec_close, Call.avformat_close_input, Call.unlock,
         Call.avformat_open_input, Call.lock, Call.avformat_find_stream_info, Call.unlock,
         Call.avcodec_find_decoder, Call.lock, Call.avcodec_open2, Call.unlock,
         Call.avcodec_alloc_frame, Call.avcodec_alloc_frame, Call.free (Ptr.block 3),
         Call.calloc 921600, Call.avpicture_fill, Call.strdup]) := by
  refine ⟨by decide, by decide, by decide, by decide, by decide, fixture_reopen⟩

/-- C15 (amended): on a decoder with an open file (`pFrameFMT` not NULL)
`ff_close_movie` returns 0 and releases the file name, the internal buffer, the
two frames, the codec and the format context under the lock, and the scaler,
each when it is there, and afterwards `current_file`, `buffer`, `pFrameFMT`,
`pFrame` and `pFormatCtx` are NULL; on a decoder without an open file it
releases the file name, if any, makes no other call and returns -1.  A second
call that follows right away returns -1, makes no call and leaves the state of
the first call as it is. -/
theorem close_movie_spec (ff : ffst) :
    (ff.pFrameFMT ≠ Ptr.null →
      (ff_close_movie ff).1 = 0 ∧
      (ff_close_movie ff).2.2 =
        (if ff.current_file ≠ none then [Call.free_current_file] else [])
          ++ [Call.avpicture_fill]
          ++ (if ff.internal_buffer ≠ Ptr.null then [Call.free ff.internal_buffer] else [])
          ++ [Call.av_free ff.pFrameFMT]
          ++ (if ff.pFrame ≠ Ptr.null then [Call.av_free ff.pFrame] else [])
          ++ [Call.lock, Call.avcodec_close, Call.avformat_close_input, Call.unlock]
          ++ (if ff.pSWSCtx ≠ Ptr.null then [Call.sws_freeContext ff.pSWSCtx] else []) ∧
      (ff_close_movie ff).2.1.current_file = none ∧
      (ff_close_movie ff).2.1.buffer = Ptr.null ∧
      (ff_close_movie ff).2.1.pFrameFMT = Ptr.null ∧
      (ff_close_movie ff).2.1.pFrame = Ptr.null ∧
      (ff_close_movie ff).2.1.pFormatCtx = none) ∧
    (ff.pFrameFMT = Ptr.null →
      (ff_close_movie ff).1 = -1 ∧
      (ff_close_movie ff).2.2 =
        (if ff.current_file ≠ none then [Call.free_current_file] else []) ∧
      (ff_close_movie ff).2.1 = { ff with current_file := none }) ∧
    ff_close_movie (ff_close_movie ff).2.1 = (-1, (ff_close_movie ff).2.1, []) := by
  have hclosed : ∀ s : ffst, s.pFrameFMT = Ptr.null → s.current_file = none →
      ff_close_movie s = (-1, s, []) := by
    intro s h1 h2
    unfold ff_close_movie
    simp only []
    rw [if_pos h1, if_neg (not_not.mpr h2)]
    rw [← h2]
  refine ⟨?_, ?_, ?_⟩
  · intro hopen
    unfold ff_close_movie
    simp only []
    rw [if_neg hopen]
    refine ⟨rfl, ?_, rfl, rfl, rfl, rfl, rfl⟩
    simp only [ff_set_bufferptr, if_pos hopen, List.append_assoc]
  · intro hnone
    unfold ff_close_movie
    simp only []
    rw [if_pos hnone]
    exact ⟨rfl, rfl, rfl⟩
  · by_cases hopen : ff.pFrameFMT = Ptr.null
    · apply hclosed
      · unfold ff_close_movie
        simp only []
        rw [if_pos hopen]
        exact hopen
      · unfold ff_close_movie
        simp only []
        rw [if_pos hopen]
    · apply hclosed
      · unfold ff_close_movie
        simp only []
        rw [if_neg hopen]
      · unfold ff_close_movie
        simp only []
        rw [if_neg hopen]
        rfl

/-! ### Lock discipline -/

theorem novideo_open_calls :
    (ff_open_movie novideo_lib (ff_create 2) ['a'] 2).map (fun r => (r.1, r.2.2)) =
      some (-1, [Call.avformat_open_input, Call.lock, Call.avformat_find_stream_info,
        Call.unlock, Call.avformat_close_input]) := by
  norm_num [ff_open_movie, open_video, ff_create, fixture_lib, fixture_media,
    fixture_stream, open_defaults, first_video, novideo_lib, novideo_media]

/-- The steps of `open_video` up to the codec part, for a file whose stream
information is found and that has a video stream. -/
theorem open_video_steps (L : Lib) (m : Media) (file_name : List Char) (ff1 ff3 ff4 : ffst)
    (avs : AVStream) (v : Int) (calls : List Call)
    (hok : m.find_stream_info_ok = true)
    (hfv : first_video m.ctx.streams 0 = v) (hv : v ≠ -1)
    (h3 : ff_set_framerate { ff1 with videoStream := v } = some ff3)
    (hsa : stream_at m.ctx v = some avs)
    (h4 : open_stream_info m.ctx avs ff3 = some ff4) :
    open_video L m file_name ff1 calls =
      open_codec L m file_name ff4
        (calls ++ [Call.lock, Call.avformat_find_stream_info] ++ [Call.unlock]) := by
  unfold open_video
  simp only [hok, Bool.not_true, Bool.false_eq_true, if_false, hfv]
  rw [if_neg hv, h3, hsa]
  simp only [h4]

/-- The steps of `ff_open_movie` up to `open_video`, on a decoder without an
open file. -/
theorem open_movie_steps (L : Lib) (s : ffst) (file_name : List Char) (fmt : Int)
    (hnull : s.pFrameFMT = Ptr.null) (hok : (L.media file_name).open_input_ok = true) :
    ff_open_movie L s file_name fmt =
      open_video L (L.media file_name) file_name
        { open_defaults s fmt with
          pFormatCtx := some (L.media file_name).ctx,
          seekflags := if strncmp_eq file_name ['h', 't', 't', 'p', ':', '/', '/'] 7
                       then SEEK_LIVESTREAM else SEEK_CONTINUOUS }
        [Call.avformat_open_input] := by
  unfold ff_open_movie
  rw [if_neg (fun hh => hh.1 hnull)]
  simp only [if_neg (not_not.mpr hnull), hok, Bool.not_true, Bool.false_eq_true, if_false,
    List.nil_append]

theorem nocodec_open_calls :
    (ff_open_movie nocodec_lib (ff_create 2) ['a'] 2).map (fun r => (r.1, r.2.2)) =
      some (-1, [Call.avformat_open_input, Call.lock, Call.avformat_find_stream_info,
        Call.unlock, Call.avcodec_find_decoder, Call.lock, Call.avcodec_open2,
        Call.unlock, Call.avformat_close_input]) := by
  have hsa : stream_at fixture_media.ctx 0 = some fixture_stream := rfl
  have h3 := set_framerate_eval
    { open_defaults (ff_create 2) 2 with
      pFormatCtx := some fixture_media.ctx,
      seekflags := if strncmp_eq ['a'] ['h', 't', 't', 'p', ':', '/', '/'] 7
                   then SEEK_LIVESTREAM else SEEK_CONTINUOUS,
      videoStream := 0 } fixture_stream 30 hsa fixture_rate_value
  have h4 := open_stream_info_eval fixture_media.ctx fixture_stream
    { open_defaults (ff_create 2) 2 with
      pFormatCtx := some fixture_media.ctx,
      seekflags := if strncmp_eq ['a'] ['h', 't', 't', 'p', ':', '/', '/'] 7
                   then SEEK_LIVESTREAM else SEEK_CONTINUOUS,
      videoStream := 0, framerate := 30 } 300 480
    (1152921504606847 / 1152921504606846976) 1000 10 0 (by decide) fixture_ticks
    (by norm_num) fixture_tpf fixture_duration (offset_zero 30)
    (by rw [if_pos (by decide)]; rfl) (by rw [aspect_fixture]; exact height_fixture)
  have hcodec : ∀ ff4 calls, open_codec nocodec_lib
      { fixture_media with codec_open_ok := false } ['a'] ff4 calls =
      some (-1, { ff4 with pFormatCtx := none },
        calls ++ [Call.avcodec_find_decoder] ++ [Call.lock, Call.avcodec_open2]
          ++ [Call.unlock, Call.avformat_close_input]) := by
    intro ff4 calls
    rfl
  rw [open_movie_steps nocodec_lib (ff_create 2) ['a'] 2 rfl rfl,
    open_video_steps nocodec_lib (nocodec_lib.media ['a']) ['a'] _ _ _ fixture_stream 0
      [Call.avformat_open_input] rfl rfl (by decide) h3 hsa h4]
  rw [show nocodec_lib.media ['a'] = { fixture_media with codec_open_ok := false } from rfl,
    hcodec]
  rfl

theorem fixture_open_discipline :
    (ff_open_movie fixture_lib (ff_create 2) ['a'] 2).map
      (fun r => (r.1, lock_discipline false r.2.2)) = some (0, true) := by
  rw [fixture_open_eq]
  decide

/-- C16 at the failing inputs.  Opening a file without a video stream returns
-1 after `avformat_close_input` was called with the lock released (line 297);
opening a file whose codec cannot be opened returns -1 after the lock was
released and `avformat_close_input` called next (lines 371-372).  Both call
sequences break the discipline; the sequences of a successful open and of a
close keep it. -/
theorem open_error_path_unlocked :
    ((ff_open_movie novideo_lib (ff_create 2) ['a'] 2).map (fun r => (r.1, r.2.2)) =
        some (-1, [Call.avformat_open_input, Call.lock, Call.avformat_find_stream_info,
          Call.unlock, Call.avformat_close_input]) ∧
      lock_discipline false
        [Call.avformat_open_input, Call.lock, Call.avformat_find_stream_info,
          Call.unlock, Call.avformat_close_input] = false) ∧
    ((ff_open_movie nocodec_lib (ff_create 2) ['a'] 2).map (fun r => (r.1, r.2.2)) =
        some (-1, [Call.avformat_open_input, Call.lock, Call.avformat_find_stream_info,
          Call.unlock, Call.avcodec_find_decoder, Call.lock, Call.avcodec_open2,
          Call.unlock, Call.avformat_close_input]) ∧
      lock_discipline false
        [Call.avformat_open_input, Call.lock, Call.avformat_find_stream_info,
          Call.unlock, Call.avcodec_find_decoder, Call.lock, Call.avcodec_open2,
          Call.unlock, Call.avformat_close_input] = false) ∧
    ((ff_open_movie fixture_lib (ff_create 2) ['a'] 2).map
        (fun r => (r.1, lock_discipline false r.2.2)) = some (0, true) ∧
      lock_discipline false (ff_close_movie fixture_open).2.2 = true) :=
  ⟨⟨novideo_open_calls, by decide⟩, ⟨nocodec_open_calls, by decide⟩,
    ⟨fixture_open_discipline, by decide⟩⟩

/-! ### The divisors of the rescale steps -/

/-- C17 at the failing input: for the stream that declares no real frame rate
(`r_frame_rate` 0/0) `ff_open_movie` returns 0; the video stream in use is that
stream, so the second rescale step of `my_seek_frame` is handed the divisor
`r_frame_rate.num * 1 = 0`, and the target of every request is what
`av_rescale_rnd` answers for a divisor that is not positive. -/
theorem rescale_divisor_zero :
    (ff_open_movie norate_lib (ff_create 2) ['a'] 2).map (fun r => (r.1, r.2.1)) =
      some (0, norate_open) ∧
    video_stream norate_open = some norate_stream ∧
    norate_stream.r_frame_rate.num = 0 ∧
    norate_stream.r_frame_rate.num * c1_Q.den = 0 ∧
    seek_timestamp norate_open norate_media.ctx norate_stream 150 = AV_NOPTS_VALUE :=
  ⟨norate_open_eq, rfl, rfl, rfl, by decide⟩

/-! ### The reads of `check_path` -/

/-- C18 at the failing inputs: for the strings `a` and the empty string the
last test of `check_path` is evaluated and starts to read at index -2 and -3,
before the string; what `check_path` returns for the string `.` then depends
on the two bytes in front of it. -/
theorem check_path_reads_before_buffer :
    check_path_suffix_index ['a'] = some (-2) ∧
    check_path_suffix_index [] = some (-3) ∧
    check_path_suffix_index ['.'] = some (-2) ∧
    check_path [] ['.'] = 0 ∧
    check_path ['/', '.'] ['.'] = -1 := by
  refine ⟨by decide, by decide, by decide, by decide, by decide⟩

end Harvid
